import Mathlib

/-!
# subs-api: month dates, request validation and the record service

A shallow embedding of the Go packages `internal/application`, `internal/storage`
and `internal/facade/rest`, with the pieces of the Go standard library they rely on
(`time.Parse` and `Time.Format` for the layout `"01-2006"`, `strings.Split`).

Conventions:
* a Go `string` is a Lean `String`, read through its list of characters; the layout
  only ever matches ASCII digits and `-`, which are single bytes in UTF-8, so byte
  indexing and character indexing agree wherever a parse can still succeed;
* a Go `int` is an `Int`, a pointer `*T` is an `Option T`;
* a Go result pair `(*T, error)` is an `Except GoError _`: `.error e` is `(nil, e)`,
  and where a caller tests the response for `nil` the success value is an `Option`;
* the PostgreSQL table is an explicit list of rows passed through every operation.
-/

set_option autoImplicit false

/-! ## Go standard library: errors -/

/-- The three ways `time.Parse` gives up on a value for the layout `"01-2006"`. -/
inductive ParseDetail
  | cannotParse
  | monthOutOfRange
  | extraText
  deriving DecidableEq, Repr

/-- A `*time.ParseError`: the layout, the value, the layout element that failed, the
rest of the value at the point of failure, and which message Parse attached. -/
structure ParseError where
  Layout : String
  Value : String
  LayoutElem : String
  ValueElem : String
  Detail : ParseDetail
  deriving DecidableEq, Repr

/-- Go `error` values as the handlers build them: `errors.New(msg)` (and `fmt.Errorf`
without a wrapping verb), a `*time.ParseError`, and `fmt.Errorf(msg + ": %w", err)`. -/
inductive GoError
  | New (msg : String)
  | Parse (e : ParseError)
  | Wrap (msg : String) (err : GoError)
  deriving DecidableEq, Repr

/-- The lower-case hexadecimal digit of `n < 16` (`lowerhex[n]`). -/
def time.lowerhex (n : Nat) : Char :=
  if n < 10 then Char.ofNat (48 + n) else Char.ofNat (87 + n)

/-- The double-quoted form `time.quote` gives a value inside a parse error text:
printable ASCII is copied, with a backslash before the quote and the backslash; every
byte of any other character is written as a backslash, `x` and two hex digits. -/
def time.quote (s : String) : String :=
  String.mk (['"'] ++ s.data.flatMap (fun c =>
    if c.toNat ≥ 128 ∨ c.toNat < 32 then
      (String.utf8EncodeChar c).flatMap (fun b =>
        [Char.ofNat 92, 'x', time.lowerhex (b.toNat / 16), time.lowerhex (b.toNat % 16)])
    else if c = '"' ∨ c = Char.ofNat 92 then [Char.ofNat 92, c]
    else [c]) ++ ['"'])

/-- Go `(*time.ParseError).Error`. -/
def ParseError.Error (e : ParseError) : String :=
  match e.Detail with
  | .cannotParse =>
      "parsing time " ++ time.quote e.Value ++ " as " ++ time.quote e.Layout ++
        ": cannot parse " ++ time.quote e.ValueElem ++ " as " ++ time.quote e.LayoutElem
  | .monthOutOfRange => "parsing time " ++ time.quote e.Value ++ ": month out of range"
  | .extraText =>
      "parsing time " ++ time.quote e.Value ++ ": extra text: " ++ time.quote e.ValueElem

/-- The `Error()` text of an error; `%w` renders the wrapped error's text. -/
def GoError.Error : GoError → String
  | .New msg => msg
  | .Parse e => e.Error
  | .Wrap msg err => msg ++ ": " ++ err.Error

/-- Go `errors.Unwrap`. -/
def GoError.Unwrap : GoError → Option GoError
  | .Wrap _ err => some err
  | _ => none

/-! ## Go standard library: `time` for the layout `"01-2006"` -/

/-- A `time.Time` at midnight UTC, by its calendar date (all the handlers ever hold). -/
structure time.Time where
  year : Int
  month : Nat
  day : Nat
  deriving DecidableEq, Repr

/-- Go `'0' <= c && c <= '9'` on the byte `c`. -/
def time.isDigitByte (c : Char) : Bool := decide (48 ≤ c.toNat ∧ c.toNat ≤ 57)

/-- Go `int(c - '0')`. -/
def time.digitVal (c : Char) : Nat := c.toNat - 48

/-- Go `time.isDigit(s, i)`: `s` has a decimal digit at index `i`. -/
def time.isDigit (s : List Char) (i : Nat) : Bool :=
  match s.get? i with
  | some c => time.isDigitByte c
  | none => false

/-- Go `time.getnum(s, fixed)`: a one- or two-digit number at the head of `s`; with
`fixed` both digits are required. `none` is `errBad`. -/
def time.getnum (s : List Char) (fixed : Bool) : Option (Nat × List Char) :=
  if !time.isDigit s 0 then none
  else if !time.isDigit s 1 then
    if fixed then none
    else some (time.digitVal (s.headD '0'), s.drop 1)
  else some (time.digitVal (s.headD '0') * 10 + time.digitVal ((s.drop 1).headD '0'), s.drop 2)

/-- Go `time.leadingInt`: consume leading digits into `x`; `none` is the overflow error. -/
def time.leadingInt (x : Nat) : List Char → Option (Nat × List Char)
  | [] => some (x, [])
  | c :: rest =>
    if !time.isDigitByte c then some (x, c :: rest)
    else if x > 2 ^ 63 / 10 then none
    else
      let x1 := x * 10 + time.digitVal c
      if x1 > 2 ^ 63 then none else time.leadingInt x1 rest

/-- Go `time.atoi`: an optional sign, then digits up to the end of the string. -/
def time.atoi (s : List Char) : Option Int :=
  let neg := decide (s.head? = some '-')
  let body := if s.head? = some '-' ∨ s.head? = some '+' then s.drop 1 else s
  match time.leadingInt 0 body with
  | some (q, []) => some (if neg then -(q : Int) else (q : Int))
  | _ => none

/-- Go `time.Parse("01-2006", value)`, chunk by chunk as `Parse` walks the layout:
the two-digit month (`stdZeroMonth`), the literal `-`, the four-digit year
(`stdLongYear`), then nothing more. The day defaults to 1, which every month has. -/
def time.Parse (value : String) : Except ParseError time.Time :=
  let bad (layoutElem : String) (rest : List Char) (d : ParseDetail) : ParseError :=
    ⟨"01-2006", value, layoutElem, String.mk rest, d⟩
  let v0 := value.data
  match time.getnum v0 true with
  | none => .error (bad "01" v0 .cannotParse)
  | some (month, v1) =>
    if month ≤ 0 ∨ 12 < month then .error (bad "01" v1 .monthOutOfRange)
    else
      match v1 with
      | [] => .error (bad "-" v1 .cannotParse)
      | c :: v2 =>
        if c ≠ '-' then .error (bad "-" v1 .cannotParse)
        else if v2.length < 4 ∨ !time.isDigit v2 0 then .error (bad "2006" v2 .cannotParse)
        else
          match time.atoi (v2.take 4) with
          | none => .error (bad "2006" v2 .cannotParse)
          | some year =>
            let v3 := v2.drop 4
            if v3.length ≠ 0 then .error (bad "" v3 .extraText)
            else .ok ⟨year, month, 1⟩

/-- Go `t.Before(u)` for two midnight-UTC instants: the earlier calendar date. -/
def time.Time.Before (t u : time.Time) : Bool :=
  decide (t.year < u.year ∨ (t.year = u.year ∧
    (t.month < u.month ∨ (t.month = u.month ∧ t.day < u.day))))

/-- The decimal digit character of `d < 10`. -/
def time.digitChar (d : Nat) : Char := Char.ofNat (48 + d)

/-- Go `time.appendInt(b, x, width)`: the sign, then `x` in decimal, zero-padded to
`width`; the two- and four-digit fast paths are spelled out as in the source. -/
def time.appendInt (x : Int) (width : Nat) : List Char :=
  let u := x.natAbs
  let sign : List Char := if x < 0 then ['-'] else []
  if width = 2 ∧ u < 100 then
    sign ++ [time.digitChar (u / 10), time.digitChar (u % 10)]
  else if width = 4 ∧ u < 10000 then
    sign ++ [time.digitChar (u / 100 / 10), time.digitChar (u / 100 % 10),
             time.digitChar (u % 100 / 10), time.digitChar (u % 100 % 10)]
  else
    let ds := Nat.toDigits 10 u
    sign ++ List.replicate (width - ds.length) '0' ++ ds

/-- Go `t.Format("01-2006")`: zero-padded month, `-`, four-digit year. -/
def time.Time.Format (t : time.Time) : String :=
  String.mk (time.appendInt (t.month : Int) 2 ++ ['-'] ++ time.appendInt t.year 4)

/-! ## `internal/application`: validateDates -/

namespace application

/-- Go `validateDates(start, end *string) error`; `none` is the `nil` error. -/
def validateDates (start end_ : Option String) : Option GoError :=
  let startR : Except GoError time.Time :=
    match start with
    | none => .ok ⟨1, 1, 1⟩
    | some s =>
      match time.Parse s with
      | .error err => .error (.Wrap "invalid start_date format, expected MM-YYYY" (.Parse err))
      | .ok t => .ok t
  match startR with
  | .error e => some e
  | .ok startTime =>
    let endR : Except GoError time.Time :=
      match end_ with
      | none => .ok ⟨1, 1, 1⟩
      | some s =>
        match time.Parse s with
        | .error err => .error (.Wrap "invalid end_date format, expected MM-YYYY" (.Parse err))
        | .ok t => .ok t
    match endR with
    | .error e => some e
    | .ok endTime =>
      if start.isSome ∧ end_.isSome ∧ endTime.Before startTime then
        some (.New "end_date cannot be before start_date")
      else none

end application

/-! ## Go standard library and google/uuid: strings and identifiers -/

/-- Go `strings.Split(s, sep)` for a one-byte separator: the pieces between the
separators, in order; a string without the separator is its own single piece. -/
def strings.splitChars (sep : Char) : List Char → List (List Char)
  | [] => [[]]
  | c :: rest =>
    if c = sep then [] :: strings.splitChars sep rest
    else
      match strings.splitChars sep rest with
      | piece :: pieces => (c :: piece) :: pieces
      | [] => [[c]]

/-- Go `strings.Split(s, "-")`. -/
def strings.Split (s : String) (sep : Char) : List String :=
  (strings.splitChars sep s.data).map String.mk

/-- Go `strings.Contains(s, substr)`. -/
def strings.Contains (s substr : String) : Bool :=
  s.data.tails.any (fun t => substr.data.isPrefixOf t)

/-- A `uuid.UUID`: sixteen bytes, held as the 128-bit number they spell. -/
structure uuid.UUID where
  n : Nat
  deriving DecidableEq, Repr

/-- Go `uuid.Nil`, the all-zero identifier. -/
def uuid.Nil : uuid.UUID := ⟨0⟩

/-- Go `UUID.String`: the form `xxxxxxxx-xxxx-xxxx-xxxx-xxxxxxxxxxxx` in lower-case hex. -/
def uuid.UUID.String (u : uuid.UUID) : String :=
  let hex (first count : Nat) : List Char :=
    (List.range' first count).map (fun i => time.lowerhex (u.n / 16 ^ (31 - i) % 16))
  String.mk (hex 0 8 ++ ['-'] ++ hex 8 4 ++ ['-'] ++ hex 12 4 ++ ['-'] ++ hex 16 4 ++ ['-']
    ++ hex 20 12)

/-! ## The store: the `subscriptions` table -/

namespace pg

/-- Modelled from the spec: one row of the `subscriptions` table (the table declaration
under `migrations/sql` is not among the sources). The spec's data model gives the
columns: `id`, `user_id`, `service_name`, `price`, `start_date` and the optional
`end_date`, both dates being first-of-month calendar dates. -/
structure Row where
  id : uuid.UUID
  user_id : uuid.UUID
  service_name : String
  price : Int
  start_date : time.Time
  end_date : Option time.Time
  deriving DecidableEq, Repr

/-- The table: its rows, in insertion order. -/
abbrev DB := List Row

/-- What the environment decides for one storage call: whether a connection can be
acquired, whether the engine fails the statement for a reason of its own, the id the
store generates should the call insert a row, and, for a statement whose rows are read
one by one with `rows.Next()`, where such a failure shows: `failsAfter = none` when
`conn.Query` itself returns the error, `failsAfter = some k` when the statement starts
and fails after `k` rows have been handed over, so that `rows.Next()` returns false and
the error stays in `rows.Err()`. -/
structure Env where
  acquireErr : Option GoError
  execErr : Option GoError
  newId : uuid.UUID
  failsAfter : Option Nat
  deriving Repr

/-- Gregorian leap year. -/
def isLeap (y : Nat) : Bool := decide (y % 4 = 0 ∧ (y % 100 ≠ 0 ∨ y % 400 = 0))

/-- Number of days of month `m` in year `y`. -/
def daysIn (m y : Nat) : Nat :=
  if m = 2 then (if isLeap y then 29 else 28)
  else if m = 4 ∨ m = 6 ∨ m = 9 ∨ m = 11 then 30
  else 31

/-- One numeric field of a date text: one to `width` decimal digits, read as a number. -/
def readField (width : Nat) (t : List Char) : Option Nat :=
  if 1 ≤ t.length ∧ t.length ≤ width ∧ t.all Char.isDigit then
    some (t.foldl (fun n d => n * 10 + (d.toNat - 48)) 0)
  else none

/-- Modelled from the spec: the store reads a date parameter given as text in the
storage form `YYYY-MM-DD` (spec: "stored as the first calendar day of that month
(`YYYY-MM-01`)"): a four-digit year, a month and a day, separated by `-` and naming an
existing calendar day. As PostgreSQL's date input reads the fields as numbers, the
month and the day may be written with one digit (`2025-9-01` is 1 September 2025).
Any other text is not a date here; spellings the engine may accept beyond these (month
names, years of another length) are not modelled. -/
def readDate (s : String) : Option time.Time :=
  match strings.splitChars '-' s.data with
  | [yt, mt, dt] =>
    match (if yt.length = 4 then readField 4 yt else none), readField 2 mt, readField 2 dt with
    | some y, some m, some d =>
      if 1 ≤ m ∧ m ≤ 12 ∧ 1 ≤ d ∧ d ≤ daysIn m y then some ⟨(y : Int), m, d⟩ else none
    | _, _, _ => none
  | _ => none

/-- The engine's complaint about a text that is not a date. -/
def errInvalidDate : GoError :=
  .New "ERROR: invalid input syntax for type date (SQLSTATE 22007)"

/-- The engine's complaint about a second row with the same `id` (spec: "`id` is
immutable and unique"). -/
def errDuplicateKey : GoError :=
  .New "ERROR: duplicate key value violates unique constraint (SQLSTATE 23505)"

/-- Go `pgx.ErrNoRows`. -/
def ErrNoRows : GoError := .New "no rows in result set"

/-- SQL `INSERT INTO subscriptions (user_id, service_name, price, start_date, end_date)
VALUES ($1, $2, $3, $4, $5) RETURNING id`: the two dates arrive as text. -/
def insert (env : Env) (user_id : uuid.UUID) (service_name : String) (price : Int)
    (startISO : String) (endVal : Option String) (db : DB) : Except GoError (uuid.UUID × DB) :=
  match env.execErr with
  | some err => .error err
  | none =>
    match readDate startISO with
    | none => .error errInvalidDate
    | some startDate =>
      let endDate : Except GoError (Option time.Time) :=
        match endVal with
        | none => .ok none
        | some t =>
          match readDate t with
          | none => .error errInvalidDate
          | some d => .ok (some d)
      match endDate with
      | .error err => .error err
      | .ok endDate =>
        if db.any (fun r => r.id = env.newId) then .error errDuplicateKey
        else .ok (env.newId, db ++ [⟨env.newId, user_id, service_name, price, startDate, endDate⟩])

/-- SQL `UPDATE subscriptions SET service_name = COALESCE($2, service_name), price =
COALESCE($3, price), start_date = COALESCE($4, start_date), end_date = COALESCE($5,
end_date) WHERE id = $1`; the result is the number of rows affected and the new table. -/
def update (id : uuid.UUID) (service_name : Option String) (price : Option Int)
    (startDate endDate : Option time.Time) (db : DB) : Nat × DB :=
  (db.countP (fun r => r.id = id),
   db.map (fun r =>
    if r.id = id then
      { r with
        service_name := service_name.getD r.service_name
        price := price.getD r.price
        start_date := startDate.getD r.start_date
        end_date := match endDate with
          | some d => some d
          | none => r.end_date }
    else r))

/-- SQL `DELETE FROM subscriptions WHERE id = $1`: rows affected and the new table. -/
def delete (id : uuid.UUID) (db : DB) : Nat × DB :=
  (db.countP (fun r => r.id = id), db.filter (fun r => r.id ≠ id))

end pg

/-! ## `internal/storage` -/

namespace storage

structure CreateRequest where
  UserID : uuid.UUID
  ServiceName : String
  Price : Int
  StartDate : String
  EndDate : Option String
  deriving DecidableEq, Repr

structure CreateResponse where
  ID : uuid.UUID
  deriving DecidableEq, Repr

structure GetInfoResponse where
  ID : uuid.UUID
  UserID : uuid.UUID
  ServiceName : String
  Price : Int
  StartDate : String
  EndDate : Option String
  deriving DecidableEq, Repr

structure ListRequest where
  UserID : Option uuid.UUID
  ServiceName : Option String
  From : Option String
  To : Option String
  Limit : Option Int
  Offset : Option Int
  deriving DecidableEq, Repr

structure ListResponse where
  Subscriptions : List GetInfoResponse
  deriving DecidableEq, Repr

structure UpdateRequest where
  ServiceName : Option String
  Price : Option Int
  StartDate : Option String
  EndDate : Option String
  deriving DecidableEq, Repr

structure UpdateResponse where
  Updated : Bool
  deriving DecidableEq, Repr

structure DeleteRequest where
  ID : uuid.UUID
  deriving DecidableEq, Repr

structure TotalRequest where
  UserID : Option uuid.UUID
  ServiceName : Option String
  From : String
  To : String
  deriving DecidableEq, Repr

/-- The date conversion of `Create`: `parts := strings.Split(date, "-")`, the check
`len(parts) != 2` (here `none`), and `fmt.Sprintf("%s-%s-01", parts[1], parts[0])`. -/
def toISO (date : String) : Option String :=
  match strings.Split date '-' with
  | [p0, p1] => some (p1 ++ "-" ++ p0 ++ "-01")
  | _ => none

/-- Go `(*Service).Create`. The request is never `nil` here: the method dereferences it
unchecked and its one caller passes a literal. -/
def Create (env : pg.Env) (request : CreateRequest) (db : pg.DB) :
    Except GoError CreateResponse × pg.DB :=
  match env.acquireErr with
  | some err => (.error err, db)
  | none =>
    match toISO request.StartDate with
    | none => (.error (.New "invalid start_date format, expected MM-YYYY"), db)
    | some startISO =>
      let endVal : Except GoError (Option String) :=
        match request.EndDate with
        | none => .ok none
        | some e =>
          match toISO e with
          | none => .error (.New "invalid end_date format, expected MM-YYYY")
          | some endISO => .ok (some endISO)
      match endVal with
      | .error err => (.error err, db)
      | .ok endVal =>
        match pg.insert env request.UserID request.ServiceName request.Price startISO endVal db with
        | .error err => (.error err, db)
        | .ok (id, db1) => (.ok ⟨id⟩, db1)

/-- Go `(*Service).GetInfo`: `.ok none` is the pair `(nil, nil)`. A scan error counts as
"no row" when it is `pgx.ErrNoRows` or its text contains `"no rows"`; the text of
`pgx.ErrNoRows` contains it, so the text test covers the three tests of the source. -/
def GetInfo (env : pg.Env) (id : uuid.UUID) (db : pg.DB) :
    Except GoError (Option GetInfoResponse) × pg.DB :=
  if id = uuid.Nil then (.error (.New "subscription with id not found"), db)
  else
    match env.acquireErr with
    | some err => (.error err, db)
    | none =>
      let row : Except GoError pg.Row :=
        match env.execErr with
        | some err => .error err
        | none =>
          match db.find? (fun r => r.id = id) with
          | none => .error pg.ErrNoRows
          | some r => .ok r
      match row with
      | .error err =>
        if strings.Contains err.Error "no rows" then (.ok none, db) else (.error err, db)
      | .ok r =>
        (.ok (some
          { ID := id
            UserID := r.user_id
            ServiceName := r.service_name
            Price := r.price
            StartDate := r.start_date.Format
            EndDate := r.end_date.map time.Time.Format }), db)

/-- Go `(*Service).Update`. -/
def Update (env : pg.Env) (id : uuid.UUID) (request : Option UpdateRequest) (db : pg.DB) :
    Except GoError UpdateResponse × pg.DB :=
  match request with
  | none => (.error (.New "request object is nil"), db)
  | some request =>
    match env.acquireErr with
    | some err => (.error err, db)
    | none =>
      let startDate : Except GoError (Option time.Time) :=
        match request.StartDate with
        | none => .ok none
        | some s =>
          match time.Parse s with
          | .error err => .error (.Wrap "invalid start_date format" (.Parse err))
          | .ok t => .ok (some t)
      match startDate with
      | .error err => (.error err, db)
      | .ok startDate =>
        let endDate : Except GoError (Option time.Time) :=
          match request.EndDate with
          | none => .ok none
          | some s =>
            match time.Parse s with
            | .error err => .error (.Wrap "invalid end_date format" (.Parse err))
            | .ok t => .ok (some t)
        match endDate with
        | .error err => (.error err, db)
        | .ok endDate =>
          match env.execErr with
          | some err => (.error err, db)
          | none =>
            let (rowsAffected, db1) :=
              pg.update id request.ServiceName request.Price startDate endDate db
            (.ok ⟨decide (rowsAffected > 0)⟩, db1)

/-- Go `(*Service).Delete`; `none` is the `nil` error. -/
def Delete (env : pg.Env) (request : Option DeleteRequest) (db : pg.DB) :
    Option GoError × pg.DB :=
  match request with
  | none => (some (.New "request object is nil"), db)
  | some request =>
    if request.ID = uuid.Nil then (some (.New "id is required"), db)
    else
      match env.acquireErr with
      | some err => (some err, db)
      | none =>
        match env.execErr with
        | some err => (some err, db)
        | none =>
          let (rowsAffected, db1) := pg.delete request.ID db
          if rowsAffected = 0 then
            (some (.New ("subscription with id " ++ request.ID.String ++ " not found")), db1)
          else (none, db1)

end storage

/-! ## `internal/application` -/

namespace application

structure CreateRequest where
  UserID : uuid.UUID
  ServiceName : String
  Price : Int
  StartDate : String
  EndDate : Option String
  deriving DecidableEq, Repr

structure CreateResponse where
  ID : uuid.UUID
  deriving DecidableEq, Repr

structure GetInfoRequest where
  ID : uuid.UUID
  deriving DecidableEq, Repr

structure GetInfoResponse where
  ID : uuid.UUID
  UserID : uuid.UUID
  ServiceName : String
  Price : Int
  StartDate : String
  EndDate : Option String
  deriving DecidableEq, Repr

structure ListRequest where
  UserID : Option uuid.UUID
  ServiceName : Option String
  From : Option String
  To : Option String
  Limit : Option Int
  Offset : Option Int
  deriving DecidableEq, Repr

structure ListResponse where
  Subscriptions : List GetInfoResponse
  deriving DecidableEq, Repr

structure UpdateRequest where
  ServiceName : Option String
  Price : Option Int
  StartDate : Option String
  EndDate : Option String
  deriving DecidableEq, Repr

structure UpdateResponse where
  Updated : Bool
  deriving DecidableEq, Repr

structure DeleteRequest where
  ID : uuid.UUID
  deriving DecidableEq, Repr

structure DeleteResponse where
  Deleted : Bool
  deriving DecidableEq, Repr

structure TotalRequest where
  UserID : Option uuid.UUID
  ServiceName : Option String
  From : String
  To : String
  deriving DecidableEq, Repr

structure TotalResponse where
  Total : Int
  deriving DecidableEq, Repr

/-! Each method of `Service` takes the method of `s.db` (the `SubscriptionsStorage`
interface) it calls as its first argument, and threads the store's state `σ`. -/

/-- Go `(*Service).Create`. -/
def Create {σ : Type}
    (dbCreate : storage.CreateRequest → σ → Except GoError storage.CreateResponse × σ)
    (request : Option CreateRequest) (s : σ) : Except GoError (Option CreateResponse) × σ :=
  match request with
  | none => (.error (.New "request cannot be nil"), s)
  | some request =>
    if request.UserID = uuid.Nil then (.error (.New "user_id is required"), s)
    else if request.ServiceName = "" then (.error (.New "service_name is required"), s)
    else if request.Price ≤ 0 then (.error (.New "price must be greater than 0"), s)
    else
      match validateDates (some request.StartDate) request.EndDate with
      | some err => (.error err, s)
      | none =>
        match dbCreate
          { UserID := request.UserID
            ServiceName := request.ServiceName
            Price := request.Price
            StartDate := request.StartDate
            EndDate := request.EndDate } s with
        | (.error err, s1) => (.error (.Wrap "create request" err), s1)
        | (.ok resp, s1) => (.ok (some ⟨resp.ID⟩), s1)

/-- Go `(*Service).GetInfo`; `.ok none` is the pair `(nil, nil)`. -/
def GetInfo {σ : Type}
    (dbGetInfo : uuid.UUID → σ → Except GoError (Option storage.GetInfoResponse) × σ)
    (request : Option GetInfoRequest) (s : σ) : Except GoError (Option GetInfoResponse) × σ :=
  match request with
  | none => (.error (.New "request cannot be nil"), s)
  | some request =>
    if request.ID = uuid.Nil then (.error (.New "id is required"), s)
    else
      match dbGetInfo request.ID s with
      | (.error err, s1) => (.error (.Wrap "failed to get subscription info" err), s1)
      | (.ok none, s1) => (.ok none, s1)
      | (.ok (some resp), s1) =>
        (.ok (some
          { ID := resp.ID
            UserID := resp.UserID
            ServiceName := resp.ServiceName
            Price := resp.Price
            StartDate := resp.StartDate
            EndDate := resp.EndDate }), s1)

/-- Go `(*Service).List`. -/
def List {σ : Type}
    (dbList : Option storage.ListRequest → σ → Except GoError storage.ListResponse × σ)
    (request : Option ListRequest) (s : σ) : Except GoError (Option ListResponse) × σ :=
  match request with
  | none => (.error (.New "request cannot be nil"), s)
  | some request =>
    match validateDates request.From request.To with
    | some err => (.error err, s)
    | none =>
      match dbList (some
        { UserID := request.UserID
          ServiceName := request.ServiceName
          From := request.From
          To := request.To
          Limit := request.Limit
          Offset := request.Offset }) s with
      | (.error err, s1) => (.error (.Wrap "failed to list subscriptions" err), s1)
      | (.ok storageResp, s1) =>
        (.ok (some ⟨storageResp.Subscriptions.map (fun sub =>
          { ID := sub.ID
            UserID := sub.UserID
            ServiceName := sub.ServiceName
            Price := sub.Price
            StartDate := sub.StartDate
            EndDate := sub.EndDate })⟩), s1)

/-- Go `(*Service).Update`. -/
def Update {σ : Type}
    (dbUpdate : uuid.UUID → Option storage.UpdateRequest → σ →
      Except GoError storage.UpdateResponse × σ)
    (id : uuid.UUID) (request : Option UpdateRequest) (s : σ) :
    Except GoError (Option UpdateResponse) × σ :=
  match request with
  | none => (.error (.New "request cannot be nil"), s)
  | some request =>
    if request.Price.isSome ∧ request.Price.getD 0 ≤ 0 then
      (.error (.New "price must be greater than 0"), s)
    else
      match validateDates request.StartDate request.EndDate with
      | some err => (.error err, s)
      | none =>
        match dbUpdate id (some
          { ServiceName := request.ServiceName
            Price := request.Price
            StartDate := request.StartDate
            EndDate := request.EndDate }) s with
        | (.error err, s1) => (.error (.Wrap "update request" err), s1)
        | (.ok resp, s1) => (.ok (some ⟨resp.Updated⟩), s1)

/-- Go `(*Service).Delete`. -/
def Delete {σ : Type}
    (dbDelete : Option storage.DeleteRequest → σ → Option GoError × σ)
    (request : Option DeleteRequest) (s : σ) : Except GoError (Option DeleteResponse) × σ :=
  match request with
  | none => (.error (.New "request cannot be nil"), s)
  | some request =>
    if request.ID = uuid.Nil then (.error (.New "id is required"), s)
    else
      match dbDelete (some { ID := request.ID }) s with
      | (some err, s1) => (.error (.Wrap "delete request" err), s1)
      | (none, s1) => (.ok (some ⟨true⟩), s1)

/-- Go `(*Service).GetTotalSubscriptionsPrice`. -/
def GetTotalSubscriptionsPrice {σ : Type}
    (dbTotal : Option storage.TotalRequest → σ → Except GoError Int × σ)
    (request : Option TotalRequest) (s : σ) : Except GoError (Option TotalResponse) × σ :=
  match request with
  | none => (.error (.New "request cannot be nil"), s)
  | some request =>
    match validateDates (some request.From) (some request.To) with
    | some err => (.error err, s)
    | none =>
      match dbTotal (some
        { UserID := request.UserID
          ServiceName := request.ServiceName
          From := request.From
          To := request.To }) s with
      | (.error err, s1) => (.error (.Wrap "get total subscriptions price" err), s1)
      | (.ok total, s1) => (.ok (some ⟨total⟩), s1)

end application

/-! ## A substitute store that records the calls it receives -/

/-- One call on the `SubscriptionsStorage` interface, with its arguments. -/
inductive StoreCall
  | Create (request : storage.CreateRequest)
  | GetInfo (id : uuid.UUID)
  | List (request : Option storage.ListRequest)
  | Update (id : uuid.UUID) (request : Option storage.UpdateRequest)
  | Delete (request : Option storage.DeleteRequest)
  | Total (request : Option storage.TotalRequest)
  deriving DecidableEq, Repr

/-- Wrap a one-argument store method so that every call is appended to a log kept
next to the store's own state. -/
def recorded {σ α ρ : Type} (call : α → StoreCall) (method : α → σ → ρ × σ) :
    α → σ × List StoreCall → ρ × (σ × List StoreCall) :=
  fun a st => ((method a st.1).1, ((method a st.1).2, st.2 ++ [call a]))

/-- The same for a two-argument store method (`Update`). -/
def recorded2 {σ α β ρ : Type} (call : α → β → StoreCall) (method : α → β → σ → ρ × σ) :
    α → β → σ × List StoreCall → ρ × (σ × List StoreCall) :=
  fun a b st => ((method a b st.1).1, ((method a b st.1).2, st.2 ++ [call a b]))

/-! ## `internal/facade/rest` -/

namespace rest

/-- What a handler writes: `fiber.Map` with an `"error"` entry (and `"details"` for a
body that does not parse), or the JSON of a response pointer (`none` renders `null`). -/
inductive Body (α : Type)
  | Error (error : String)
  | ErrorDetails (error details : String)
  | Json (resp : Option α)
  deriving DecidableEq, Repr

/-- The status code and body a handler answers with. -/
structure Reply (α : Type) where
  Status : Nat
  Body : Body α
  deriving DecidableEq, Repr

def StatusOK : Nat := 200
def StatusBadRequest : Nat := 400
def StatusNotFound : Nat := 404
def StatusInternalServerError : Nat := 500

/-- Go `(*Service).Delete`: `idParam` is `c.Params("id")`, `uuidParse` is `uuid.Parse`
of github.com/google/uuid (`none` when it returns an error) and `appDelete` is the
`Delete` method of `api.app`. -/
def Delete {σ : Type} (uuidParse : String → Option uuid.UUID)
    (appDelete : Option application.DeleteRequest → σ →
      Except GoError (Option application.DeleteResponse) × σ)
    (idParam : String) (s : σ) : Reply application.DeleteResponse × σ :=
  if idParam = "" then (⟨StatusBadRequest, .Error "id parameter is required"⟩, s)
  else
    match uuidParse idParam with
    | none => (⟨StatusBadRequest, .Error "invalid id format"⟩, s)
    | some subsID =>
      match appDelete (some { ID := subsID }) s with
      | (.error err, s1) => (⟨StatusInternalServerError, .Error err.Error⟩, s1)
      | (.ok none, s1) => (⟨StatusNotFound, .Error "subscription not found"⟩, s1)
      | (.ok (some resp), s1) => (⟨StatusOK, .Json (some resp)⟩, s1)

end rest

/-! ## The specification's vocabulary

These definitions follow the wording of the specification, not the code; the theorems
below compare them with the embedded functions. -/

namespace Spec

/-- Wording: "Exactly seven characters of the shape MM-YYYY: two decimal digits forming a month
in 01..12, a hyphen, then four decimal digits." -/
def isMonthYear (s : String) : Bool :=
  match s.data with
  | [m1, m2, h, y1, y2, y3, y4] =>
    m1.isDigit && m2.isDigit && h == '-' && y1.isDigit && y2.isDigit && y3.isDigit && y4.isDigit
      && decide (1 ≤ (m1.toNat - 48) * 10 + (m2.toNat - 48))
      && decide ((m1.toNat - 48) * 10 + (m2.toNat - 48) ≤ 12)
  | _ => false

/-- The month number a string of the shape MM-YYYY names (its first two digits). -/
def monthOf (s : String) : Nat :=
  match s.data with
  | m1 :: m2 :: _ => (m1.toNat - 48) * 10 + (m2.toNat - 48)
  | _ => 0

/-- The year a string of the shape MM-YYYY names (its last four digits). -/
def yearOf (s : String) : Nat :=
  match s.data with
  | [_, _, _, y1, y2, y3, y4] =>
    (y1.toNat - 48) * 1000 + (y2.toNat - 48) * 100 + (y3.toNat - 48) * 10 + (y4.toNat - 48)
  | _ => 0

/-- The first calendar day of the month a string of the shape MM-YYYY names. -/
def firstOfMonth (s : String) : time.Time := ⟨(yearOf s : Int), monthOf s, 1⟩

/-- Month `a` is earlier than month `b` (both MM-YYYY): an earlier year, or the same
year and an earlier month. -/
def earlier (a b : String) : Bool :=
  decide (yearOf a < yearOf b ∨ (yearOf a = yearOf b ∧ monthOf a < monthOf b))

/-- Wording: "Every present bound is a valid MM-YYYY string and, when both are present, the end
month is not earlier than the start month." -/
def datesOk (start end_ : Option String) : Bool :=
  (match start with
    | none => true
    | some s => isMonthYear s) &&
  (match end_ with
    | none => true
    | some e => isMonthYear e) &&
  (match start, end_ with
    | some s, some e => !earlier e s
    | _, _ => true)

/-- The conditions of the Create row of the validation table: "user_id is not the nil
UUID, service_name is not empty, price > 0, start_date is a valid MM-YYYY string, and
end_date is absent or is a valid MM-YYYY string not earlier than start_date". -/
def createOk (r : application.CreateRequest) : Bool :=
  decide (r.UserID ≠ uuid.Nil) && decide (r.ServiceName ≠ "") && decide (0 < r.Price)
    && datesOk (some r.StartDate) r.EndDate

/-- The date-order invariant of a stored subscription: "`end_date`, if set,
`>= start_date`". -/
def dateOrdered (r : pg.Row) : Bool :=
  match r.end_date with
  | none => true
  | some e => !e.Before r.start_date

end Spec

/-! ## Runs of the service against the store -/

/-- One mutating call on the application service, together with what the environment
decides for the storage call it may lead to. -/
inductive AppCall
  | Create (env : pg.Env) (request : Option application.CreateRequest)
  | Update (env : pg.Env) (id : uuid.UUID) (request : Option application.UpdateRequest)
  | Delete (env : pg.Env) (request : Option application.DeleteRequest)
  deriving Repr

/-- The table after one call of the application service wired to the storage service. -/
def AppCall.step (db : pg.DB) : AppCall → pg.DB
  | .Create env request => (application.Create (storage.Create env) request db).2
  | .Update env id request => (application.Update (storage.Update env) id request db).2
  | .Delete env request => (application.Delete (storage.Delete env) request db).2

/-- The table after a sequence of calls, starting from `db`. -/
def AppCall.run (db : pg.DB) (calls : List AppCall) : pg.DB :=
  calls.foldl AppCall.step db

/-! ## Concrete inputs -/

namespace Example

/-- An environment in which nothing fails and the store hands out the id 1. -/
def env : pg.Env := ⟨none, none, ⟨1⟩, none⟩

/-- A user. -/
def user : uuid.UUID := ⟨42⟩

/-- A valid create request: Netflix, price 10, January to February 2025. -/
def netflix : application.CreateRequest := ⟨user, "Netflix", 10, "01-2025", some "02-2025"⟩

/-- The row that request leaves in an empty table. -/
def netflixRow : pg.Row := ⟨⟨1⟩, user, "Netflix", 10, ⟨2025, 1, 1⟩, some ⟨2025, 2, 1⟩⟩

/-- An update that supplies a new start month only. -/
def onlyStart : application.UpdateRequest := ⟨none, none, some "03-2025", none⟩

/-- An update that supplies a new price only. -/
def onlyPrice : storage.UpdateRequest := ⟨none, some 25, none, none⟩

/-- The `uuid.Parse` of a router that only ever sees the canonical text of id 7. -/
def parse7 (s : String) : Option uuid.UUID :=
  if s = "00000000-0000-0000-0000-000000000007" then some ⟨7⟩ else none

end Example

/-! ## Go standard library: calendar arithmetic of `time` -/

/-- Go `time.isLeap(year)`. -/
def time.isLeap (year : Int) : Bool :=
  decide (year % 4 = 0 ∧ (year % 100 ≠ 0 ∨ year % 400 = 0))

/-- Go `time.daysIn(m, year)`: February by leap year; otherwise the alternation
31 30 31 30 31 30 31 31 30 31 30 31, which `30 + ((m + m>>3) & 1)` produces. -/
def time.daysIn (m : Nat) (year : Int) : Nat :=
  if m = 2 then (if time.isLeap year then 29 else 28)
  else 30 + (m + m / 8) % 2

/-- Go `time.norm(hi, lo, base)`: bring `lo` into `[0, base)`, carrying into `hi`. -/
def time.norm (hi lo base : Int) : Int × Int :=
  let (hi1, lo1) :=
    if lo < 0 then
      let n := (-lo - 1) / base + 1
      (hi - n, lo + n * base)
    else (hi, lo)
  if lo1 ≥ base then
    let n := lo1 / base
    (hi1 + n, lo1 - n * base)
  else (hi1, lo1)

/-- The calendar day after `t`. -/
def time.Time.nextDay (t : time.Time) : time.Time :=
  if t.day < time.daysIn t.month t.year then ⟨t.year, t.month, t.day + 1⟩
  else if t.month < 12 then ⟨t.year, t.month + 1, 1⟩
  else ⟨t.year + 1, 1, 1⟩

/-- The calendar day before `t`. -/
def time.Time.prevDay (t : time.Time) : time.Time :=
  if 1 < t.day then ⟨t.year, t.month, t.day - 1⟩
  else if 1 < t.month then ⟨t.year, t.month - 1, time.daysIn (t.month - 1) t.year⟩
  else ⟨t.year - 1, 12, 31⟩

/-- The calendar day `n` days after `t` (before, for negative `n`). -/
def time.Time.addDays (t : time.Time) (n : Int) : time.Time :=
  if 0 ≤ n then time.Time.nextDay^[n.toNat] t else time.Time.prevDay^[(-n).toNat] t

/-- Go `time.Date(year, month, day, 0, 0, 0, 0, time.UTC)`: the month is normalised
into the year by `norm`, and the instant is the first day of that month plus
`day - 1` days (`Date` adds `day - 1` to the day count of the first of the month). -/
def time.Date (year month day : Int) : time.Time :=
  let ym := time.norm year (month - 1) 12
  time.Time.addDays ⟨ym.1, (ym.2 + 1).toNat, 1⟩ (day - 1)

/-- Go `t.AddDate(years, months, days)`: `Date(year+years, month+months, day+days)`. -/
def time.Time.AddDate (t : time.Time) (years months days : Int) : time.Time :=
  time.Date (t.year + years) ((t.month : Int) + months) ((t.day : Int) + days)

/-- Go `fmt.Sprintf("%d", n)` for a non-negative `n`. -/
def fmt.d (n : Nat) : String := Nat.repr n

/-- Go `strings.Join(elems, sep)`. -/
def strings.Join (elems : List String) (sep : String) : String :=
  sep.intercalate elems

/-! ## The store: statements with parameters -/

namespace pg

/-- A query argument as the driver sends it. -/
inductive Arg
  | uuid (u : uuid.UUID)
  | text (s : String)
  | date (t : time.Time)
  | int (n : Int)
  | null
  deriving DecidableEq, Repr

/-- SQL `text LIKE pattern` with the default escape character, read pattern
character by pattern character: `%` matches any run of characters, `_` any one
character, a backslash makes the next pattern character literal (`escaped` says that
the previous pattern character was such a backslash), and every other character
matches itself. A pattern that ends in a lone backslash matches nothing here (the
engine rejects it). -/
def likeFrom (escaped : Bool) : List Char → List Char → Bool
  | [], t => !escaped && t.isEmpty
  | c :: p, t =>
    if escaped then
      match t with
      | [] => false
      | d :: rest => c == d && likeFrom false p rest
    else if c = '%' then t.tails.any (fun rest => likeFrom false p rest)
    else if c = '_' then
      match t with
      | [] => false
      | _ :: rest => likeFrom false p rest
    else if c = Char.ofNat 92 then likeFrom true p t
    else
      match t with
      | [] => false
      | d :: rest => c == d && likeFrom false p rest

/-- SQL `text LIKE pattern`. -/
def like (pattern text : List Char) : Bool := likeFrom false pattern text

/-- SQL `text ILIKE pattern`: `LIKE` after lower-casing both sides (the letters A to Z;
what else has a lower case depends on the locale of the database). -/
def ilike (text pattern : String) : Bool :=
  like (pattern.data.map Char.toLower) (text.data.map Char.toLower)

/-- SQL `a || b` on text: concatenation. -/
def concat (a b : String) : String := a ++ b

/-- One condition of a WHERE clause, as the engine reads it: `1=1`, or a column
compared with the parameter `$param`. -/
inductive Cond
  | always
  | userIdEq (param : Nat)
  | serviceNameILike (param : Nat)
  | startDateGe (param : Nat)
  | startDateLe (param : Nat)
  deriving DecidableEq, Repr

/-- Read a placeholder `$n` (decimal digits, no sign). -/
def readParam (t : List Char) : Option Nat :=
  match t with
  | c :: ds =>
    if c = '$' ∧ ds ≠ [] ∧ ds.all Char.isDigit then
      some (ds.foldl (fun n d => n * 10 + (d.toNat - 48)) 0)
    else none
  | [] => none

/-- Read one condition of the WHERE clause. -/
def readCond (t : List Char) : Option Cond :=
  if t = "1=1".data then some .always
  else
    match "user_id = ".data.isPrefixOf? t with
    | some p => (readParam p).map .userIdEq
    | none =>
      match "service_name ILIKE ".data.isPrefixOf? t with
      | some p => (readParam p).map .serviceNameILike
      | none =>
        match "start_date >= ".data.isPrefixOf? t with
        | some p => (readParam p).map .startDateGe
        | none =>
          match "start_date <= ".data.isPrefixOf? t with
          | some p => (readParam p).map .startDateLe
          | none => none

/-- Split the text of a WHERE clause at every ` AND `: `skip` counts the characters
of a separator still to be passed over. -/
def splitAndFrom : Nat → List Char → List (List Char)
  | _, [] => [[]]
  | skip + 1, _ :: rest => splitAndFrom skip rest
  | 0, a :: rest =>
    if " AND ".data.isPrefixOf (a :: rest) then [] :: splitAndFrom 4 rest
    else
      match splitAndFrom 0 rest with
      | piece :: more => (a :: piece) :: more
      | [] => [[a]]

/-- Split the text of a WHERE clause at every ` AND `. -/
def splitAnd (t : List Char) : List (List Char) := splitAndFrom 0 t

/-- The statement `SELECT id, user_id, service_name, price, start_date, end_date FROM
subscriptions WHERE ... ORDER BY start_date LIMIT $l OFFSET $o` as the engine reads
it: the conditions and the two placeholders. Any other text is a syntax error. -/
def readSelect (query : String) : Option (List Cond × Nat × Nat) :=
  match ("\n\t\tSELECT id, user_id, service_name, price, start_date, end_date" ++
      "\n\t\tFROM subscriptions\n\t\tWHERE ").data.isPrefixOf? query.data with
  | none => none
  | some rest =>
    match "\n\t\tORDER BY start_date\n\t\tLIMIT ".data.isPrefixOf?
        (rest.dropWhile (fun c => c ≠ '\n')) with
    | none => none
    | some paging =>
      match " OFFSET ".data.isPrefixOf? (paging.dropWhile (fun c => c ≠ ' ')) with
      | none => none
      | some offsetText =>
        match (splitAnd (rest.takeWhile (fun c => c ≠ '\n'))).mapM readCond,
            readParam (paging.takeWhile (fun c => c ≠ ' ')), readParam offsetText with
        | some conds, some l, some o => some (conds, l, o)
        | _, _, _ => none

/-- The argument bound to the placeholder `$n`. -/
def param (args : List Arg) (n : Nat) : Option Arg :=
  if n = 0 then none else args.get? (n - 1)

/-- The test a condition makes on a row under the given arguments; `none` when its
placeholder is unbound or bound to an argument of the wrong type. -/
def Cond.test (args : List Arg) : Cond → Option (Row → Bool)
  | .always => some (fun _ => true)
  | .userIdEq n =>
    match param args n with
    | some (.uuid u) => some (fun r => decide (r.user_id = u))
    | _ => none
  | .serviceNameILike n =>
    match param args n with
    | some (.text pattern) => some (fun r => ilike r.service_name pattern)
    | _ => none
  | .startDateGe n =>
    match param args n with
    | some (.date d) => some (fun r => !r.start_date.Before d)
    | _ => none
  | .startDateLe n =>
    match param args n with
    | some (.date d) => some (fun r => !d.Before r.start_date)
    | _ => none

/-- The engine's complaint about a statement it cannot run with these arguments. -/
def errStatement : GoError :=
  .New "ERROR: statement or arguments not accepted (SQLSTATE 42601)"

/-- The rows in the order of `ORDER BY start_date` (rows with equal dates keep their
table order; SQL leaves that order open). -/
def orderByStartDate (rows : List Row) : List Row :=
  rows.insertionSort (fun a b => !b.start_date.Before a.start_date)

/-- The engine running `conn.Query(ctx, query, args...)` for a statement of the
`SELECT ... FROM subscriptions WHERE ... ORDER BY start_date LIMIT ... OFFSET ...`
family: the rows that pass every condition, in order, after skipping OFFSET rows and
cut to LIMIT rows. -/
def Query (query : String) (args : List Arg) (db : DB) : Except GoError (List Row) :=
  match readSelect query with
  | none => .error errStatement
  | some (conds, l, o) =>
    match conds.mapM (Cond.test args), param args l, param args o with
    | some tests, some (.int limit), some (.int offset) =>
      if limit < 0 ∨ offset < 0 then .error errStatement
      else
        .ok (((orderByStartDate (db.filter (fun r => tests.all (fun t => t r)))).drop
          offset.toNat).take limit.toNat)
    | _, _, _ => .error errStatement

/-- The engine running the statement of `GetTotalSubscriptionsPrice`,
`SELECT COALESCE(SUM(price), 0) FROM subscriptions WHERE ($1::uuid IS NULL OR
user_id = $1) AND ($2::text IS NULL OR service_name ILIKE '%' || $2 || '%') AND
start_date >= $3 AND start_date <= $4`, on its four arguments. -/
def sumPrice (userID : Option uuid.UUID) (serviceName : Option String)
    (fromDate toDate : time.Time) (db : DB) : Int :=
  ((db.filter (fun r =>
    (match userID with
      | none => true
      | some u => decide (r.user_id = u)) &&
    (match serviceName with
      | none => true
      | some n => ilike r.service_name (concat (concat "%" n) "%")) &&
    !r.start_date.Before fromDate && !toDate.Before r.start_date)).map (fun r => r.price)).sum

end pg

/-! ## `internal/storage`: List and GetTotalSubscriptionsPrice -/

namespace storage

/-- The three variables `List` builds its statement in: `conds`, `args`, `argIdx`. -/
structure Builder where
  conds : List String
  args : List pg.Arg
  argIdx : Nat
  deriving DecidableEq, Repr

/-- One filter block of `List`: `conds = append(conds, cond)`, `args = append(args,
arg)`, `argIdx++`. -/
def Builder.add (b : Builder) (cond : String) (arg : pg.Arg) : Builder :=
  ⟨b.conds ++ [cond], b.args ++ [arg], b.argIdx + 1⟩

/-- The part of `(*Service).List` that builds the statement (from `var args` to
`args = append(args, limit, offset)`): the query text and its arguments, or the error
of an unparseable `From` or `To`. -/
def listQuery (request : ListRequest) : Except GoError (String × List pg.Arg) :=
  let b0 : Builder := ⟨["1=1"], [], 1⟩
  let b1 :=
    match request.UserID with
    | some userID =>
      if userID ≠ uuid.Nil then b0.add ("user_id = $" ++ fmt.d b0.argIdx) (.uuid userID)
      else b0
    | none => b0
  let b2 :=
    match request.ServiceName with
    | some serviceName =>
      if serviceName ≠ "" then
        b1.add ("service_name ILIKE $" ++ fmt.d b1.argIdx) (.text ("%" ++ serviceName ++ "%"))
      else b1
    | none => b1
  let b3 : Except GoError Builder :=
    match request.From with
    | some f =>
      match time.Parse f with
      | .error err => .error (.Wrap "invalid From date" (.Parse err))
      | .ok fromDate => .ok (b2.add ("start_date >= $" ++ fmt.d b2.argIdx) (.date fromDate))
    | none => .ok b2
  match b3 with
  | .error err => .error err
  | .ok b3 =>
    let b4 : Except GoError Builder :=
      match request.To with
      | some t =>
        match time.Parse t with
        | .error err => .error (.Wrap "invalid To date" (.Parse err))
        | .ok toDate =>
          .ok (b3.add ("start_date <= $" ++ fmt.d b3.argIdx) (.date (toDate.AddDate 0 1 (-1))))
      | none => .ok b3
    match b4 with
    | .error err => .error err
    | .ok b4 =>
      let limit : Int :=
        match request.Limit with
        | some l => if l > 0 then l else 50
        | none => 50
      let offset : Int :=
        match request.Offset with
        | some o => if o ≥ 0 then o else 0
        | none => 0
      let query :=
        "\n\t\tSELECT id, user_id, service_name, price, start_date, end_date" ++
        "\n\t\tFROM subscriptions\n\t\tWHERE " ++ strings.Join b4.conds " AND " ++
        "\n\t\tORDER BY start_date\n\t\tLIMIT $" ++ fmt.d b4.argIdx ++
        " OFFSET $" ++ fmt.d (b4.argIdx + 1)
      .ok (query, b4.args ++ [.int limit, .int offset])

/-- The row scan of `List` and `GetInfo`: the dates go out in the layout `01-2006`. -/
def scanRow (r : pg.Row) : GetInfoResponse :=
  { ID := r.id
    UserID := r.user_id
    ServiceName := r.service_name
    Price := r.price
    StartDate := r.start_date.Format
    EndDate := r.end_date.map time.Time.Format }

/-- Go `(*Service).GetTotalSubscriptionsPrice`; on an error the total returned with it
is 0. -/
def GetTotalSubscriptionsPrice (env : pg.Env) (request : Option TotalRequest) (db : pg.DB) :
    Except GoError Int × pg.DB :=
  match request with
  | none => (.error (.New "request object is nil"), db)
  | some request =>
    match env.acquireErr with
    | some err => (.error err, db)
    | none =>
      match time.Parse request.From with
      | .error err => (.error (.Wrap "invalid From date" (.Parse err)), db)
      | .ok fromDate =>
        match time.Parse request.To with
        | .error err => (.error (.Wrap "invalid To date" (.Parse err)), db)
        | .ok toDate =>
          match env.execErr with
          | some err => (.error err, db)
          | none =>
            (.ok (pg.sumPrice request.UserID request.ServiceName fromDate
              (toDate.AddDate 0 1 (-1)) db), db)

/-- Go `(*Service).List`. The error `conn.Query` returns is checked; the loop
`for rows.Next()` is not followed by a look at `rows.Err()`, so when the engine fails
while the rows are read, the method returns the records read so far and a nil error. -/
def List (env : pg.Env) (request : Option ListRequest) (db : pg.DB) :
    Except GoError ListResponse × pg.DB :=
  match request with
  | none => (.error (.New "request object is nil"), db)
  | some request =>
    match env.acquireErr with
    | some err => (.error err, db)
    | none =>
      match listQuery request with
      | .error err => (.error err, db)
      | .ok (query, args) =>
        match env.execErr with
        | some err =>
          match env.failsAfter with
          | none => (.error err, db)
          | some k =>
            match pg.Query query args db with
            | .error err => (.error err, db)
            | .ok rows => (.ok ⟨(rows.take k).map scanRow⟩, db)
        | none =>
          match pg.Query query args db with
          | .error err => (.error err, db)
          | .ok rows => (.ok ⟨rows.map scanRow⟩, db)

end storage

/-! ## `internal/facade/rest`: the other handlers

A handler's inputs are what fiber hands it: `c.Params("id")` as `idParam`, the query
parameters as a function `q` (`c.Query(key)`, `""` when the key is absent), and the
outcome of `c.BodyParser(&req)` as `body`. `uuidParse` stands for `uuid.Parse` and
`atoi` for `strconv.Atoi` (`none` when they return an error). -/

namespace rest

def StatusCreated : Nat := 201

/-- Go `(*Service).Create`. -/
def Create {σ : Type}
    (appCreate : Option application.CreateRequest → σ →
      Except GoError (Option application.CreateResponse) × σ)
    (body : Except GoError application.CreateRequest) (s : σ) :
    Reply application.CreateResponse × σ :=
  match body with
  | .error err => (⟨StatusBadRequest, .ErrorDetails "invalid request body" err.Error⟩, s)
  | .ok req =>
    if req.UserID = uuid.Nil then (⟨StatusBadRequest, .Error "user_id is required"⟩, s)
    else if req.ServiceName = "" then
      (⟨StatusBadRequest, .Error "service_name is required"⟩, s)
    else if req.Price ≤ 0 then (⟨StatusBadRequest, .Error "price must be greater than 0"⟩, s)
    else
      match time.Parse req.StartDate with
      | .error _ => (⟨StatusBadRequest, .Error "invalid start_date format"⟩, s)
      | .ok _ =>
        let endBad : Bool :=
          match req.EndDate with
          | some e =>
            if e ≠ "" then
              match time.Parse e with
              | .error _ => true
              | .ok _ => false
            else false
          | none => false
        if endBad then (⟨StatusBadRequest, .Error "invalid end_date format"⟩, s)
        else
          match appCreate (some req) s with
          | (.error err, s1) => (⟨StatusInternalServerError, .Error err.Error⟩, s1)
          | (.ok resp, s1) => (⟨StatusCreated, .Json resp⟩, s1)

/-- Go `(*Service).GetInfo`. -/
def GetInfo {σ : Type} (uuidParse : String → Option uuid.UUID)
    (appGetInfo : Option application.GetInfoRequest → σ →
      Except GoError (Option application.GetInfoResponse) × σ)
    (idParam : String) (s : σ) : Reply application.GetInfoResponse × σ :=
  if idParam = "" then (⟨StatusBadRequest, .Error "id parameter is required"⟩, s)
  else
    match uuidParse idParam with
    | none => (⟨StatusBadRequest, .Error "invalid id format"⟩, s)
    | some subsID =>
      match appGetInfo (some { ID := subsID }) s with
      | (.error err, s1) => (⟨StatusInternalServerError, .Error err.Error⟩, s1)
      | (.ok none, s1) => (⟨StatusNotFound, .Error "subscription not found"⟩, s1)
      | (.ok (some resp), s1) => (⟨StatusOK, .Json (some resp)⟩, s1)

/-- The first part of `GetList`: the request built from the query parameters, or the
400 reply of the first parameter that is not accepted. -/
def listRequest (uuidParse : String → Option uuid.UUID) (atoi : String → Option Int)
    (q : String → String) :
    Except (Reply application.ListResponse) application.ListRequest := do
  let userID ←
    if q "user_id" ≠ "" then
      match uuidParse (q "user_id") with
      | none => throw ⟨StatusBadRequest, .Error "invalid user_id"⟩
      | some uid => pure (some uid)
    else pure none
  let serviceName := if q "service_name" ≠ "" then some (q "service_name") else none
  let fromMonth ←
    if q "from" ≠ "" then
      match time.Parse (q "from") with
      | .error _ => throw ⟨StatusBadRequest, .Error "invalid From date format"⟩
      | .ok _ => pure (some (q "from"))
    else pure none
  let toMonth ←
    if q "to" ≠ "" then
      match time.Parse (q "to") with
      | .error _ => throw ⟨StatusBadRequest, .Error "invalid To date format"⟩
      | .ok _ => pure (some (q "to"))
    else pure none
  let limit ←
    if q "limit" ≠ "" then
      match atoi (q "limit") with
      | none => throw ⟨StatusBadRequest, .Error "invalid limit"⟩
      | some l =>
        if l ≤ 0 then throw ⟨StatusBadRequest, .Error "invalid limit"⟩ else pure (some l)
    else pure none
  let offset ←
    if q "offset" ≠ "" then
      match atoi (q "offset") with
      | none => throw ⟨StatusBadRequest, .Error "invalid offset"⟩
      | some o =>
        if o < 0 then throw ⟨StatusBadRequest, .Error "invalid offset"⟩ else pure (some o)
    else pure none
  pure
    { UserID := userID
      ServiceName := serviceName
      From := fromMonth
      To := toMonth
      Limit := limit
      Offset := offset }

/-- Go `(*Service).GetList`. -/
def GetList {σ : Type} (uuidParse : String → Option uuid.UUID) (atoi : String → Option Int)
    (appList : Option application.ListRequest → σ →
      Except GoError (Option application.ListResponse) × σ)
    (q : String → String) (s : σ) : Reply application.ListResponse × σ :=
  match listRequest uuidParse atoi q with
  | .error reply => (reply, s)
  | .ok req =>
    match appList (some req) s with
    | (.error err, s1) => (⟨StatusInternalServerError, .Error err.Error⟩, s1)
    | (.ok resp, s1) => (⟨StatusOK, .Json resp⟩, s1)

/-- Go `(*Service).Update`. -/
def Update {σ : Type} (uuidParse : String → Option uuid.UUID)
    (appUpdate : uuid.UUID → Option application.UpdateRequest → σ →
      Except GoError (Option application.UpdateResponse) × σ)
    (idParam : String) (body : Except GoError application.UpdateRequest) (s : σ) :
    Reply application.UpdateResponse × σ :=
  if idParam = "" then (⟨StatusBadRequest, .Error "id parameter is required"⟩, s)
  else
    match uuidParse idParam with
    | none => (⟨StatusBadRequest, .Error "invalid id format"⟩, s)
    | some id =>
      match body with
      | .error _ => (⟨StatusBadRequest, .Error "invalid request body"⟩, s)
      | .ok req =>
        let startBad : Bool :=
          match req.StartDate with
          | some d =>
            match time.Parse d with
            | .error _ => true
            | .ok _ => false
          | none => false
        if startBad then (⟨StatusBadRequest, .Error "invalid start date format"⟩, s)
        else
          let endBad : Bool :=
            match req.EndDate with
            | some d =>
              match time.Parse d with
              | .error _ => true
              | .ok _ => false
            | none => false
          if endBad then (⟨StatusBadRequest, .Error "invalid end date format"⟩, s)
          else
            match appUpdate id (some req) s with
            | (.error err, s1) => (⟨StatusInternalServerError, .Error err.Error⟩, s1)
            | (.ok resp, s1) => (⟨StatusOK, .Json resp⟩, s1)

/-- The first part of `GetTotalSubscriptionsPrice`: the request built from the query
parameters, or the 400 reply of the first parameter that is not accepted. -/
def totalRequest (uuidParse : String → Option uuid.UUID) (q : String → String) :
    Except (Reply application.TotalResponse) application.TotalRequest := do
  let userID ←
    if q "user_id" ≠ "" then
      match uuidParse (q "user_id") with
      | none => throw ⟨StatusBadRequest, .Error "invalid user_id"⟩
      | some uid => pure (some uid)
    else pure none
  let serviceName := if q "service_name" ≠ "" then some (q "service_name") else none
  if q "from" = "" then throw ⟨StatusBadRequest, .Error "from is required"⟩
  match time.Parse (q "from") with
  | .error _ =>
    throw ⟨StatusBadRequest, .Error "invalid From date format (expected MM-YYYY)"⟩
  | .ok _ =>
    if q "to" = "" then throw ⟨StatusBadRequest, .Error "to is required"⟩
    match time.Parse (q "to") with
    | .error _ =>
      throw ⟨StatusBadRequest, .Error "invalid To date format (expected MM-YYYY)"⟩
    | .ok _ =>
      pure
        { UserID := userID
          ServiceName := serviceName
          From := q "from"
          To := q "to" }

/-- Go `(*Service).GetTotalSubscriptionsPrice`. -/
def GetTotalSubscriptionsPrice {σ : Type} (uuidParse : String → Option uuid.UUID)
    (appTotal : Option application.TotalRequest → σ →
      Except GoError (Option application.TotalResponse) × σ)
    (q : String → String) (s : σ) : Reply application.TotalResponse × σ :=
  match totalRequest uuidParse q with
  | .error reply => (reply, s)
  | .ok req =>
    match appTotal (some req) s with
    | (.error err, s1) => (⟨StatusInternalServerError, .Error err.Error⟩, s1)
    | (.ok resp, s1) => (⟨StatusOK, .Json resp⟩, s1)

end rest

/-! ## The specification's vocabulary, continued -/

namespace Spec

/-- Wording: "day 31, 30, 29 or 28 according to the month and to whether the year is a
leap year". -/
def lastDay (month year : Nat) : Nat :=
  match month with
  | 2 => if year % 4 = 0 ∧ (year % 100 ≠ 0 ∨ year % 400 = 0) then 29 else 28
  | 4 => 30
  | 6 => 30
  | 9 => 30
  | 11 => 30
  | _ => 31

/-- The last calendar day of the month a string of the shape MM-YYYY names. -/
def lastOfMonth (s : String) : time.Time :=
  ⟨(yearOf s : Int), monthOf s, lastDay (monthOf s) (yearOf s)⟩

/-- The month of a string MM-YYYY, counted in months (year times twelve plus month). -/
def monthIndexOf (s : String) : Int := (yearOf s : Int) * 12 + monthOf s

/-- The month of a calendar date, counted in months. -/
def monthIndex (d : time.Time) : Int := d.year * 12 + d.month

/-- Calendar order on dates: `a` is not later than `b`. -/
def dateLe (a b : time.Time) : Bool :=
  decide (a.year < b.year ∨ (a.year = b.year ∧
    (a.month < b.month ∨ (a.month = b.month ∧ a.day ≤ b.day))))

/-- An effective filter of a List request is one that is present and, for `user_id`
and `service_name`, not the nil UUID or the empty string. -/
def userFilter (r : storage.ListRequest) : Option uuid.UUID :=
  match r.UserID with
  | some u => if u = uuid.Nil then none else some u
  | none => none

/-- The effective `service_name` filter of a List request. -/
def serviceFilter (r : storage.ListRequest) : Option String :=
  match r.ServiceName with
  | some n => if n = "" then none else some n
  | none => none

/-- The effective filters of a List request "in the order user_id, service_name, from,
to": each with the text of its condition up to the placeholder, and its value. -/
def effectiveFilters (r : storage.ListRequest) : List (String × pg.Arg) :=
  (match userFilter r with
    | some u => [("user_id = ", pg.Arg.uuid u)]
    | none => []) ++
  (match serviceFilter r with
    | some n => [("service_name ILIKE ", pg.Arg.text ("%" ++ n ++ "%"))]
    | none => []) ++
  (match r.From with
    | some f => [("start_date >= ", pg.Arg.date (firstOfMonth f))]
    | none => []) ++
  (match r.To with
    | some t => [("start_date <= ", pg.Arg.date (lastOfMonth t))]
    | none => [])

/-- The conditions of the filters with "the placeholders $1..$k in order", counting
from `first`. -/
def placeholders (first : Nat) : List (String × pg.Arg) → List String
  | [] => []
  | f :: fs => (f.1 ++ "$" ++ toString first) :: placeholders (first + 1) fs

/-- The condition the engine reads for a filter whose placeholder is `$param`. -/
def filterCond (f : String × pg.Arg) (param : Nat) : pg.Cond :=
  if f.1 = "user_id = " then .userIdEq param
  else if f.1 = "service_name ILIKE " then .serviceNameILike param
  else if f.1 = "start_date >= " then .startDateGe param
  else .startDateLe param

/-- The conditions the engine reads for the filters, numbered from `first`. -/
def numberedConds (first : Nat) : List (String × pg.Arg) → List pg.Cond
  | [] => []
  | f :: fs => filterCond f first :: numberedConds (first + 1) fs

/-- Wording: "the requested limit when it is present and > 0, and 50 in every other
case (absent, zero or negative)". -/
def effectiveLimit (limit : Option Int) : Int :=
  match limit with
  | some l => if 0 < l then l else 50
  | none => 50

/-- Wording: "0 when the offset is absent and the requested value when it is present
and >= 0"; a negative offset also counts as 0 here. -/
def effectiveOffset (offset : Option Int) : Int :=
  match offset with
  | some o => if 0 ≤ o then o else 0
  | none => 0

/-- The text of the List statement for the given conditions and the two placeholders
of LIMIT and OFFSET. -/
def selectText (conds : List String) (l o : Nat) : String :=
  "\n\t\tSELECT id, user_id, service_name, price, start_date, end_date" ++
  "\n\t\tFROM subscriptions\n\t\tWHERE " ++ " AND ".intercalate conds ++
  "\n\t\tORDER BY start_date\n\t\tLIMIT $" ++ toString l ++ " OFFSET $" ++ toString o

/-- Month-range selection of List: the row passes the effective `user_id` and
`service_name` filters and its start month lies between the months of `from` and `to`,
"both bounds inclusive at month granularity"; the row's `end_date` plays no part. -/
def listSelects (r : storage.ListRequest) (row : pg.Row) : Bool :=
  (match userFilter r with
    | some u => decide (row.user_id = u)
    | none => true) &&
  (match serviceFilter r with
    | some n => pg.ilike row.service_name ("%" ++ n ++ "%")
    | none => true) &&
  (match r.From with
    | some f => decide (monthIndexOf f ≤ monthIndex row.start_date)
    | none => true) &&
  (match r.To with
    | some t => decide (monthIndex row.start_date ≤ monthIndexOf t)
    | none => true)

/-- The rows TotalPrice sums over: those that pass the `user_id` filter (if supplied),
the `service_name` filter (if supplied) and "first-day(from) <= start_date <=
last-day(to)". -/
def totalSelects (r : storage.TotalRequest) (row : pg.Row) : Bool :=
  (match r.UserID with
    | some u => decide (row.user_id = u)
    | none => true) &&
  (match r.ServiceName with
    | some n => pg.ilike row.service_name ("%" ++ n ++ "%")
    | none => true) &&
  dateLe (firstOfMonth r.From) row.start_date && dateLe row.start_date (lastOfMonth r.To)

/-- Wording: "contains n as a case-insensitive substring". -/
def containsIgnoreCase (s n : String) : Bool :=
  strings.Contains (String.mk (s.data.map Char.toLower)) (String.mk (n.data.map Char.toLower))

/-- A filter string free of the pattern characters `%`, `_` and backslash. -/
def plain (n : String) : Bool :=
  n.data.all (fun c => c ≠ '%' && c ≠ '_' && c ≠ Char.ofNat 92)

end Spec

/-! ## Concrete inputs, continued -/

namespace Example

/-- A row that starts in September 2025. -/
def septRow : pg.Row := ⟨⟨2⟩, user, "Netflix", 10, ⟨2025, 9, 1⟩, some ⟨2025, 12, 1⟩⟩

/-- A row that starts in October 2025 and has no end date. -/
def octRow : pg.Row := ⟨⟨3⟩, user, "Spotify", 15, ⟨2025, 10, 1⟩, none⟩

end Example

/-! ## The specification's vocabulary: selection by date -/

namespace Spec

/-- The rows a List request selects, stated on dates: the row passes the effective
`user_id` and `service_name` filters and "first-day(from) <= start_date <=
last-day(to)" for the bounds that are present. -/
def listSelectsByDate (r : storage.ListRequest) (row : pg.Row) : Bool :=
  (match userFilter r with
    | some u => decide (row.user_id = u)
    | none => true) &&
  (match serviceFilter r with
    | some n => pg.ilike row.service_name ("%" ++ n ++ "%")
    | none => true) &&
  (match r.From with
    | some f => dateLe (firstOfMonth f) row.start_date
    | none => true) &&
  (match r.To with
    | some t => dateLe row.start_date (lastOfMonth t)
    | none => true)

end Spec

/-! ## Concrete inputs: query parameters -/

namespace Example

/-- Go `strconv.Atoi` on the few texts the examples pass as `limit` or `offset`. -/
def atoi (t : String) : Option Int :=
  if t = "10" then some 10
  else if t = "0" then some 0
  else if t = "-1" then some (-1)
  else none

/-- The query string `?limit=...`: every other parameter is absent. -/
def onlyLimit (limit : String) (key : String) : String :=
  if key = "limit" then limit else ""

end Example

/-! ## Lemmas: digits and the month-year layout -/

theorem time.isDigitByte_eq (c : Char) : c.isDigit = time.isDigitByte c := by
  simp only [Char.isDigit, time.isDigitByte, Char.toNat, ge_iff_le, UInt32.le_def,
    BitVec.le_def, Bool.decide_and]
  rfl

theorem time.digit_ne_sign (c : Char) (h : time.isDigitByte c = true) : c ≠ '-' ∧ c ≠ '+' := by
  constructor <;> (rintro rfl; revert h; decide)

theorem time.leadingInt_nondigit (x : Nat) (c : Char) (r : List Char) (h : time.isDigitByte c = false) :
    time.leadingInt x (c :: r) = some (x, c :: r) := by
  simp [time.leadingInt, h]

theorem time.leadingInt_digit (x : Nat) (c : Char) (r : List Char) (h : time.isDigitByte c = true)
    (hx : x < 100000) :
    time.leadingInt x (c :: r) = time.leadingInt (x * 10 + time.digitVal c) r := by
  have hv : time.digitVal c ≤ 9 := by
    simp [time.isDigitByte] at h; simp [time.digitVal]; omega
  have h1 : ¬ 922337203685477580 < x := by omega
  have h2 : ¬ 9223372036854775808 < x * 10 + time.digitVal c := by omega
  simp [time.leadingInt, h, h1, h2]

theorem time.atoi_four (a b c d : Char) (ha : time.isDigitByte a = true) :
    time.atoi [a, b, c, d] =
      if time.isDigitByte b && time.isDigitByte c && time.isDigitByte d then
        some (((time.digitVal a * 1000 + time.digitVal b * 100 + time.digitVal c * 10
          + time.digitVal d : Nat) : Int))
      else none := by
  obtain ⟨hm, hp⟩ := time.digit_ne_sign a ha
  have hva : time.digitVal a ≤ 9 := by
    simp [time.isDigitByte] at ha; simp [time.digitVal]; omega
  simp only [time.atoi, List.head?_cons, Option.some.injEq, hm, hp, or_self, if_false,
    decide_False]
  rw [time.leadingInt_digit 0 a _ ha (by omega)]
  cases hb : time.isDigitByte b
  · simp [time.leadingInt_nondigit _ b _ hb]
  have hvb : time.digitVal b ≤ 9 := by
    simp [time.isDigitByte] at hb; simp [time.digitVal]; omega
  rw [time.leadingInt_digit _ b _ hb (by omega)]
  cases hc : time.isDigitByte c
  · simp [time.leadingInt_nondigit _ c _ hc]
  have hvc : time.digitVal c ≤ 9 := by
    simp [time.isDigitByte] at hc; simp [time.digitVal]; omega
  rw [time.leadingInt_digit _ c _ hc (by omega)]
  cases hd : time.isDigitByte d
  · simp [time.leadingInt_nondigit _ d _ hd]
  rw [time.leadingInt_digit _ d _ hd (by omega)]
  simp [time.leadingInt]
  omega

theorem time.digitVal_le (c : Char) (h : time.isDigitByte c = true) : time.digitVal c ≤ 9 := by
  simp [time.isDigitByte] at h; simp [time.digitVal]; omega

theorem time.getnum_nil : time.getnum [] true = none := by simp [time.getnum, time.isDigit]

theorem time.getnum_one (a : Char) : time.getnum [a] true = none := by
  cases ha : time.isDigitByte a <;> simp [time.getnum, time.isDigit, ha]

theorem time.getnum_two (a b : Char) (r : List Char) :
    time.getnum (a :: b :: r) true =
      if time.isDigitByte a && time.isDigitByte b then
        some (time.digitVal a * 10 + time.digitVal b, r) else none := by
  cases ha : time.isDigitByte a <;> cases hb : time.isDigitByte b <;>
    simp [time.getnum, time.isDigit, ha, hb]

theorem time.Parse_ok_iff (s : String) (t : time.Time) :
    time.Parse s = .ok t ↔
      (Spec.isMonthYear s = true ∧ t = ⟨(Spec.yearOf s : Int), Spec.monthOf s, 1⟩) := by
  obtain ⟨l⟩ := s
  rcases l with _ | ⟨a, _ | ⟨b, r⟩⟩
  · simp [time.Parse, time.getnum_nil, Spec.isMonthYear]
  · simp [time.Parse, time.getnum_one, Spec.isMonthYear]
  simp only [time.Parse, time.getnum_two]
  cases ha : time.isDigitByte a
  · rcases r with _ | ⟨c, _ | ⟨d, _ | ⟨e, _ | ⟨f, _ | ⟨g, _ | ⟨h, l⟩⟩⟩⟩⟩⟩ <;>
      simp [Spec.isMonthYear, time.isDigitByte_eq, ha]
  cases hb : time.isDigitByte b
  · rcases r with _ | ⟨c, _ | ⟨d, _ | ⟨e, _ | ⟨f, _ | ⟨g, _ | ⟨h, l⟩⟩⟩⟩⟩⟩ <;>
      simp [Spec.isMonthYear, time.isDigitByte_eq, hb]
  simp only [Bool.and_self, if_true]
  by_cases hm : time.digitVal a * 10 + time.digitVal b ≤ 0 ∨ 12 < time.digitVal a * 10 + time.digitVal b
  · rw [if_pos hm]
    have : ¬ (1 ≤ (a.toNat - 48) * 10 + (b.toNat - 48) ∧ (a.toNat - 48) * 10 + (b.toNat - 48) ≤ 12) := by
      simp only [time.digitVal] at hm; omega
    rcases r with _ | ⟨c, _ | ⟨d, _ | ⟨e, _ | ⟨f, _ | ⟨g, _ | ⟨h, l⟩⟩⟩⟩⟩⟩ <;>
      simp [Spec.isMonthYear, time.isDigitByte_eq]
    intro _ _ _ _ _ _ _ h1; omega
  rw [if_neg hm]
  have hm1 : 1 ≤ (a.toNat - 48) * 10 + (b.toNat - 48) ∧
      (a.toNat - 48) * 10 + (b.toNat - 48) ≤ 12 := by
    simp only [time.digitVal] at hm; omega
  rcases r with _ | ⟨c, v2⟩
  · simp [Spec.isMonthYear]
  by_cases hc : c = '-'
  swap
  · rcases v2 with _ | ⟨d, _ | ⟨e, _ | ⟨f, _ | ⟨g, _ | ⟨h, l⟩⟩⟩⟩⟩ <;>
      simp [Spec.isMonthYear, time.isDigitByte_eq, hc]
  subst hc
  rcases v2 with _ | ⟨d, _ | ⟨e, _ | ⟨f, _ | ⟨g, rest⟩⟩⟩⟩
  · simp [Spec.isMonthYear]
  · simp [Spec.isMonthYear]
  · simp [Spec.isMonthYear]
  · simp [Spec.isMonthYear]
  cases hd : time.isDigitByte d
  · rcases rest with _ | ⟨h, l⟩ <;> simp [Spec.isMonthYear, time.isDigitByte_eq, hd, time.isDigit]
  have hlen : ¬ ((d :: e :: f :: g :: rest).length < 4 ∨
      (!time.isDigit (d :: e :: f :: g :: rest) 0) = true) := by
    simp [time.isDigit, hd]
  simp only [ne_eq, not_true_eq_false, if_false, hlen, List.take, time.atoi_four d e f g hd, List.drop]
  cases he : time.isDigitByte e
  · rcases rest with _ | ⟨h, l⟩ <;> simp [Spec.isMonthYear, time.isDigitByte_eq, he]
  cases hf : time.isDigitByte f
  · rcases rest with _ | ⟨h, l⟩ <;> simp [Spec.isMonthYear, time.isDigitByte_eq, hf]
  cases hg : time.isDigitByte g
  · rcases rest with _ | ⟨h, l⟩ <;> simp [Spec.isMonthYear, time.isDigitByte_eq, hg]
  rcases rest with _ | ⟨h, l⟩
  · simp [Spec.isMonthYear, time.isDigitByte_eq, ha, hb, hd, he, hf, hg, hm1, Spec.yearOf, Spec.monthOf, time.digitVal]
    constructor
    · intro h; rw [← h]
    · intro h; rw [h]
  · simp [Spec.isMonthYear]

theorem time.Parse_cases (s : String) :
    (Spec.isMonthYear s = true ∧
        time.Parse s = .ok ⟨(Spec.yearOf s : Int), Spec.monthOf s, 1⟩) ∨
      (Spec.isMonthYear s = false ∧ ∃ err, time.Parse s = .error err) := by
  cases h : time.Parse s with
  | ok t =>
    obtain ⟨h1, h2⟩ := (time.Parse_ok_iff s t).1 h
    exact Or.inl ⟨h1, by rw [h2]⟩
  | error err =>
    refine Or.inr ⟨?_, err, rfl⟩
    cases hv : Spec.isMonthYear s
    · rfl
    · have := (time.Parse_ok_iff s ⟨(Spec.yearOf s : Int), Spec.monthOf s, 1⟩).2 ⟨hv, rfl⟩
      rw [h] at this
      cases this

theorem GoError.Wrap_Error_data (msg : String) (err : GoError) :
    msg.data <+: (GoError.Wrap msg err).Error.data := by
  simp [GoError.Error, String.data_append]

theorem application.validateDates_start_bad (s : String) (e : Option String)
    (h : Spec.isMonthYear s = false) :
    ∃ err, application.validateDates (some s) e =
      some (.Wrap "invalid start_date format, expected MM-YYYY" (.Parse err)) := by
  rcases time.Parse_cases s with ⟨h1, _⟩ | ⟨_, err, h2⟩
  · rw [h] at h1; cases h1
  · exact ⟨err, by simp [application.validateDates, h2]⟩

theorem application.validateDates_end_bad (start : Option String) (e : String)
    (hs : ∀ s, start = some s → Spec.isMonthYear s = true)
    (h : Spec.isMonthYear e = false) :
    ∃ err, application.validateDates start (some e) =
      some (.Wrap "invalid end_date format, expected MM-YYYY" (.Parse err)) := by
  rcases time.Parse_cases e with ⟨h1, _⟩ | ⟨_, err, h2⟩
  · rw [h] at h1; cases h1
  · refine ⟨err, ?_⟩
    cases start with
    | none => simp [application.validateDates, h2]
    | some s =>
      rcases time.Parse_cases s with ⟨_, h3⟩ | ⟨h3, _⟩
      · simp [application.validateDates, h2, h3]
      · rw [hs s rfl] at h3; cases h3

theorem application.validateDates_both (s e : String)
    (hs : Spec.isMonthYear s = true) (he : Spec.isMonthYear e = true) :
    application.validateDates (some s) (some e) =
      if Spec.earlier e s then some (.New "end_date cannot be before start_date") else none := by
  rcases time.Parse_cases s with ⟨_, h1⟩ | ⟨h1, _⟩
  swap
  · rw [hs] at h1; cases h1
  rcases time.Parse_cases e with ⟨_, h2⟩ | ⟨h2, _⟩
  swap
  · rw [he] at h2; cases h2
  simp [application.validateDates, h1, h2, time.Time.Before, Spec.earlier]

theorem application.validateDates_none_iff (start end_ : Option String) :
    application.validateDates start end_ = none ↔ Spec.datesOk start end_ = true := by
  cases start with
  | none =>
    cases end_ with
    | none => simp [application.validateDates, Spec.datesOk]
    | some e =>
      rcases time.Parse_cases e with ⟨h1, h2⟩ | ⟨h1, err, h2⟩ <;>
        simp [application.validateDates, Spec.datesOk, h1, h2]
  | some s =>
    cases hs : Spec.isMonthYear s
    · obtain ⟨err, h⟩ := application.validateDates_start_bad s end_ hs
      simp [h, Spec.datesOk, hs]
    cases end_ with
    | none =>
      rcases time.Parse_cases s with ⟨h1, h2⟩ | ⟨h1, err, h2⟩ <;>
        simp [application.validateDates, Spec.datesOk, h1, h2]
    | some e =>
      cases he : Spec.isMonthYear e
      · obtain ⟨err, h⟩ := application.validateDates_end_bad (some s) e
          (by intro s1 h1; cases h1; exact hs) he
        simp [h, Spec.datesOk, hs, he]
      rw [application.validateDates_both s e hs he]
      cases hb : Spec.earlier e s <;> simp [Spec.datesOk, hs, he, hb]

theorem Spec.isMonthYear_shape (s : String) (h : Spec.isMonthYear s = true) :
    ∃ m1 m2 y1 y2 y3 y4 : Char, s = String.mk [m1, m2, '-', y1, y2, y3, y4] ∧
      time.isDigitByte m1 = true ∧ time.isDigitByte m2 = true ∧ time.isDigitByte y1 = true ∧
      time.isDigitByte y2 = true ∧ time.isDigitByte y3 = true ∧ time.isDigitByte y4 = true ∧
      1 ≤ time.digitVal m1 * 10 + time.digitVal m2 ∧
      time.digitVal m1 * 10 + time.digitVal m2 ≤ 12 := by
  obtain ⟨l⟩ := s
  rcases l with _ | ⟨a, _ | ⟨b, _ | ⟨c, _ | ⟨d, _ | ⟨e, _ | ⟨f, _ | ⟨g, _ | ⟨h, l⟩⟩⟩⟩⟩⟩⟩⟩ <;>
    simp [Spec.isMonthYear, time.isDigitByte_eq] at h
  obtain ⟨⟨⟨⟨⟨⟨⟨⟨h1, h2⟩, h3⟩, h4⟩, h5⟩, h6⟩, h7⟩, h8⟩, h9⟩ := h
  subst h3
  exact ⟨a, b, d, e, f, g, rfl, h1, h2, h4, h5, h6, h7, h8, h9⟩

theorem time.digitChar_digitVal (c : Char) (h : time.isDigitByte c = true) :
    time.digitChar (time.digitVal c) = c := by
  simp only [time.isDigitByte, decide_eq_true_eq] at h
  have : 48 + (c.toNat - 48) = c.toNat := by omega
  simp [time.digitChar, time.digitVal, this, Char.ofNat_toNat]

theorem time.Format_digits (m1 m2 y1 y2 y3 y4 : Char)
    (hm1 : time.isDigitByte m1 = true) (hm2 : time.isDigitByte m2 = true)
    (hy1 : time.isDigitByte y1 = true) (hy2 : time.isDigitByte y2 = true)
    (hy3 : time.isDigitByte y3 = true) (hy4 : time.isDigitByte y4 = true) (day : Nat) :
    time.Time.Format
      ⟨((time.digitVal y1 * 1000 + time.digitVal y2 * 100 + time.digitVal y3 * 10
          + time.digitVal y4 : Nat) : Int),
        time.digitVal m1 * 10 + time.digitVal m2, day⟩ =
      String.mk [m1, m2, '-', y1, y2, y3, y4] := by
  have b1 := time.digitVal_le m1 hm1
  have b2 := time.digitVal_le m2 hm2
  have b3 := time.digitVal_le y1 hy1
  have b4 := time.digitVal_le y2 hy2
  have b5 := time.digitVal_le y3 hy3
  have b6 := time.digitVal_le y4 hy4
  have e1 : (time.digitVal m1 * 10 + time.digitVal m2) / 10 = time.digitVal m1 := by omega
  have e2 : (time.digitVal m1 * 10 + time.digitVal m2) % 10 = time.digitVal m2 := by omega
  have e3 : (time.digitVal y1 * 1000 + time.digitVal y2 * 100 + time.digitVal y3 * 10
      + time.digitVal y4) / 100 / 10 = time.digitVal y1 := by omega
  have e4 : (time.digitVal y1 * 1000 + time.digitVal y2 * 100 + time.digitVal y3 * 10
      + time.digitVal y4) / 100 % 10 = time.digitVal y2 := by omega
  have e5 : (time.digitVal y1 * 1000 + time.digitVal y2 * 100 + time.digitVal y3 * 10
      + time.digitVal y4) % 100 / 10 = time.digitVal y3 := by omega
  have e6 : (time.digitVal y1 * 1000 + time.digitVal y2 * 100 + time.digitVal y3 * 10
      + time.digitVal y4) % 100 % 10 = time.digitVal y4 := by omega
  have l1 : time.digitVal m1 * 10 + time.digitVal m2 < 100 := by omega
  have l2 : time.digitVal y1 * 1000 + time.digitVal y2 * 100 + time.digitVal y3 * 10
      + time.digitVal y4 < 10000 := by omega
  have n1 : ¬ ((time.digitVal m1 * 10 + time.digitVal m2 : Nat) : Int) < 0 := by omega
  have n2 : ¬ ((time.digitVal y1 * 1000 + time.digitVal y2 * 100 + time.digitVal y3 * 10
      + time.digitVal y4 : Nat) : Int) < 0 := by omega
  simp only [time.Time.Format, time.appendInt, Int.natAbs_ofNat, l1, l2, n1, n2, e1, e2, e3,
    e4, e5, e6, time.digitChar_digitVal, hm1, hm2, hy1, hy2, hy3, hy4, and_self, and_true,
    if_true, if_false, true_and]
  simp

theorem storage.toISO_digits (m1 m2 y1 y2 y3 y4 : Char)
    (hm1 : time.isDigitByte m1 = true) (hm2 : time.isDigitByte m2 = true)
    (hy1 : time.isDigitByte y1 = true) (hy2 : time.isDigitByte y2 = true)
    (hy3 : time.isDigitByte y3 = true) (hy4 : time.isDigitByte y4 = true) :
    storage.toISO (String.mk [m1, m2, '-', y1, y2, y3, y4]) =
      some (String.mk [y1, y2, y3, y4, '-', m1, m2, '-', '0', '1']) := by
  obtain ⟨n1, -⟩ := time.digit_ne_sign m1 hm1
  obtain ⟨n2, -⟩ := time.digit_ne_sign m2 hm2
  obtain ⟨n3, -⟩ := time.digit_ne_sign y1 hy1
  obtain ⟨n4, -⟩ := time.digit_ne_sign y2 hy2
  obtain ⟨n5, -⟩ := time.digit_ne_sign y3 hy3
  obtain ⟨n6, -⟩ := time.digit_ne_sign y4 hy4
  simp [storage.toISO, strings.Split, strings.splitChars, n1, n2, n3, n4, n5, n6]
  rfl

theorem pg.readDate_digits (m1 m2 y1 y2 y3 y4 : Char)
    (hm1 : time.isDigitByte m1 = true) (hm2 : time.isDigitByte m2 = true)
    (hy1 : time.isDigitByte y1 = true) (hy2 : time.isDigitByte y2 = true)
    (hy3 : time.isDigitByte y3 = true) (hy4 : time.isDigitByte y4 = true)
    (hlo : 1 ≤ time.digitVal m1 * 10 + time.digitVal m2)
    (hhi : time.digitVal m1 * 10 + time.digitVal m2 ≤ 12) :
    pg.readDate (String.mk [y1, y2, y3, y4, '-', m1, m2, '-', '0', '1']) =
      some ⟨((time.digitVal y1 * 1000 + time.digitVal y2 * 100 + time.digitVal y3 * 10
          + time.digitVal y4 : Nat) : Int),
        time.digitVal m1 * 10 + time.digitVal m2, 1⟩ := by
  obtain ⟨n1, -⟩ := time.digit_ne_sign m1 hm1
  obtain ⟨n2, -⟩ := time.digit_ne_sign m2 hm2
  obtain ⟨n3, -⟩ := time.digit_ne_sign y1 hy1
  obtain ⟨n4, -⟩ := time.digit_ne_sign y2 hy2
  obtain ⟨n5, -⟩ := time.digit_ne_sign y3 hy3
  obtain ⟨n6, -⟩ := time.digit_ne_sign y4 hy4
  have hd : pg.daysIn (time.digitVal m1 * 10 + time.digitVal m2)
      (time.digitVal y1 * 1000 + time.digitVal y2 * 100 + time.digitVal y3 * 10
        + time.digitVal y4) ≥ 1 := by
    unfold pg.daysIn; split_ifs <;> omega
  have hsplit : strings.splitChars '-' [y1, y2, y3, y4, '-', m1, m2, '-', '0', '1'] =
      [[y1, y2, y3, y4], [m1, m2], ['0', '1']] := by
    simp [strings.splitChars, n1, n2, n3, n4, n5, n6]
  have hY : pg.readField 4 [y1, y2, y3, y4] =
      some (time.digitVal y1 * 1000 + time.digitVal y2 * 100 + time.digitVal y3 * 10
        + time.digitVal y4) := by
    simp [pg.readField, time.isDigitByte_eq, hy1, hy2, hy3, hy4, time.digitVal]
    ring
  have hM : pg.readField 2 [m1, m2] = some (time.digitVal m1 * 10 + time.digitVal m2) := by
    simp [pg.readField, time.isDigitByte_eq, hm1, hm2, time.digitVal]
  have hD : pg.readField 2 ['0', '1'] = some 1 := by decide
  simp only [pg.readDate, hsplit, hY, hM, hD, List.length_cons, List.length_nil]
  simp [hlo, hhi]
  omega

/-- C2: for every valid MM-YYYY string, the storage form built by `Create`
(`YYYY-MM-01`), read as a calendar date and rendered with the layout `01-2006` as
`GetInfo` and `List` do, is the string itself; the date is the first day of that month. -/
theorem storage.monthYear_roundtrip (s : String) (h : Spec.isMonthYear s = true) :
    ∃ iso d, storage.toISO s = some iso ∧ pg.readDate iso = some d ∧
      d = Spec.firstOfMonth s ∧ d.day = 1 ∧ d.Format = s := by
  obtain ⟨m1, m2, y1, y2, y3, y4, rfl, hm1, hm2, hy1, hy2, hy3, hy4, hlo, hhi⟩ :=
    Spec.isMonthYear_shape s h
  refine ⟨_, _, storage.toISO_digits m1 m2 y1 y2 y3 y4 hm1 hm2 hy1 hy2 hy3 hy4,
    pg.readDate_digits m1 m2 y1 y2 y3 y4 hm1 hm2 hy1 hy2 hy3 hy4 hlo hhi, ?_, rfl, ?_⟩
  · simp [Spec.yearOf, Spec.monthOf, time.digitVal, Spec.firstOfMonth]
  · exact time.Format_digits m1 m2 y1 y2 y3 y4 hm1 hm2 hy1 hy2 hy3 hy4 1

theorem storage.monthYear_roundtrip_witness :
    Spec.isMonthYear "09-2025" = true ∧
      ∃ iso d, storage.toISO "09-2025" = some iso ∧ pg.readDate iso = some d ∧
        d = Spec.firstOfMonth "09-2025" ∧ d.day = 1 ∧ d.Format = "09-2025" :=
  ⟨by decide, storage.monthYear_roundtrip "09-2025" (by decide)⟩

/-- C1: `validateDates(start = s, end = absent)` succeeds exactly on the strings of
the shape MM-YYYY (seven characters: a two-digit month 01..12, a hyphen, four digits);
every other string is rejected with an error whose text starts with
"invalid start_date format, expected MM-YYYY". -/
theorem application.validateDates_start_accepts_exactly_monthYear (s : String) :
    (application.validateDates (some s) none = none ↔ Spec.isMonthYear s = true) ∧
      (Spec.isMonthYear s = true ∨
        ∃ e, application.validateDates (some s) none = some e ∧
          "invalid start_date format, expected MM-YYYY".data <+: e.Error.data) := by
  refine ⟨?_, ?_⟩
  · rw [application.validateDates_none_iff]
    simp [Spec.datesOk]
  · cases h : Spec.isMonthYear s
    · obtain ⟨err, he⟩ := application.validateDates_start_bad s none h
      exact Or.inr ⟨_, he, GoError.Wrap_Error_data _ _⟩
    · exact Or.inl rfl

/-- C3: `validateDates(start, end)` returns no error exactly when every present bound
is a valid MM-YYYY string and, with both present, the end month is not earlier than
the start month; two valid bounds with end before start give
"end_date cannot be before start_date", and equal valid bounds are accepted. -/
theorem application.validateDates_ok_iff_datesOk :
    (∀ start end_ : Option String,
        application.validateDates start end_ = none ↔ Spec.datesOk start end_ = true) ∧
      (∀ s e : String, Spec.isMonthYear s = true → Spec.isMonthYear e = true →
        Spec.earlier e s = true →
        application.validateDates (some s) (some e) =
          some (.New "end_date cannot be before start_date")) ∧
      (∀ s : String, Spec.isMonthYear s = true →
        application.validateDates (some s) (some s) = none) := by
  refine ⟨application.validateDates_none_iff, ?_, ?_⟩
  · intro s e hs he hb
    rw [application.validateDates_both s e hs he, hb]
    rfl
  · intro s hs
    rw [application.validateDates_both s s hs hs]
    simp [Spec.earlier]

theorem application.validateDates_ok_iff_datesOk_witness :
    application.validateDates (some "09-2025") (some "08-2025") =
        some (.New "end_date cannot be before start_date") ∧
      application.validateDates (some "09-2025") (some "09-2025") = none :=
  ⟨application.validateDates_ok_iff_datesOk.2.1 "09-2025" "08-2025"
      (by decide) (by decide) (by decide),
    application.validateDates_ok_iff_datesOk.2.2 "09-2025" (by decide)⟩

/-! ## Lemmas: the application service's validation -/

theorem application.Create_valid {σ : Type}
    (dbCreate : storage.CreateRequest → σ → Except GoError storage.CreateResponse × σ)
    (r : application.CreateRequest) (s : σ) (h : Spec.createOk r = true) :
    application.Create dbCreate (some r) s =
      match dbCreate ⟨r.UserID, r.ServiceName, r.Price, r.StartDate, r.EndDate⟩ s with
      | (.error err, s1) => (.error (.Wrap "create request" err), s1)
      | (.ok resp, s1) => (.ok (some ⟨resp.ID⟩), s1) := by
  simp only [Spec.createOk, Bool.and_eq_true, decide_eq_true_eq] at h
  obtain ⟨⟨⟨h1, h2⟩, h3⟩, h4⟩ := h
  have h5 := (application.validateDates_none_iff _ _).2 h4
  have h6 : ¬ r.Price ≤ 0 := by omega
  simp only [application.Create, h1, h2, h6, if_false, h5]

theorem application.Create_invalid (r : application.CreateRequest)
    (h : Spec.createOk r = false) :
    ∃ e, ∀ (σ : Type)
      (dbCreate : storage.CreateRequest → σ → Except GoError storage.CreateResponse × σ) (s : σ),
      application.Create dbCreate (some r) s = (.error e, s) := by
  by_cases h1 : r.UserID = uuid.Nil
  · exact ⟨.New "user_id is required", fun σ dbCreate s => by simp [application.Create, h1]⟩
  by_cases h2 : r.ServiceName = ""
  · exact ⟨.New "service_name is required",
      fun σ dbCreate s => by simp [application.Create, h1, h2]⟩
  by_cases h3 : r.Price ≤ 0
  · exact ⟨.New "price must be greater than 0",
      fun σ dbCreate s => by simp [application.Create, h1, h2, h3]⟩
  cases h4 : application.validateDates (some r.StartDate) r.EndDate with
  | some err => exact ⟨err, fun σ dbCreate s => by simp [application.Create, h1, h2, h3, h4]⟩
  | none =>
    have h5 := (application.validateDates_none_iff _ _).1 h4
    have h6 : 0 < r.Price := by omega
    simp [Spec.createOk, h1, h2, h5, h6] at h

/-- C4: `application.Create` calls the store's `Create` exactly once when the request
is non-nil and meets the Create conditions, and not at all otherwise; in every other
case (in particular for every price <= 0) it returns a nil response and an error with
the store untouched, the error being that of the first failing check in the order
request, user_id, service_name, price, start_date format, end_date format, date order. -/
theorem application.Create_calls_store_iff_valid {σ : Type}
    (dbCreate : storage.CreateRequest → σ → Except GoError storage.CreateResponse × σ)
    (s : σ) :
    (∀ request : Option application.CreateRequest,
      (application.Create (recorded StoreCall.Create dbCreate) request (s, [])).2 =
        match request with
        | none => (s, [])
        | some r =>
          if Spec.createOk r then
            ((dbCreate ⟨r.UserID, r.ServiceName, r.Price, r.StartDate, r.EndDate⟩ s).2,
              [StoreCall.Create ⟨r.UserID, r.ServiceName, r.Price, r.StartDate, r.EndDate⟩])
          else (s, [])) ∧
    (∀ request : Option application.CreateRequest,
      (request = none ∨ ∃ r, request = some r ∧ Spec.createOk r = false) →
      ∃ e, application.Create (recorded StoreCall.Create dbCreate) request (s, []) =
        (.error e, (s, []))) ∧
    (∀ r : application.CreateRequest, r.Price ≤ 0 →
      ∃ e, application.Create (recorded StoreCall.Create dbCreate) (some r) (s, []) =
        (.error e, (s, []))) ∧
    (application.Create dbCreate none s = (.error (.New "request cannot be nil"), s)) ∧
    (∀ r : application.CreateRequest, r.UserID = uuid.Nil →
      application.Create dbCreate (some r) s = (.error (.New "user_id is required"), s)) ∧
    (∀ r : application.CreateRequest, r.UserID ≠ uuid.Nil → r.ServiceName = "" →
      application.Create dbCreate (some r) s = (.error (.New "service_name is required"), s)) ∧
    (∀ r : application.CreateRequest, r.UserID ≠ uuid.Nil → r.ServiceName ≠ "" →
      r.Price ≤ 0 →
      application.Create dbCreate (some r) s =
        (.error (.New "price must be greater than 0"), s)) ∧
    (∀ r : application.CreateRequest, r.UserID ≠ uuid.Nil → r.ServiceName ≠ "" →
      0 < r.Price → Spec.isMonthYear r.StartDate = false →
      ∃ err, application.Create dbCreate (some r) s =
        (.error (.Wrap "invalid start_date format, expected MM-YYYY" (.Parse err)), s)) ∧
    (∀ (r : application.CreateRequest) (e : String), r.UserID ≠ uuid.Nil →
      r.ServiceName ≠ "" → 0 < r.Price → Spec.isMonthYear r.StartDate = true →
      r.EndDate = some e → Spec.isMonthYear e = false →
      ∃ err, application.Create dbCreate (some r) s =
        (.error (.Wrap "invalid end_date format, expected MM-YYYY" (.Parse err)), s)) ∧
    (∀ (r : application.CreateRequest) (e : String), r.UserID ≠ uuid.Nil →
      r.ServiceName ≠ "" → 0 < r.Price → Spec.isMonthYear r.StartDate = true →
      r.EndDate = some e → Spec.isMonthYear e = true → Spec.earlier e r.StartDate = true →
      application.Create dbCreate (some r) s =
        (.error (.New "end_date cannot be before start_date"), s)) := by
  have hinv : ∀ request : Option application.CreateRequest,
      (request = none ∨ ∃ r, request = some r ∧ Spec.createOk r = false) →
      ∃ e, application.Create (recorded StoreCall.Create dbCreate) request (s, []) =
        (.error e, (s, [])) := by
    rintro request (rfl | ⟨r, rfl, hr⟩)
    · exact ⟨_, rfl⟩
    · obtain ⟨e, he⟩ := application.Create_invalid r hr
      exact ⟨e, he _ _ _⟩
  refine ⟨?_, hinv, ?_, rfl, ?_, ?_, ?_, ?_, ?_, ?_⟩
  · intro request
    cases request with
    | none => rfl
    | some r =>
      cases hr : Spec.createOk r
      · obtain ⟨e, he⟩ := hinv (some r) (Or.inr ⟨r, rfl, hr⟩)
        simp [he, hr]
      · rw [application.Create_valid _ r _ hr]
        simp only [recorded, List.nil_append, hr, if_true]
        cases hd : (dbCreate ⟨r.UserID, r.ServiceName, r.Price, r.StartDate, r.EndDate⟩ s).1 <;>
          rfl
  · intro r hp
    refine hinv (some r) (Or.inr ⟨r, rfl, ?_⟩)
    have : ¬ 0 < r.Price := by omega
    simp [Spec.createOk, this]
  · intro r h1
    simp [application.Create, h1]
  · intro r h1 h2
    simp [application.Create, h1, h2]
  · intro r h1 h2 h3
    simp [application.Create, h1, h2, h3]
  · intro r h1 h2 h3 h4
    obtain ⟨err, he⟩ := application.validateDates_start_bad r.StartDate r.EndDate h4
    have h5 : ¬ r.Price ≤ 0 := by omega
    exact ⟨err, by simp [application.Create, h1, h2, h5, he]⟩
  · intro r e h1 h2 h3 h4 h5 h6
    obtain ⟨err, he⟩ := application.validateDates_end_bad (some r.StartDate) e
      (by intro s1 hs1; cases hs1; exact h4) h6
    have h7 : ¬ r.Price ≤ 0 := by omega
    exact ⟨err, by simp [application.Create, h1, h2, h7, h5, he]⟩
  · intro r e h1 h2 h3 h4 h5 h6 h7
    have h8 : ¬ r.Price ≤ 0 := by omega
    have h9 := application.validateDates_both r.StartDate e h4 h6
    rw [h7] at h9
    simp [application.Create, h1, h2, h8, h5, h9]

theorem application.validateDates_bad (start end_ : Option String)
    (h : Spec.datesOk start end_ = false) :
    ∃ e, application.validateDates start end_ = some e := by
  cases hv : application.validateDates start end_ with
  | some e => exact ⟨e, rfl⟩
  | none =>
    rw [(application.validateDates_none_iff _ _).1 hv] at h
    cases h

/-- C5: for GetInfo, List, Update, Delete and GetTotalSubscriptionsPrice, a request
that fails the operation's validation (nil request; nil id for GetInfo and Delete; a
supplied price <= 0 for Update; an unparseable date or an end/to earlier than
start/from for List, Update and Total) gets a nil response and an error, and the store
receives no call and keeps its state. -/
theorem application.failed_validation_makes_no_store_call {σ : Type}
    (dbGetInfo : uuid.UUID → σ → Except GoError (Option storage.GetInfoResponse) × σ)
    (dbList : Option storage.ListRequest → σ → Except GoError storage.ListResponse × σ)
    (dbUpdate : uuid.UUID → Option storage.UpdateRequest → σ →
      Except GoError storage.UpdateResponse × σ)
    (dbDelete : Option storage.DeleteRequest → σ → Option GoError × σ)
    (dbTotal : Option storage.TotalRequest → σ → Except GoError Int × σ)
    (s : σ) :
    (∀ request : Option application.GetInfoRequest,
      (request = none ∨ ∃ r, request = some r ∧ r.ID = uuid.Nil) →
      ∃ e, application.GetInfo (recorded StoreCall.GetInfo dbGetInfo) request (s, []) =
        (.error e, (s, []))) ∧
    (∀ request : Option application.ListRequest,
      (request = none ∨ ∃ r, request = some r ∧ Spec.datesOk r.From r.To = false) →
      ∃ e, application.List (recorded StoreCall.List dbList) request (s, []) =
        (.error e, (s, []))) ∧
    (∀ (id : uuid.UUID) (request : Option application.UpdateRequest),
      (request = none ∨ ∃ r, request = some r ∧
        ((∃ p, r.Price = some p ∧ p ≤ 0) ∨ Spec.datesOk r.StartDate r.EndDate = false)) →
      ∃ e, application.Update (recorded2 StoreCall.Update dbUpdate) id request (s, []) =
        (.error e, (s, []))) ∧
    (∀ request : Option application.DeleteRequest,
      (request = none ∨ ∃ r, request = some r ∧ r.ID = uuid.Nil) →
      ∃ e, application.Delete (recorded StoreCall.Delete dbDelete) request (s, []) =
        (.error e, (s, []))) ∧
    (∀ request : Option application.TotalRequest,
      (request = none ∨ ∃ r, request = some r ∧
        Spec.datesOk (some r.From) (some r.To) = false) →
      ∃ e, application.GetTotalSubscriptionsPrice (recorded StoreCall.Total dbTotal) request
        (s, []) = (.error e, (s, []))) := by
  refine ⟨?_, ?_, ?_, ?_, ?_⟩
  · rintro request (rfl | ⟨r, rfl, hr⟩)
    · exact ⟨_, rfl⟩
    · exact ⟨.New "id is required", by simp [application.GetInfo, hr]⟩
  · rintro request (rfl | ⟨r, rfl, hr⟩)
    · exact ⟨_, rfl⟩
    · obtain ⟨e, he⟩ := application.validateDates_bad _ _ hr
      exact ⟨e, by simp [application.List, he]⟩
  · rintro id request (rfl | ⟨r, rfl, ⟨p, hp, hle⟩ | hr⟩)
    · exact ⟨_, rfl⟩
    · exact ⟨.New "price must be greater than 0", by simp [application.Update, hp, hle]⟩
    · by_cases hq : r.Price.isSome ∧ r.Price.getD 0 ≤ 0
      · exact ⟨.New "price must be greater than 0", by simp only [application.Update, hq, if_true, and_self]⟩
      · obtain ⟨e, he⟩ := application.validateDates_bad _ _ hr
        exact ⟨e, by simp only [application.Update, hq, if_false, he]⟩
  · rintro request (rfl | ⟨r, rfl, hr⟩)
    · exact ⟨_, rfl⟩
    · exact ⟨.New "id is required", by simp [application.Delete, hr]⟩
  · rintro request (rfl | ⟨r, rfl, hr⟩)
    · exact ⟨_, rfl⟩
    · obtain ⟨e, he⟩ := application.validateDates_bad _ _ hr
      exact ⟨e, by simp [application.GetTotalSubscriptionsPrice, he]⟩

/-! ## Lemmas: the storage service -/

theorem storage.Update_ok (env : pg.Env) (id : uuid.UUID) (req : storage.UpdateRequest)
    (db db1 : pg.DB) (resp : storage.UpdateResponse)
    (h : storage.Update env id (some req) db = (.ok resp, db1)) :
    (∀ s, req.StartDate = some s → Spec.isMonthYear s = true) ∧
    (∀ s, req.EndDate = some s → Spec.isMonthYear s = true) ∧
    resp.Updated = decide (db.countP (fun r => r.id = id) > 0) ∧
    db1 = (pg.update id req.ServiceName req.Price
      (req.StartDate.map Spec.firstOfMonth) (req.EndDate.map Spec.firstOfMonth) db).2 := by
  obtain ⟨sn, pr, sd, ed⟩ := req
  simp only [storage.Update] at h
  cases ha : env.acquireErr with
  | some e => simp [ha] at h
  | none =>
    cases hx : env.execErr with
    | some e =>
      simp only [ha, hx] at h
      cases sd with
      | none =>
        cases ed with
        | none => simp at h
        | some e2 => rcases time.Parse_cases e2 with ⟨_, h2⟩ | ⟨_, err, h2⟩ <;> simp [h2] at h
      | some s1 =>
        rcases time.Parse_cases s1 with ⟨_, h1⟩ | ⟨_, err, h1⟩
        · cases ed with
          | none => simp [h1] at h
          | some e2 =>
            rcases time.Parse_cases e2 with ⟨_, h2⟩ | ⟨_, err, h2⟩ <;> simp [h1, h2] at h
        · simp [h1] at h
    | none =>
      simp only [ha, hx] at h
      cases sd with
      | none =>
        cases ed with
        | none =>
          simp at h
          simp [← h.1, ← h.2, pg.update, Spec.firstOfMonth]
        | some e2 =>
          rcases time.Parse_cases e2 with ⟨v2, h2⟩ | ⟨_, err, h2⟩
          · simp [h2] at h
            simp [← h.1, ← h.2, v2, pg.update, Spec.firstOfMonth]
          · simp [h2] at h
      | some s1 =>
        rcases time.Parse_cases s1 with ⟨v1, h1⟩ | ⟨_, err, h1⟩
        · cases ed with
          | none =>
            simp [h1] at h
            simp [← h.1, ← h.2, v1, pg.update, Spec.firstOfMonth]
          | some e2 =>
            rcases time.Parse_cases e2 with ⟨v2, h2⟩ | ⟨_, err, h2⟩
            · simp [h1, h2] at h
              simp [← h.1, ← h.2, v1, v2, pg.update, Spec.firstOfMonth]
            · simp [h1, h2] at h
        · simp [h1] at h

/-- C6: a successful `storage.Update` keeps the number of rows, leaves every row with
another id as it was, and in a row with the given id keeps `id` and `user_id`, keeps
each field the request leaves absent and sets each supplied field to the supplied
value (a supplied month to its first day); with only `price` supplied the row changes
in its price alone. -/
theorem storage.Update_keeps_absent_fields (env : pg.Env) (id : uuid.UUID) (req : storage.UpdateRequest)
    (db db1 : pg.DB) (resp : storage.UpdateResponse)
    (h : storage.Update env id (some req) db = (.ok resp, db1)) :
    db1.length = db.length ∧
    ∀ (i : Nat) (old new : pg.Row), db[i]? = some old → db1[i]? = some new →
      (old.id ≠ id → new = old) ∧
      (old.id = id →
        new.id = old.id ∧ new.user_id = old.user_id ∧
        (req.ServiceName = none → new.service_name = old.service_name) ∧
        (∀ v, req.ServiceName = some v → new.service_name = v) ∧
        (req.Price = none → new.price = old.price) ∧
        (∀ v, req.Price = some v → new.price = v) ∧
        (req.StartDate = none → new.start_date = old.start_date) ∧
        (∀ v, req.StartDate = some v → new.start_date = Spec.firstOfMonth v) ∧
        (req.EndDate = none → new.end_date = old.end_date) ∧
        (∀ v, req.EndDate = some v → new.end_date = some (Spec.firstOfMonth v)) ∧
        (∀ p, req = ⟨none, some p, none, none⟩ → new = { old with price := p })) := by
  obtain ⟨-, -, -, hdb⟩ := storage.Update_ok env id req db db1 resp h
  subst hdb
  refine ⟨by simp [pg.update], ?_⟩
  intro i old new hold hnew
  simp only [pg.update, List.getElem?_map, hold, Option.map_some', Option.some.injEq] at hnew
  subst hnew
  refine ⟨fun hne => by simp [hne], fun heq => ?_⟩
  obtain ⟨sn, pr, sd, ed⟩ := req
  rw [if_pos heq]
  refine ⟨rfl, rfl, ?_, ?_, ?_, ?_, ?_, ?_, ?_, ?_, ?_⟩
  · rintro rfl; rfl
  · rintro v rfl; rfl
  · rintro rfl; rfl
  · rintro v rfl; rfl
  · rintro rfl; rfl
  · rintro v rfl; rfl
  · rintro rfl; rfl
  · rintro v rfl; rfl
  · intro p hp
    simp only [storage.UpdateRequest.mk.injEq] at hp
    obtain ⟨rfl, rfl, rfl, rfl⟩ := hp
    rfl

theorem storage.Update_keeps_absent_fields_witness :
    storage.Update Example.env ⟨1⟩ (some Example.onlyPrice) [Example.netflixRow] =
        (.ok ⟨true⟩, [{ Example.netflixRow with price := 25 }]) ∧
      [{ Example.netflixRow with price := 25 }].length = [Example.netflixRow].length :=
  ⟨by rfl, (storage.Update_keeps_absent_fields Example.env ⟨1⟩ Example.onlyPrice [Example.netflixRow]
    [{ Example.netflixRow with price := 25 }] ⟨true⟩ (by rfl)).1⟩

/-- C7 (evaluation at the failing input): creating a subscription for January to
February 2025 and then updating only its start month to March 2025 passes the
application layer's validation and leaves a stored row whose end date precedes its
start date. -/
theorem AppCall.run_start_only_update_breaks_date_order :
    AppCall.run [] [.Create Example.env (some Example.netflix),
        .Update Example.env ⟨1⟩ (some Example.onlyStart)] =
      [{ Example.netflixRow with start_date := ⟨2025, 3, 1⟩ }] ∧
    Spec.dateOrdered { Example.netflixRow with start_date := ⟨2025, 3, 1⟩ } = false := by
  decide

theorem pg.insert_db (env : pg.Env) (u : uuid.UUID) (n : String) (p : Int) (sd : String)
    (ed : Option String) (db db1 : pg.DB) (id : uuid.UUID)
    (h : pg.insert env u n p sd ed db = .ok (id, db1)) :
    ∃ d1 d2, db1 = db ++ [⟨id, u, n, p, d1, d2⟩] := by
  cases hx : env.execErr with
  | some e => simp [pg.insert, hx] at h
  | none =>
    cases hs : pg.readDate sd with
    | none => simp [pg.insert, hx, hs] at h
    | some d1 =>
      cases hany : db.any (fun r => r.id = env.newId) with
      | true =>
        cases ed with
        | none => simp [pg.insert, hx, hs, hany] at h
        | some t => cases ht : pg.readDate t <;> simp [pg.insert, hx, hs, hany, ht] at h
      | false =>
        cases ed with
        | none =>
          simp [pg.insert, hx, hs, hany] at h
          exact ⟨d1, none, by rw [← h.2, ← h.1]⟩
        | some t =>
          cases ht : pg.readDate t with
          | none => simp [pg.insert, hx, hs, hany, ht] at h
          | some d2 =>
            simp [pg.insert, hx, hs, hany, ht] at h
            exact ⟨d1, some d2, by rw [← h.2, ← h.1]⟩

theorem storage.Create_db (env : pg.Env) (req : storage.CreateRequest) (db : pg.DB) :
    (storage.Create env req db).2 = db ∨
      ∃ id d1 d2, (storage.Create env req db).2 =
        db ++ [⟨id, req.UserID, req.ServiceName, req.Price, d1, d2⟩] := by
  cases ha : env.acquireErr with
  | some e => exact Or.inl (by simp [storage.Create, ha])
  | none =>
    cases hs : storage.toISO req.StartDate with
    | none => exact Or.inl (by simp [storage.Create, ha, hs])
    | some startISO =>
      have key : ∀ endVal : Option String,
          (match pg.insert env req.UserID req.ServiceName req.Price startISO endVal db with
            | .error err => ((.error err : Except GoError storage.CreateResponse), db)
            | .ok (id, db1) => (.ok ⟨id⟩, db1)).2 = db ∨
          ∃ id d1 d2,
            (match pg.insert env req.UserID req.ServiceName req.Price startISO endVal db with
              | .error err => ((.error err : Except GoError storage.CreateResponse), db)
              | .ok (id, db1) => (.ok ⟨id⟩, db1)).2 =
              db ++ [⟨id, req.UserID, req.ServiceName, req.Price, d1, d2⟩] := by
        intro endVal
        cases hins : pg.insert env req.UserID req.ServiceName req.Price startISO endVal db with
        | error e => exact Or.inl rfl
        | ok v =>
          obtain ⟨id, db1⟩ := v
          obtain ⟨d1, d2, hd⟩ := pg.insert_db _ _ _ _ _ _ _ _ _ hins
          exact Or.inr ⟨id, d1, d2, hd⟩
      cases he : req.EndDate with
      | none => simpa [storage.Create, ha, hs, he] using key none
      | some e =>
        cases hi : storage.toISO e with
        | none => exact Or.inl (by simp [storage.Create, ha, hs, he, hi])
        | some endISO => simpa [storage.Create, ha, hs, he, hi] using key (some endISO)

theorem application.Create_table_after (env : pg.Env) (request : Option application.CreateRequest)
    (db : pg.DB) :
    (application.Create (storage.Create env) request db).2 = db ∨
      ∃ r id d1 d2, request = some r ∧ Spec.createOk r = true ∧
        (application.Create (storage.Create env) request db).2 =
          db ++ [⟨id, r.UserID, r.ServiceName, r.Price, d1, d2⟩] := by
  cases request with
  | none => exact Or.inl rfl
  | some r =>
    cases hr : Spec.createOk r
    · obtain ⟨e, he⟩ := application.Create_invalid r hr
      rw [he]
      exact Or.inl rfl
    · have hdb : (application.Create (storage.Create env) (some r) db).2 =
          (storage.Create env ⟨r.UserID, r.ServiceName, r.Price, r.StartDate, r.EndDate⟩ db).2 := by
        rw [application.Create_valid _ r _ hr]
        split <;> simp_all
      rw [hdb]
      rcases storage.Create_db env ⟨r.UserID, r.ServiceName, r.Price, r.StartDate, r.EndDate⟩ db
        with h | ⟨id, d1, d2, h⟩
      · exact Or.inl h
      · exact Or.inr ⟨r, id, d1, d2, rfl, hr, h⟩

theorem application.Update_table_after (env : pg.Env) (id : uuid.UUID)
    (request : Option application.UpdateRequest) (db : pg.DB) :
    (application.Update (storage.Update env) id request db).2 = db ∨
      ∃ r, request = some r ∧ (∀ p, r.Price = some p → 0 < p) ∧
        Spec.datesOk r.StartDate r.EndDate = true ∧
        (application.Update (storage.Update env) id request db).2 =
          (pg.update id r.ServiceName r.Price (r.StartDate.map Spec.firstOfMonth)
            (r.EndDate.map Spec.firstOfMonth) db).2 := by
  cases request with
  | none => exact Or.inl rfl
  | some r =>
    by_cases hq : r.Price.isSome ∧ r.Price.getD 0 ≤ 0
    · exact Or.inl (by simp only [application.Update, hq, if_true, and_self])
    cases hv : application.validateDates r.StartDate r.EndDate with
    | some e => exact Or.inl (by simp only [application.Update, hq, if_false, hv])
    | none =>
      have hp : ∀ p, r.Price = some p → 0 < p := by
        intro p hp
        by_contra hle
        exact hq (by simp [hp]; omega)
      have hu : (application.Update (storage.Update env) id (some r) db).2 =
          (storage.Update env id (some ⟨r.ServiceName, r.Price, r.StartDate, r.EndDate⟩) db).2 := by
        simp only [application.Update, hq, if_false, hv]
        split <;> simp_all
      rw [hu]
      cases hs : storage.Update env id (some ⟨r.ServiceName, r.Price, r.StartDate, r.EndDate⟩) db
        with
      | mk res db1 =>
        cases res with
        | error e =>
          left
          have : (storage.Update env id
              (some ⟨r.ServiceName, r.Price, r.StartDate, r.EndDate⟩) db).2 = db := by
            simp only [storage.Update]
            repeat' split
            all_goals first | rfl | skip
            all_goals simp_all [storage.Update]
          rw [hs] at this
          exact this
        | ok resp =>
          obtain ⟨-, -, -, hdb⟩ := storage.Update_ok env id _ db db1 resp hs
          exact Or.inr ⟨r, rfl, hp, (application.validateDates_none_iff _ _).1 hv, hdb⟩

theorem storage.Delete_db (env : pg.Env) (request : Option storage.DeleteRequest) (db : pg.DB) :
    (storage.Delete env request db).2 = db ∨
      ∃ r, request = some r ∧ (storage.Delete env request db).2 = db.filter (fun x => x.id ≠ r.ID) := by
  cases request with
  | none => exact Or.inl rfl
  | some r =>
    by_cases hid : r.ID = uuid.Nil
    · exact Or.inl (by simp [storage.Delete, hid])
    cases ha : env.acquireErr with
    | some e => exact Or.inl (by simp [storage.Delete, hid, ha])
    | none =>
      cases hx : env.execErr with
      | some e => exact Or.inl (by simp [storage.Delete, hid, ha, hx])
      | none =>
        refine Or.inr ⟨r, rfl, ?_⟩
        simp only [storage.Delete, hid, if_false, ha, hx, pg.delete]
        split <;> rfl

theorem application.Delete_table_after (env : pg.Env) (request : Option application.DeleteRequest)
    (db : pg.DB) :
    (application.Delete (storage.Delete env) request db).2 = db ∨
      ∃ r, request = some r ∧
        (application.Delete (storage.Delete env) request db).2 =
          db.filter (fun x => x.id ≠ r.ID) := by
  cases request with
  | none => exact Or.inl rfl
  | some r =>
    by_cases hid : r.ID = uuid.Nil
    · exact Or.inl (by simp [application.Delete, hid])
    have hu : (application.Delete (storage.Delete env) (some r) db).2 =
        (storage.Delete env (some ⟨r.ID⟩) db).2 := by
      simp only [application.Delete, hid, if_false]
      split <;> simp_all
    rw [hu]
    rcases storage.Delete_db env (some ⟨r.ID⟩) db with h | ⟨r1, h1, h2⟩
    · exact Or.inl h
    · cases h1
      exact Or.inr ⟨r, rfl, h2⟩

theorem AppCall.step_price_positive (db : pg.DB) (c : AppCall)
    (h : ∀ r ∈ db, 0 < r.price) : ∀ r ∈ c.step db, 0 < r.price := by
  cases c with
  | Create env request =>
    rcases application.Create_table_after env request db with h1 | ⟨q, id, d1, d2, -, hq, h1⟩
    · simp only [AppCall.step, h1]; exact h
    · simp only [AppCall.step, h1]
      intro r hr
      rcases List.mem_append.1 hr with hr | hr
      · exact h r hr
      · simp only [List.mem_singleton] at hr
        subst hr
        simp only [Spec.createOk, Bool.and_eq_true, decide_eq_true_eq] at hq
        exact hq.1.2
  | Update env id request =>
    rcases application.Update_table_after env id request db with h1 | ⟨q, -, hp, -, h1⟩
    · simp only [AppCall.step, h1]; exact h
    · simp only [AppCall.step, h1, pg.update]
      intro r hr
      obtain ⟨old, hold, rfl⟩ := List.mem_map.1 hr
      by_cases hid : old.id = id
      · rw [if_pos hid]
        cases hpr : q.Price with
        | none => exact h old hold
        | some p => exact hp p hpr
      · rw [if_neg hid]; exact h old hold
  | Delete env request =>
    rcases application.Delete_table_after env request db with h1 | ⟨q, -, h1⟩
    · simp only [AppCall.step, h1]; exact h
    · simp only [AppCall.step, h1]
      intro r hr
      exact h r (List.mem_filter.1 hr).1

theorem AppCall.run_price_positive_from (calls : List AppCall) :
    ∀ db : pg.DB, (∀ r ∈ db, 0 < r.price) → ∀ r ∈ AppCall.run db calls, 0 < r.price := by
  induction calls with
  | nil => intro db h; exact h
  | cons c cs ih =>
    intro db h
    exact ih (c.step db) (AppCall.step_price_positive db c h)

/-- C8: starting from an empty table, after any sequence of application-layer Create,
Update and Delete calls (whatever the store answers), every stored subscription has
price > 0. -/
theorem AppCall.run_price_positive (calls : List AppCall) (r : pg.Row)
    (h : r ∈ AppCall.run [] calls) : 0 < r.price :=
  AppCall.run_price_positive_from calls [] (by simp) r h

theorem AppCall.run_price_positive_witness :
    Example.netflixRow ∈ AppCall.run [] [.Create Example.env (some Example.netflix)] ∧
      0 < Example.netflixRow.price :=
  ⟨by decide, AppCall.run_price_positive [.Create Example.env (some Example.netflix)]
    Example.netflixRow (by decide)⟩

theorem pg.countP_id_le_one (db : pg.DB) (id : uuid.UUID) (h : (db.map (fun r => r.id)).Nodup) :
    db.countP (fun r => r.id = id) ≤ 1 := by
  have h1 := List.nodup_iff_count_le_one.1 h id
  have h2 : List.count id (db.map (fun r => r.id)) = db.countP (fun r => r.id = id) := by
    rw [List.count, List.countP_map]
    congr 1
  omega

theorem storage.Delete_no_match (env : pg.Env) (id : uuid.UUID) (db : pg.DB)
    (hid : id ≠ uuid.Nil) (ha : env.acquireErr = none) (hx : env.execErr = none)
    (hno : ∀ r ∈ db, r.id ≠ id) :
    storage.Delete env (some ⟨id⟩) db =
      (some (.New ("subscription with id " ++ id.String ++ " not found")), db) := by
  have hc : db.countP (fun r => r.id = id) = 0 := by
    rw [List.countP_eq_zero]
    intro r hr
    simpa using hno r hr
  have hf : db.filter (fun x => x.id ≠ id) = db := by
    rw [List.filter_eq_self]
    intro r hr
    simpa using hno r hr
  simp only [storage.Delete, hid, if_false, ha, hx, pg.delete, hc, hf, if_true]

theorem storage.Delete_match (env : pg.Env) (id : uuid.UUID) (db : pg.DB)
    (hid : id ≠ uuid.Nil) (ha : env.acquireErr = none) (hx : env.execErr = none)
    (hex : ∃ r ∈ db, r.id = id) :
    storage.Delete env (some ⟨id⟩) db = (none, db.filter (fun x => x.id ≠ id)) := by
  have hc : db.countP (fun r => r.id = id) ≠ 0 := by
    obtain ⟨r, hr, hrid⟩ := hex
    have hpos : 0 < db.countP (fun r => decide (r.id = id)) :=
      List.countP_pos_iff.2 ⟨r, hr, by simpa using hrid⟩
    omega
  simp [storage.Delete, hid, ha, hx, pg.delete, hc]

/-- C10: with a connection and no engine failure, `storage.Delete` on a non-nil id
that matches no row returns an error whose text contains "not found" and leaves the
table as it was; on an id that matches a row it returns no error, removes the rows
with that id and no other (exactly one row when ids are unique), and a following
`GetInfo` of the id returns `(nil, nil)`. -/
theorem storage.Delete_not_found_or_removed (env : pg.Env) (id : uuid.UUID) (db : pg.DB)
    (hid : id ≠ uuid.Nil) (ha : env.acquireErr = none) (hx : env.execErr = none) :
    ((∀ r ∈ db, r.id ≠ id) →
      ∃ e, storage.Delete env (some ⟨id⟩) db = (some e, db) ∧
        "not found".data <:+: e.Error.data) ∧
    ((∃ r ∈ db, r.id = id) →
      ∃ db1, storage.Delete env (some ⟨id⟩) db = (none, db1) ∧
        (∀ r, r ∈ db1 ↔ r ∈ db ∧ r.id ≠ id) ∧ db1.Sublist db ∧
        ((db.map (fun r => r.id)).Nodup → db1.length + 1 = db.length) ∧
        storage.GetInfo env id db1 = (.ok none, db1)) := by
  refine ⟨fun hno => ?_, fun hex => ?_⟩
  · refine ⟨_, storage.Delete_no_match env id db hid ha hx hno, ?_⟩
    exact ⟨("subscription with id " ++ id.String ++ " ").data, [], by
      simp [GoError.Error, String.data_append]⟩
  · have hc : db.countP (fun r => r.id = id) ≠ 0 := by
      obtain ⟨r, hr, hrid⟩ := hex
      have hpos : 0 < db.countP (fun r => decide (r.id = id)) :=
        List.countP_pos_iff.2 ⟨r, hr, by simpa using hrid⟩
      omega
    refine ⟨_, storage.Delete_match env id db hid ha hx hex, ?_, List.filter_sublist _, ?_, ?_⟩
    · intro r
      simp [List.mem_filter]
    · intro hnd
      have h1 := pg.countP_id_le_one db id hnd
      have h2 := List.length_eq_countP_add_countP (fun r : pg.Row => decide (r.id = id)) db
      have h3 : db.countP (fun a => decide ¬(decide (a.id = id) = true)) =
          (db.filter (fun x => decide (x.id ≠ id))).length := by
        rw [List.countP_eq_length_filter]
        congr 2
        funext a
        simp
      omega
    · have hfind : (db.filter (fun x => x.id ≠ id)).find? (fun r => r.id = id) = none := by
        rw [List.find?_eq_none]
        intro r hr
        simpa using (List.mem_filter.1 hr).2
      have hcontains : strings.Contains pg.ErrNoRows.Error "no rows" = true := by decide
      simp only [storage.GetInfo, hid, if_false, ha, hx, hfind, hcontains, if_true]

theorem storage.Delete_not_found_or_removed_witness :
    (storage.Delete Example.env (some ⟨⟨7⟩⟩) [Example.netflixRow]).2 = [Example.netflixRow] ∧
      (storage.Delete Example.env (some ⟨⟨1⟩⟩) [Example.netflixRow]).2 = [] ∧
      (∃ e, storage.Delete Example.env (some ⟨⟨7⟩⟩) [Example.netflixRow] =
          (some e, [Example.netflixRow]) ∧ "not found".data <:+: e.Error.data) ∧
      ∃ db1, storage.Delete Example.env (some ⟨⟨1⟩⟩) [Example.netflixRow] = (none, db1) ∧
        (∀ r, r ∈ db1 ↔ r ∈ [Example.netflixRow] ∧ r.id ≠ ⟨1⟩) ∧
        db1.Sublist [Example.netflixRow] ∧
        (([Example.netflixRow].map (fun r => r.id)).Nodup →
          db1.length + 1 = [Example.netflixRow].length) ∧
        storage.GetInfo Example.env ⟨1⟩ db1 = (.ok none, db1) :=
  ⟨by decide, by decide,
    (storage.Delete_not_found_or_removed Example.env ⟨7⟩ [Example.netflixRow] (by decide)
      rfl rfl).1 (by decide),
    (storage.Delete_not_found_or_removed Example.env ⟨1⟩ [Example.netflixRow] (by decide)
      rfl rfl).2 (by decide)⟩

/-- C9 (evaluation along REST Delete -> application.Delete -> storage.Delete): for a
well-formed non-nil id that matches no row the handler answers 500 with the wrapped
not-found text, not 404, because `application.Delete` turns the store's not-found
error into an error and never returns a nil response; an id that matches a row gives
200 with `deleted = true`. -/
theorem rest.Delete_missing_row_answers_500 (uuidParse : String → Option uuid.UUID)
    (idParam : String) (id : uuid.UUID) (env : pg.Env) (db : pg.DB)
    (hparam : idParam ≠ "") (hparse : uuidParse idParam = some id) (hid : id ≠ uuid.Nil)
    (ha : env.acquireErr = none) (hx : env.execErr = none) :
    ((∀ r ∈ db, r.id ≠ id) →
      rest.Delete uuidParse (application.Delete (storage.Delete env)) idParam db =
        (⟨500, .Error ("delete request: subscription with id " ++ id.String ++ " not found")⟩,
          db)) ∧
    ((∃ r ∈ db, r.id = id) →
      rest.Delete uuidParse (application.Delete (storage.Delete env)) idParam db =
        (⟨200, .Json (some ⟨true⟩)⟩, db.filter (fun x => x.id ≠ id))) := by
  refine ⟨fun hno => ?_, fun hex => ?_⟩
  · have hd := storage.Delete_no_match env id db hid ha hx hno
    simp only [rest.Delete, hparam, if_false, hparse, application.Delete, hid, hd]
    rfl
  · have hd := storage.Delete_match env id db hid ha hx hex
    simp only [rest.Delete, hparam, if_false, hparse, application.Delete, hid, hd]
    rfl

theorem rest.Delete_missing_row_answers_500_witness :
    (rest.Delete Example.parse7 (application.Delete (storage.Delete Example.env))
        "00000000-0000-0000-0000-000000000007" [Example.netflixRow]).1.Status = 500 ∧
      (rest.Delete Example.parse7 (application.Delete (storage.Delete Example.env))
        "00000000-0000-0000-0000-000000000007"
        [{ Example.netflixRow with id := ⟨7⟩ }]).1.Status = 200 :=
  ⟨by
    rw [(rest.Delete_missing_row_answers_500 Example.parse7
      "00000000-0000-0000-0000-000000000007" ⟨7⟩ Example.env [Example.netflixRow]
      (by decide) (by decide) (by decide) rfl rfl).1 (by decide)],
   by
    rw [(rest.Delete_missing_row_answers_500 Example.parse7
      "00000000-0000-0000-0000-000000000007" ⟨7⟩ Example.env
      [{ Example.netflixRow with id := ⟨7⟩ }]
      (by decide) (by decide) (by decide) rfl rfl).2 ⟨_, List.mem_singleton.2 rfl, rfl⟩]⟩

theorem application.validateDates_start_accepts_exactly_monthYear_witness :
    Spec.isMonthYear "09-2025" = true ∧ Spec.isMonthYear "2025-09" = false ∧
      application.validateDates (some "09-2025") none = none ∧
      ∃ e, application.validateDates (some "2025-09") none = some e ∧
        "invalid start_date format, expected MM-YYYY".data <+: e.Error.data :=
  ⟨by decide, by decide,
    (application.validateDates_start_accepts_exactly_monthYear "09-2025").1.2 (by decide),
    (application.validateDates_start_accepts_exactly_monthYear "2025-09").2.resolve_left
      (by decide)⟩

theorem application.Create_calls_store_iff_valid_witness :
    Spec.createOk Example.netflix = true ∧
      (application.Create (recorded StoreCall.Create (storage.Create Example.env))
        (some Example.netflix) ([], [])).2 =
        ([Example.netflixRow], [StoreCall.Create ⟨Example.user, "Netflix", 10, "01-2025",
          some "02-2025"⟩]) ∧
      ∃ e, application.Create (recorded StoreCall.Create (storage.Create Example.env))
        (some { Example.netflix with Price := 0 }) ([], []) = (.error e, ([], [])) :=
  ⟨by decide,
    ((application.Create_calls_store_iff_valid (storage.Create Example.env) []).1
      (some Example.netflix)).trans (by decide),
    (application.Create_calls_store_iff_valid (storage.Create Example.env) []).2.2.1
      { Example.netflix with Price := 0 } (by decide)⟩

theorem application.failed_validation_makes_no_store_call_witness :
    Spec.datesOk (some "12-2025") (some "09-2025") = false ∧
      ∃ e, application.Update (recorded2 StoreCall.Update (storage.Update Example.env)) ⟨1⟩
        (some ⟨none, none, some "12-2025", some "09-2025"⟩) ([Example.netflixRow], []) =
          (.error e, ([Example.netflixRow], [])) :=
  ⟨by decide,
    (application.failed_validation_makes_no_store_call (fun _ s => (.ok none, s))
      (fun _ s => (.ok ⟨[]⟩, s)) (storage.Update Example.env) (storage.Delete Example.env)
      (fun _ s => (.ok 0, s)) [Example.netflixRow]).2.2.1 ⟨1⟩
      (some ⟨none, none, some "12-2025", some "09-2025"⟩)
      (Or.inr ⟨_, rfl, Or.inr (by decide)⟩)⟩

/-! ## Lemmas: the end of a month -/

theorem time.daysIn_eq_lastDay (m y : Nat) (h1 : 1 ≤ m) (h2 : m ≤ 12) :
    time.daysIn m (y : Int) = Spec.lastDay m y := by
  have hleap : time.isLeap (y : Int) =
      decide (y % 4 = 0 ∧ (y % 100 ≠ 0 ∨ y % 400 = 0)) := by
    simp only [time.isLeap]
    congr 1
    apply propext
    omega
  interval_cases m <;> simp [time.daysIn, Spec.lastDay, hleap]

theorem time.AddDate_end_of_month (y m : Nat) (h1 : 1 ≤ m) (h2 : m ≤ 12) :
    time.Time.AddDate ⟨(y : Int), m, 1⟩ 0 1 (-1) = ⟨(y : Int), m, Spec.lastDay m y⟩ := by
  rw [← time.daysIn_eq_lastDay m y h1 h2]
  interval_cases m <;>
    simp [time.Time.AddDate, time.Date, time.norm, time.Time.addDays, time.Time.prevDay,
      time.daysIn]

/-- C15: for every valid MM-YYYY string, the upper bound of a "to" filter (parse to the
first of the month, `AddDate(0, 1, -1)`) is the last calendar day of that same month
and year: day 31, 30, 29 or 28 by month and leap year, December and February
included. -/
theorem time.to_bound_is_last_day_of_month (t : String) (h : Spec.isMonthYear t = true) :
    ∃ d, time.Parse t = .ok d ∧
      d.AddDate 0 1 (-1) = Spec.lastOfMonth t ∧
      (d.AddDate 0 1 (-1)).year = d.year ∧ (d.AddDate 0 1 (-1)).month = d.month ∧
      (d.AddDate 0 1 (-1)).day = Spec.lastDay (Spec.monthOf t) (Spec.yearOf t) ∧
      (Spec.monthOf t = 12 → (d.AddDate 0 1 (-1)).day = 31) ∧
      (Spec.monthOf t = 2 → (d.AddDate 0 1 (-1)).day =
        if Spec.yearOf t % 4 = 0 ∧ (Spec.yearOf t % 100 ≠ 0 ∨ Spec.yearOf t % 400 = 0)
        then 29 else 28) := by
  obtain ⟨m1, m2, y1, y2, y3, y4, rfl, hm1, hm2, hy1, hy2, hy3, hy4, hlo, hhi⟩ :=
    Spec.isMonthYear_shape t h
  rcases time.Parse_cases (String.mk [m1, m2, '-', y1, y2, y3, y4]) with ⟨_, hp⟩ | ⟨hn, _⟩
  swap
  · rw [h] at hn; cases hn
  have hm : 1 ≤ Spec.monthOf (String.mk [m1, m2, '-', y1, y2, y3, y4]) ∧
      Spec.monthOf (String.mk [m1, m2, '-', y1, y2, y3, y4]) ≤ 12 := by
    simpa [Spec.monthOf, time.digitVal] using And.intro hlo hhi
  have key := time.AddDate_end_of_month
    (Spec.yearOf (String.mk [m1, m2, '-', y1, y2, y3, y4]))
    (Spec.monthOf (String.mk [m1, m2, '-', y1, y2, y3, y4])) hm.1 hm.2
  refine ⟨_, hp, ?_, ?_, ?_, ?_, ?_, ?_⟩
  · rw [key]; rfl
  · rw [key]
  · rw [key]
  · rw [key]
  · intro h12; rw [key, h12]; rfl
  · intro h2; rw [key, h2]; rfl

theorem time.to_bound_is_last_day_of_month_witness :
    Spec.isMonthYear "02-2024" = true ∧
      ∃ d, time.Parse "02-2024" = .ok d ∧ d.AddDate 0 1 (-1) = ⟨2024, 2, 29⟩ :=
  ⟨by decide, by
    obtain ⟨d, h1, h2, -⟩ := time.to_bound_is_last_day_of_month "02-2024" (by decide)
    exact ⟨d, h1, by rw [h2]; decide⟩⟩

/-! ## Lemmas: the statement `List` builds -/

theorem Spec.monthOf_range (s : String) (h : Spec.isMonthYear s = true) :
    1 ≤ Spec.monthOf s ∧ Spec.monthOf s ≤ 12 := by
  obtain ⟨m1, m2, y1, y2, y3, y4, rfl, -, -, -, -, -, -, hlo, hhi⟩ := Spec.isMonthYear_shape s h
  simpa [Spec.monthOf, time.digitVal] using And.intro hlo hhi

theorem time.Parse_valid (s : String) (h : Spec.isMonthYear s = true) :
    time.Parse s = .ok (Spec.firstOfMonth s) := by
  rcases time.Parse_cases s with ⟨_, hp⟩ | ⟨hn, _⟩
  · exact hp
  · rw [h] at hn; cases hn

theorem Spec.AddDate_firstOfMonth (t : String) (h : Spec.isMonthYear t = true) :
    (Spec.firstOfMonth t).AddDate 0 1 (-1) = Spec.lastOfMonth t := by
  obtain ⟨h1, h2⟩ := Spec.monthOf_range t h
  exact time.AddDate_end_of_month (Spec.yearOf t) (Spec.monthOf t) h1 h2

theorem fmt.d_eq (n : Nat) : fmt.d n = toString n := rfl

theorem Statement.listQuery_valid (r : storage.ListRequest)
    (hf : ∀ f, r.From = some f → Spec.isMonthYear f = true)
    (ht : ∀ t, r.To = some t → Spec.isMonthYear t = true) :
    storage.listQuery r = .ok
      (Spec.selectText ("1=1" :: Spec.placeholders 1 (Spec.effectiveFilters r))
        ((Spec.effectiveFilters r).length + 1) ((Spec.effectiveFilters r).length + 2),
       (Spec.effectiveFilters r).map Prod.snd ++
        [.int (Spec.effectiveLimit r.Limit),
         .int (Spec.effectiveOffset r.Offset)]) := by
  obtain ⟨uid, sn, fr, tm, lim, off⟩ := r
  rcases uid with _ | u <;> rcases sn with _ | n <;> rcases fr with _ | f <;>
    rcases tm with _ | t <;> rcases lim with _ | l <;> rcases off with _ | o
  all_goals (try have hf1 := time.Parse_valid _ (hf _ rfl))
  all_goals (try have ht1 := time.Parse_valid _ (ht _ rfl))
  all_goals (try have ht2 := Spec.AddDate_firstOfMonth _ (ht _ rfl))
  all_goals (try by_cases hu : u = uuid.Nil)
  all_goals (try by_cases hn : n = "")
  all_goals
    simp [storage.listQuery, storage.Builder.add, Spec.effectiveFilters, Spec.userFilter,
      Spec.serviceFilter, Spec.placeholders, Spec.selectText, strings.Join, fmt.d_eq,
      Spec.effectiveLimit, Spec.effectiveOffset, *]

theorem Statement.listQuery_ok_dates (r : storage.ListRequest) (x : String × List pg.Arg)
    (h : storage.listQuery r = .ok x) :
    (∀ f, r.From = some f → Spec.isMonthYear f = true) ∧
      (∀ t, r.To = some t → Spec.isMonthYear t = true) := by
  obtain ⟨uid, sn, fr, tm, lim, off⟩ := r
  constructor
  · rintro f ⟨rfl⟩
    rcases time.Parse_cases f with ⟨hv, _⟩ | ⟨_, err, hp⟩
    · exact hv
    · simp [storage.listQuery, hp] at h
  · rintro t ⟨rfl⟩
    rcases time.Parse_cases t with ⟨hv, _⟩ | ⟨_, err, hp⟩
    · exact hv
    · rcases fr with _ | f
      · simp [storage.listQuery, hp] at h
      · rcases time.Parse_cases f with ⟨_, hq⟩ | ⟨_, err2, hq⟩ <;>
          simp [storage.listQuery, hp, hq] at h

/-- C18: in the arguments `storage.List` binds, the last two are the effective limit
and the effective offset, in that order: the limit is the requested one when present
and > 0 and 50 otherwise (absent, zero or negative); the offset is 0 when absent and
the requested one when present and >= 0. -/
theorem Statement.listQuery_limit_offset_last (r : storage.ListRequest) (query : String)
    (args : List pg.Arg) (h : storage.listQuery r = .ok (query, args)) :
    ∃ front limit offset, args = front ++ [.int limit, .int offset] ∧
      (∀ l, r.Limit = some l → 0 < l → limit = l) ∧
      (∀ l, r.Limit = some l → l ≤ 0 → limit = 50) ∧
      (r.Limit = none → limit = 50) ∧
      (r.Offset = none → offset = 0) ∧
      (∀ o, r.Offset = some o → 0 ≤ o → offset = o) := by
  obtain ⟨hf, ht⟩ := Statement.listQuery_ok_dates r _ h
  rw [Statement.listQuery_valid r hf ht] at h
  simp only [Except.ok.injEq, Prod.mk.injEq] at h
  obtain ⟨-, hargs⟩ := h
  refine ⟨_, _, _, hargs.symm, ?_, ?_, ?_, ?_, ?_⟩
  · intro l hl hpos; simp [Spec.effectiveLimit, hl, hpos]
  · intro l hl hle
    have : ¬ 0 < l := by omega
    simp [Spec.effectiveLimit, hl, this]
  · intro hl; simp [Spec.effectiveLimit, hl]
  · intro ho; simp [Spec.effectiveOffset, ho]
  · intro o ho hnn; simp [Spec.effectiveOffset, ho, hnn]

theorem Statement.listQuery_limit_offset_last_witness :
    ∃ front limit offset,
      [pg.Arg.uuid ⟨5⟩, .int 50, .int 20] = front ++ [pg.Arg.int limit, .int offset] ∧
      (∀ l, (some (-3) : Option Int) = some l → l ≤ 0 → limit = 50) ∧
      (∀ o, (some 20 : Option Int) = some o → 0 ≤ o → offset = o) := by
  obtain ⟨front, limit, offset, h1, -, h3, -, -, h6⟩ :=
    Statement.listQuery_limit_offset_last ⟨some ⟨5⟩, none, none, none, some (-3), some 20⟩
      (Spec.selectText ["1=1", "user_id = $1"] 2 3) [.uuid ⟨5⟩, .int 50, .int 20] (by rfl)
  exact ⟨front, limit, offset, h1, h3, h6⟩

/-- C19: for a request whose present dates parse, the statement `storage.List` builds
has the WHERE clause `1=1` followed by one condition per effective filter in the order
user_id, service_name, from, to, joined by AND, absent filters adding nothing; with
k effective filters the conditions use $1..$k, LIMIT uses $k+1 and OFFSET $k+2, and
the k+2 arguments are the filter values in the same order, then limit and offset. -/
theorem Statement.listQuery_filter_construction (r : storage.ListRequest)
    (hf : ∀ f, r.From = some f → Spec.isMonthYear f = true)
    (ht : ∀ t, r.To = some t → Spec.isMonthYear t = true) :
    ∃ query args limit offset, storage.listQuery r = .ok (query, args) ∧
      query = Spec.selectText ("1=1" :: Spec.placeholders 1 (Spec.effectiveFilters r))
        ((Spec.effectiveFilters r).length + 1) ((Spec.effectiveFilters r).length + 2) ∧
      args.length = (Spec.effectiveFilters r).length + 2 ∧
      (∀ (i : Nat) (f : String × pg.Arg),
        (Spec.effectiveFilters r)[i]? = some f → args[i]? = some f.2) ∧
      args[(Spec.effectiveFilters r).length]? = some (.int limit) ∧
      args[(Spec.effectiveFilters r).length + 1]? = some (.int offset) := by
  refine ⟨_, _, Spec.effectiveLimit r.Limit, Spec.effectiveOffset r.Offset,
    Statement.listQuery_valid r hf ht, rfl, by simp, ?_, ?_, ?_⟩
  · intro i f hi
    have hlt : i < (Spec.effectiveFilters r).length := by
      by_contra hge
      rw [List.getElem?_eq_none (by omega)] at hi
      cases hi
    rw [List.getElem?_append_left (by simpa using hlt), List.getElem?_map, hi]
    rfl
  · rw [List.getElem?_append_right (by simp)]
    simp
  · rw [List.getElem?_append_right (by simp)]
    simp

theorem Statement.listQuery_filter_construction_witness :
    ∃ query args limit offset,
      storage.listQuery ⟨some ⟨5⟩, some "", some "10-2025", some "12-2025", none, none⟩ =
        .ok (query, args) ∧
      query = Spec.selectText ["1=1", "user_id = $1", "start_date >= $2", "start_date <= $3"]
        4 5 ∧
      args.length = 5 ∧
      args[3]? = some (.int limit) ∧ args[4]? = some (.int offset) := by
  obtain ⟨query, args, limit, offset, h1, h2, h3, -, h5, h6⟩ :=
    Statement.listQuery_filter_construction
      ⟨some ⟨5⟩, some "", some "10-2025", some "12-2025", none, none⟩
      (by intro f hf; cases hf; decide) (by intro t ht; cases ht; decide)
  exact ⟨query, args, limit, offset, h1, h2, h3, h5, h6⟩

/-! ## Lemmas: the engine reading the statement of `List` -/

theorem Spec.placeholders_texts (fs gs : List (String × pg.Arg))
    (h : fs.map Prod.fst = gs.map Prod.fst) (n : Nat) :
    Spec.placeholders n fs = Spec.placeholders n gs := by
  induction fs generalizing gs n with
  | nil =>
    cases gs with
    | nil => rfl
    | cons g gs => simp at h
  | cons f fs ih =>
    cases gs with
    | nil => simp at h
    | cons g gs =>
      simp only [List.map_cons, List.cons.injEq] at h
      simp only [Spec.placeholders, h.1, ih gs h.2]

theorem Spec.numberedConds_texts (fs gs : List (String × pg.Arg))
    (h : fs.map Prod.fst = gs.map Prod.fst) (n : Nat) :
    Spec.numberedConds n fs = Spec.numberedConds n gs := by
  induction fs generalizing gs n with
  | nil =>
    cases gs with
    | nil => rfl
    | cons g gs => simp at h
  | cons f fs ih =>
    cases gs with
    | nil => simp at h
    | cons g gs =>
      simp only [List.map_cons, List.cons.injEq] at h
      simp only [Spec.numberedConds, Spec.filterCond, h.1, ih gs h.2]

set_option maxRecDepth 100000 in
theorem pg.readSelect_flags : ∀ u s f t : Bool,
    pg.readSelect (Spec.selectText ("1=1" :: Spec.placeholders 1 (Spec.effectiveFilters
        ⟨if u then some ⟨1⟩ else none, if s then some "x" else none,
          if f then some "01-2000" else none, if t then some "01-2000" else none, none, none⟩))
      ((Spec.effectiveFilters
        ⟨if u then some ⟨1⟩ else none, if s then some "x" else none,
          if f then some "01-2000" else none, if t then some "01-2000" else none, none,
          none⟩).length + 1)
      ((Spec.effectiveFilters
        ⟨if u then some ⟨1⟩ else none, if s then some "x" else none,
          if f then some "01-2000" else none, if t then some "01-2000" else none, none,
          none⟩).length + 2)) =
    some (.always :: Spec.numberedConds 1 (Spec.effectiveFilters
        ⟨if u then some ⟨1⟩ else none, if s then some "x" else none,
          if f then some "01-2000" else none, if t then some "01-2000" else none, none, none⟩),
      (Spec.effectiveFilters
        ⟨if u then some ⟨1⟩ else none, if s then some "x" else none,
          if f then some "01-2000" else none, if t then some "01-2000" else none, none,
          none⟩).length + 1,
      (Spec.effectiveFilters
        ⟨if u then some ⟨1⟩ else none, if s then some "x" else none,
          if f then some "01-2000" else none, if t then some "01-2000" else none, none,
          none⟩).length + 2) := by
  decide

theorem pg.readSelect_listQuery (r : storage.ListRequest) :
    pg.readSelect (Spec.selectText ("1=1" :: Spec.placeholders 1 (Spec.effectiveFilters r))
      ((Spec.effectiveFilters r).length + 1) ((Spec.effectiveFilters r).length + 2)) =
    some (.always :: Spec.numberedConds 1 (Spec.effectiveFilters r),
      (Spec.effectiveFilters r).length + 1, (Spec.effectiveFilters r).length + 2) := by
  have key := pg.readSelect_flags (Spec.userFilter r).isSome (Spec.serviceFilter r).isSome
    r.From.isSome r.To.isSome
  have htexts : (Spec.effectiveFilters r).map Prod.fst =
      (Spec.effectiveFilters
        ⟨if (Spec.userFilter r).isSome then some ⟨1⟩ else none,
          if (Spec.serviceFilter r).isSome then some "x" else none,
          if r.From.isSome then some "01-2000" else none,
          if r.To.isSome then some "01-2000" else none, none, none⟩).map Prod.fst := by
    obtain ⟨uid, sn, fr, tm, lim, off⟩ := r
    rcases uid with _ | u <;> rcases sn with _ | n <;> rcases fr with _ | f <;>
      rcases tm with _ | t
    all_goals (try by_cases hu : u = uuid.Nil)
    all_goals (try by_cases hn : n = "")
    all_goals
      simp [Spec.effectiveFilters, Spec.userFilter, Spec.serviceFilter,
        (by decide : (⟨1⟩ : uuid.UUID) ≠ uuid.Nil), *]
  have hlen := congrArg List.length htexts
  simp only [List.length_map] at hlen
  rw [Spec.placeholders_texts _ _ htexts, Spec.numberedConds_texts _ _ htexts, hlen]
  exact key

theorem Spec.lastDay_pos (m y : Nat) : 1 ≤ Spec.lastDay m y := by
  unfold Spec.lastDay
  split <;> (try split) <;> omega

theorem Spec.from_bound (f : String) (hf : Spec.isMonthYear f = true) (d : time.Time)
    (hday : 1 ≤ d.day) (hm : 1 ≤ d.month ∧ d.month ≤ 12) :
    (!d.Before (Spec.firstOfMonth f)) = decide (Spec.monthIndexOf f ≤ Spec.monthIndex d) := by
  obtain ⟨h1, h2⟩ := Spec.monthOf_range f hf
  obtain ⟨y, m, dd⟩ := d
  simp only [time.Time.Before, Spec.firstOfMonth, Spec.monthIndexOf, Spec.monthIndex] at *
  rw [← decide_not] 
  congr 1
  apply propext
  constructor <;> intro h <;> omega

theorem Spec.to_bound (t : String) (ht : Spec.isMonthYear t = true) (d : time.Time)
    (hday : d.day = 1) (hm : 1 ≤ d.month ∧ d.month ≤ 12) :
    (!(Spec.lastOfMonth t).Before d) = decide (Spec.monthIndex d ≤ Spec.monthIndexOf t) := by
  obtain ⟨h1, h2⟩ := Spec.monthOf_range t ht
  have h3 := Spec.lastDay_pos (Spec.monthOf t) (Spec.yearOf t)
  obtain ⟨y, m, dd⟩ := d
  simp only [time.Time.Before, Spec.lastOfMonth, Spec.monthIndexOf, Spec.monthIndex] at *
  rw [← decide_not]
  congr 1
  apply propext
  constructor <;> intro h <;> omega

theorem Spec.tests_listQuery (r : storage.ListRequest)
    (hf : ∀ f, r.From = some f → Spec.isMonthYear f = true)
    (ht : ∀ t, r.To = some t → Spec.isMonthYear t = true) (tail : List pg.Arg) :
    ∃ tests, (pg.Cond.always :: Spec.numberedConds 1 (Spec.effectiveFilters r)).mapM
        (pg.Cond.test ((Spec.effectiveFilters r).map Prod.snd ++ tail)) = some tests ∧
      ∀ row : pg.Row, row.start_date.day = 1 →
        1 ≤ row.start_date.month ∧ row.start_date.month ≤ 12 →
        tests.all (fun t => t row) = Spec.listSelects r row := by
  obtain ⟨uid, sn, fr, tm, lim, off⟩ := r
  rcases uid with _ | u <;> rcases sn with _ | n <;> rcases fr with _ | f <;>
    rcases tm with _ | t
  all_goals (try have hf1 := hf _ rfl)
  all_goals (try have ht1 := ht _ rfl)
  all_goals (try by_cases hu : u = uuid.Nil)
  all_goals (try by_cases hn : n = "")
  all_goals
    refine ⟨_, by
      simp [Spec.effectiveFilters, Spec.userFilter, Spec.serviceFilter, Spec.numberedConds,
        Spec.filterCond, pg.Cond.test, pg.param, *]
      rfl, ?_⟩
  all_goals
    intro row hday hm
    try have hfb := Spec.from_bound _ hf1 row.start_date (by omega) hm
    try have htb := Spec.to_bound _ ht1 row.start_date hday hm
    simp [Spec.listSelects, Spec.userFilter, Spec.serviceFilter, Bool.and_assoc, *]

theorem pg.param_limit (front : List pg.Arg) (a b : pg.Arg) :
    pg.param (front ++ [a, b]) (front.length + 1) = some a := by
  simp only [pg.param, Nat.add_one_ne_zero, if_false, Nat.add_sub_cancel, List.get?_eq_getElem?]
  rw [List.getElem?_append_right (Nat.le_refl _)]
  simp

theorem pg.param_offset (front : List pg.Arg) (a b : pg.Arg) :
    pg.param (front ++ [a, b]) (front.length + 2) = some b := by
  have h2 : front.length + 2 - 1 = front.length + 1 := by omega
  simp only [pg.param, (by omega : front.length + 2 ≠ 0), if_false, h2,
    List.get?_eq_getElem?]
  rw [List.getElem?_append_right (by omega)]
  simp

theorem Spec.effectiveLimit_pos (l : Option Int) : 0 < Spec.effectiveLimit l := by
  unfold Spec.effectiveLimit
  split
  · split <;> omega
  · omega

theorem Spec.effectiveOffset_nonneg (o : Option Int) : 0 ≤ Spec.effectiveOffset o := by
  unfold Spec.effectiveOffset
  split
  · split <;> omega
  · omega

theorem pg.Query_listQuery (r : storage.ListRequest) (db : pg.DB)
    (hf : ∀ f, r.From = some f → Spec.isMonthYear f = true)
    (ht : ∀ t, r.To = some t → Spec.isMonthYear t = true)
    (hrows : ∀ row ∈ db, row.start_date.day = 1 ∧
      1 ≤ row.start_date.month ∧ row.start_date.month ≤ 12) :
    pg.Query (Spec.selectText ("1=1" :: Spec.placeholders 1 (Spec.effectiveFilters r))
        ((Spec.effectiveFilters r).length + 1) ((Spec.effectiveFilters r).length + 2))
      ((Spec.effectiveFilters r).map Prod.snd ++
        [.int (Spec.effectiveLimit r.Limit), .int (Spec.effectiveOffset r.Offset)]) db =
    .ok (((pg.orderByStartDate (db.filter (Spec.listSelects r))).drop
      (Spec.effectiveOffset r.Offset).toNat).take (Spec.effectiveLimit r.Limit).toNat) := by
  obtain ⟨tests, htests, hsel⟩ := Spec.tests_listQuery r hf ht
    [.int (Spec.effectiveLimit r.Limit), .int (Spec.effectiveOffset r.Offset)]
  have hl := pg.param_limit ((Spec.effectiveFilters r).map Prod.snd)
    (.int (Spec.effectiveLimit r.Limit)) (.int (Spec.effectiveOffset r.Offset))
  have ho := pg.param_offset ((Spec.effectiveFilters r).map Prod.snd)
    (.int (Spec.effectiveLimit r.Limit)) (.int (Spec.effectiveOffset r.Offset))
  simp only [List.length_map] at hl ho
  have hneg : ¬ (Spec.effectiveLimit r.Limit < 0 ∨ Spec.effectiveOffset r.Offset < 0) := by
    have := Spec.effectiveLimit_pos r.Limit
    have := Spec.effectiveOffset_nonneg r.Offset
    omega
  have hfilter : db.filter (fun row => tests.all (fun t => t row)) =
      db.filter (Spec.listSelects r) := by
    apply List.filter_congr
    intro row hrow
    exact hsel row (hrows row hrow).1 (hrows row hrow).2
  simp only [pg.Query, pg.readSelect_listQuery, htests, hl, ho, hneg, if_false, hfilter]

/-- C16: over rows whose start date is the first day of a month, `storage.List`
returns, in start-date order and cut by offset and limit, exactly the rows that pass
the effective user and service filters and whose start month m satisfies
month(from) <= m (when from is present) and m <= month(to) (when to is present), both
inclusive; the row's end date plays no part. When offset is 0 and the limit covers
them, every such row is returned. -/
theorem Statement.List_selects_by_month (env : pg.Env) (r : storage.ListRequest) (db : pg.DB)
    (ha : env.acquireErr = none) (hx : env.execErr = none)
    (hf : ∀ f, r.From = some f → Spec.isMonthYear f = true)
    (ht : ∀ t, r.To = some t → Spec.isMonthYear t = true)
    (hrows : ∀ row ∈ db, row.start_date.day = 1 ∧
      1 ≤ row.start_date.month ∧ row.start_date.month ≤ 12) :
    storage.List env (some r) db =
      (.ok ⟨(((pg.orderByStartDate (db.filter (Spec.listSelects r))).drop
        (Spec.effectiveOffset r.Offset).toNat).take
        (Spec.effectiveLimit r.Limit).toNat).map storage.scanRow⟩, db) ∧
    (∀ row, row ∈ pg.orderByStartDate (db.filter (Spec.listSelects r)) ↔
      row ∈ db ∧ Spec.listSelects r row = true) ∧
    (Spec.effectiveOffset r.Offset = 0 →
      ((db.filter (Spec.listSelects r)).length : Int) ≤ Spec.effectiveLimit r.Limit →
      storage.List env (some r) db =
        (.ok ⟨(pg.orderByStartDate (db.filter (Spec.listSelects r))).map storage.scanRow⟩,
          db)) := by
  have hmain : storage.List env (some r) db =
      (.ok ⟨(((pg.orderByStartDate (db.filter (Spec.listSelects r))).drop
        (Spec.effectiveOffset r.Offset).toNat).take
        (Spec.effectiveLimit r.Limit).toNat).map storage.scanRow⟩, db) := by
    simp only [storage.List, ha, hx, Statement.listQuery_valid r hf ht,
      pg.Query_listQuery r db hf ht hrows]
  refine ⟨hmain, ?_, ?_⟩
  · intro row
    rw [pg.orderByStartDate, (List.perm_insertionSort _ _).mem_iff, List.mem_filter]
  · intro ho hlen
    rw [hmain, ho]
    have hlen2 : (pg.orderByStartDate (db.filter (Spec.listSelects r))).length ≤
        (Spec.effectiveLimit r.Limit).toNat := by
      rw [pg.orderByStartDate, List.length_insertionSort]
      omega
    simp [List.take_of_length_le hlen2]

theorem Statement.List_selects_by_month_witness :
    storage.List Example.env (some ⟨none, none, some "10-2025", none, none, none⟩)
      [Example.septRow, Example.octRow] =
    (.ok ⟨[⟨⟨3⟩, Example.user, "Spotify", 15, "10-2025", none⟩]⟩,
      [Example.septRow, Example.octRow]) :=
  (Statement.List_selects_by_month Example.env ⟨none, none, some "10-2025", none, none, none⟩
    [Example.septRow, Example.octRow] rfl rfl (by intro f hf; cases hf; decide)
    (by intro t ht; cases ht) (by decide)).1.trans (by rfl)

/-! ## Lemmas: the total -/

theorem Spec.dateLe_eq (a b : time.Time) : Spec.dateLe a b = !b.Before a := by
  simp only [Spec.dateLe, time.Time.Before]
  rw [← decide_not]
  congr 1
  apply propext
  constructor <;> intro h <;> omega

theorem Statement.Total_valid (env : pg.Env) (r : storage.TotalRequest)
    (db : pg.DB) (ha : env.acquireErr = none) (hx : env.execErr = none)
    (hf : Spec.isMonthYear r.From = true) (ht : Spec.isMonthYear r.To = true) :
    storage.GetTotalSubscriptionsPrice env (some r) db =
      (.ok (((db.filter (Spec.totalSelects r)).map (fun row => row.price)).sum), db) := by
  simp only [storage.GetTotalSubscriptionsPrice, ha, hx, time.Parse_valid _ hf,
    time.Parse_valid _ ht, Spec.AddDate_firstOfMonth _ ht, pg.sumPrice]
  have hfun : (fun row : pg.Row =>
      ((match r.UserID with
        | none => true
        | some u => decide (row.user_id = u)) &&
      (match r.ServiceName with
        | none => true
        | some n => pg.ilike row.service_name (pg.concat (pg.concat "%" n) "%")) &&
      !row.start_date.Before (Spec.firstOfMonth r.From) &&
      !(Spec.lastOfMonth r.To).Before row.start_date)) = Spec.totalSelects r := by
    funext row
    simp only [Spec.totalSelects, Spec.dateLe_eq, pg.concat]
    cases r.UserID <;> cases r.ServiceName <;> rfl
  exact congrArg (fun p => ((Except.ok ((db.filter p).map (fun row => row.price)).sum :
    Except GoError Int), db)) hfun

/-- C14: for a request with valid from and to (and a store that answers),
`storage.GetTotalSubscriptionsPrice` returns the sum of `price` over exactly the rows
that pass the user_id filter (if supplied), the service_name filter (if supplied) and
first-day(from) <= start_date <= last-day(to); when no row passes, it returns 0 and no
error. -/
theorem Statement.Total_sums_selected_rows (env : pg.Env) (r : storage.TotalRequest)
    (db : pg.DB) (ha : env.acquireErr = none) (hx : env.execErr = none)
    (hf : Spec.isMonthYear r.From = true) (ht : Spec.isMonthYear r.To = true) :
    storage.GetTotalSubscriptionsPrice env (some r) db =
      (.ok (((db.filter (Spec.totalSelects r)).map (fun row => row.price)).sum), db) ∧
    ((∀ row ∈ db, Spec.totalSelects r row = false) →
      storage.GetTotalSubscriptionsPrice env (some r) db = (.ok 0, db)) := by
  have hmain := Statement.Total_valid env r db ha hx hf ht
  refine ⟨hmain, fun hnone => ?_⟩
  rw [hmain]
  have : db.filter (Spec.totalSelects r) = [] := by
    rw [List.filter_eq_nil_iff]
    intro row hrow
    simp [hnone row hrow]
  rw [this]
  rfl

theorem Statement.Total_sums_selected_rows_witness :
    storage.GetTotalSubscriptionsPrice Example.env (some ⟨none, none, "09-2025", "10-2025"⟩)
        [Example.netflixRow, Example.septRow, Example.octRow] =
      (.ok 25, [Example.netflixRow, Example.septRow, Example.octRow]) ∧
    storage.GetTotalSubscriptionsPrice Example.env (some ⟨none, none, "01-2020", "02-2020"⟩)
        [Example.netflixRow, Example.septRow, Example.octRow] =
      (.ok 0, [Example.netflixRow, Example.septRow, Example.octRow]) :=
  ⟨(Statement.Total_sums_selected_rows Example.env ⟨none, none, "09-2025", "10-2025"⟩
      [Example.netflixRow, Example.septRow, Example.octRow] rfl rfl (by decide)
      (by decide)).1.trans (by rfl),
    (Statement.Total_sums_selected_rows Example.env ⟨none, none, "01-2020", "02-2020"⟩
      [Example.netflixRow, Example.septRow, Example.octRow] rfl rfl (by decide)
      (by decide)).2 (by decide)⟩

/-! ## Lemmas: pattern matching -/

theorem pg.likeFrom_nil (t : List Char) : pg.likeFrom false [] t = t.isEmpty := by
  simp [pg.likeFrom]

theorem pg.likeFrom_percent (p t : List Char) :
    pg.likeFrom false ('%' :: p) t = t.tails.any (fun rest => pg.likeFrom false p rest) := by
  simp [pg.likeFrom]

theorem pg.likeFrom_char (c : Char) (p : List Char) (d : Char) (t : List Char)
    (h : c ≠ '%' ∧ c ≠ '_' ∧ c ≠ Char.ofNat 92) :
    pg.likeFrom false (c :: p) (d :: t) = (c == d && pg.likeFrom false p t) := by
  simp [pg.likeFrom, h.1, h.2.1, h.2.2]

theorem pg.likeFrom_char_nil (c : Char) (p : List Char)
    (h : c ≠ '%' ∧ c ≠ '_' ∧ c ≠ Char.ofNat 92) :
    pg.likeFrom false (c :: p) [] = false := by
  simp [pg.likeFrom, h.1, h.2.1, h.2.2]

theorem pg.like_percent_end (t : List Char) : pg.likeFrom false ['%'] t = true := by
  rw [pg.likeFrom_percent, List.any_eq_true]
  exact ⟨[], by simp, by simp [pg.likeFrom_nil]⟩

theorem pg.like_literal (q t : List Char)
    (hq : ∀ c ∈ q, c ≠ '%' ∧ c ≠ '_' ∧ c ≠ Char.ofNat 92) :
    pg.likeFrom false (q ++ ['%']) t = q.isPrefixOf t := by
  induction q generalizing t with
  | nil => simp [pg.like_percent_end]
  | cons c q ih =>
    have hc := hq c (by simp)
    have hq' : ∀ d ∈ q, d ≠ '%' ∧ d ≠ '_' ∧ d ≠ Char.ofNat 92 :=
      fun d hd => hq d (by simp [hd])
    cases t with
    | nil => simp [pg.likeFrom_char_nil _ _ hc]
    | cons d t =>
      rw [List.cons_append, pg.likeFrom_char _ _ _ _ hc, ih t hq']
      simp [List.isPrefixOf]

theorem pg.like_substring (q t : List Char)
    (hq : ∀ c ∈ q, c ≠ '%' ∧ c ≠ '_' ∧ c ≠ Char.ofNat 92) :
    pg.like ('%' :: (q ++ ['%'])) t = t.tails.any (fun rest => q.isPrefixOf rest) := by
  rw [pg.like, pg.likeFrom_percent]
  congr 1
  funext rest
  exact pg.like_literal q rest hq

theorem Char.toLower_plain (c : Char)
    (h : c ≠ '%' ∧ c ≠ '_' ∧ c ≠ Char.ofNat 92) :
    c.toLower ≠ '%' ∧ c.toLower ≠ '_' ∧ c.toLower ≠ Char.ofNat 92 := by
  by_cases hup : 65 ≤ c.toNat ∧ c.toNat ≤ 90
  · have hc : c = Char.ofNat c.toNat := (Char.ofNat_toNat c).symm
    obtain ⟨h1, h2⟩ := hup
    generalize c.toNat = n at hc h1 h2
    subst hc
    interval_cases n <;> decide
  · have : c.toLower = c := by
      simp only [Char.toLower]
      split
      · rename_i hh
        exfalso
        apply hup
        simp only [Char.toNat, ge_iff_le, UInt32.le_def, BitVec.le_def] at hh ⊢
        exact hh
      · rfl
    rw [this]
    exact h

/-- For a filter string `n` free of `%`, `_` and the backslash, the pattern
`"%" + n + "%"` matched with ILIKE passes exactly the names that contain `n` as a
case-insensitive substring: only the pattern characters make the two differ. -/
theorem pg.ilike_plain_is_substring (n s : String) (h : Spec.plain n = true) :
    pg.ilike s ("%" ++ n ++ "%") = Spec.containsIgnoreCase s n ∧
      pg.ilike s (pg.concat (pg.concat "%" n) "%") = Spec.containsIgnoreCase s n := by
  have hq : ∀ c ∈ n.data.map Char.toLower, c ≠ '%' ∧ c ≠ '_' ∧ c ≠ Char.ofNat 92 := by
    intro c hc
    obtain ⟨d, hd, rfl⟩ := List.mem_map.1 hc
    apply Char.toLower_plain
    simp only [Spec.plain, List.all_eq_true] at h
    simpa [and_assoc] using h d hd
  have key : pg.ilike s ("%" ++ n ++ "%") = Spec.containsIgnoreCase s n := by
    have hdata : ("%" ++ n ++ "%").data.map Char.toLower =
        '%' :: (n.data.map Char.toLower ++ ['%']) := by
      simp [String.data_append]
    rw [pg.ilike, hdata, pg.like_substring _ _ hq]
    rfl
  exact ⟨key, key⟩

theorem pg.ilike_plain_is_substring_witness :
    Spec.plain "FLIX" = true ∧ pg.ilike "Netflix" ("%" ++ "FLIX" ++ "%") = true :=
  ⟨by decide, by
    rw [(pg.ilike_plain_is_substring "FLIX" "Netflix" (by decide)).1]
    decide⟩

/-! ## Lemmas: reading and updating through the three layers -/

/-- C12: for a non-nil id, `application.GetInfo` returns `(nil, nil)` exactly when the
store does, the store's record with its six fields copied when the store returns one,
and a nil response with a wrapping error when the store fails; the REST handler
answers 404, 200 with the record, and 500 respectively. -/
theorem application.GetInfo_three_outcomes {σ : Type}
    (dbGetInfo : uuid.UUID → σ → Except GoError (Option storage.GetInfoResponse) × σ)
    (uuidParse : String → Option uuid.UUID) (idParam : String) (id : uuid.UUID) (s : σ)
    (hid : id ≠ uuid.Nil) (hparam : idParam ≠ "") (hparse : uuidParse idParam = some id) :
    ((application.GetInfo dbGetInfo (some ⟨id⟩) s).1 = .ok none ↔
      (dbGetInfo id s).1 = .ok none) ∧
    (∀ rec, (dbGetInfo id s).1 = .ok (some rec) →
      (application.GetInfo dbGetInfo (some ⟨id⟩) s).1 =
        .ok (some ⟨rec.ID, rec.UserID, rec.ServiceName, rec.Price, rec.StartDate,
          rec.EndDate⟩)) ∧
    (∀ e, (dbGetInfo id s).1 = .error e →
      (application.GetInfo dbGetInfo (some ⟨id⟩) s).1 =
        .error (.Wrap "failed to get subscription info" e)) ∧
    ((dbGetInfo id s).1 = .ok none →
      (rest.GetInfo uuidParse (application.GetInfo dbGetInfo) idParam s).1 =
        ⟨404, .Error "subscription not found"⟩) ∧
    (∀ rec, (dbGetInfo id s).1 = .ok (some rec) →
      (rest.GetInfo uuidParse (application.GetInfo dbGetInfo) idParam s).1 =
        ⟨200, .Json (some ⟨rec.ID, rec.UserID, rec.ServiceName, rec.Price, rec.StartDate,
          rec.EndDate⟩)⟩) ∧
    (∀ e, (dbGetInfo id s).1 = .error e →
      (rest.GetInfo uuidParse (application.GetInfo dbGetInfo) idParam s).1.Status = 500) := by
  rcases hstore : dbGetInfo id s with ⟨res, s1⟩
  rcases res with e | _ | rec <;>
    simp [application.GetInfo, rest.GetInfo, hid, hparam, hparse, hstore,
      rest.StatusNotFound, rest.StatusOK, rest.StatusInternalServerError]

theorem application.GetInfo_three_outcomes_witness :
    (rest.GetInfo Example.parse7 (application.GetInfo (storage.GetInfo Example.env))
        "00000000-0000-0000-0000-000000000007" [Example.netflixRow]).1 =
      ⟨404, .Error "subscription not found"⟩ ∧
    (rest.GetInfo Example.parse7 (application.GetInfo (storage.GetInfo Example.env))
        "00000000-0000-0000-0000-000000000007" [{ Example.netflixRow with id := ⟨7⟩ }]).1 =
      ⟨200, .Json (some ⟨⟨7⟩, Example.user, "Netflix", 10, "01-2025", some "02-2025"⟩)⟩ :=
  ⟨(application.GetInfo_three_outcomes (storage.GetInfo Example.env) Example.parse7
      "00000000-0000-0000-0000-000000000007" ⟨7⟩ [Example.netflixRow] (by decide) (by decide)
      (by decide)).2.2.2.1 (by rfl),
    (application.GetInfo_three_outcomes (storage.GetInfo Example.env) Example.parse7
      "00000000-0000-0000-0000-000000000007" ⟨7⟩ [{ Example.netflixRow with id := ⟨7⟩ }]
      (by decide) (by decide) (by decide)).2.2.2.2.1
      ⟨⟨7⟩, Example.user, "Netflix", 10, "01-2025", some "02-2025"⟩ (by rfl)⟩

theorem storage.Update_valid (env : pg.Env) (id : uuid.UUID) (req : storage.UpdateRequest)
    (db : pg.DB) (ha : env.acquireErr = none) (hx : env.execErr = none)
    (hs : ∀ d, req.StartDate = some d → Spec.isMonthYear d = true)
    (he : ∀ d, req.EndDate = some d → Spec.isMonthYear d = true) :
    storage.Update env id (some req) db =
      (.ok ⟨decide (db.countP (fun r => r.id = id) > 0)⟩,
        (pg.update id req.ServiceName req.Price (req.StartDate.map Spec.firstOfMonth)
          (req.EndDate.map Spec.firstOfMonth) db).2) := by
  obtain ⟨sn, pr, sd, ed⟩ := req
  rcases sd with _ | d1 <;> rcases ed with _ | d2
  all_goals (try have h1 := time.Parse_valid _ (hs _ rfl))
  all_goals (try have h2 := time.Parse_valid _ (he _ rfl))
  all_goals simp [storage.Update, ha, hx, pg.update, *]

theorem pg.update_no_match (id : uuid.UUID) (sn : Option String) (pr : Option Int)
    (sd ed : Option time.Time) (db : pg.DB) (h : ∀ r ∈ db, r.id ≠ id) :
    (pg.update id sn pr sd ed db).2 = db := by
  simp only [pg.update]
  conv_rhs => rw [← List.map_id db]
  apply List.map_congr_left
  intro r hr
  simp [h r hr]

/-- C13: an update that matches no row is not an error. `storage.Update` (with a
connection, parseable dates and no engine failure) returns a nil error and
`Updated = true` exactly when at least one row has the id; `application.Update`
returns the store's flag unchanged; the REST handler answers 200 with that flag; with
no matching row the flag is false and the table is unchanged. -/
theorem rest.Update_zero_rows_is_not_an_error (uuidParse : String → Option uuid.UUID)
    (idParam : String) (id : uuid.UUID) (env : pg.Env) (db : pg.DB)
    (req : application.UpdateRequest)
    (hparam : idParam ≠ "") (hparse : uuidParse idParam = some id)
    (ha : env.acquireErr = none) (hx : env.execErr = none)
    (hprice : ∀ p, req.Price = some p → 0 < p)
    (hdates : Spec.datesOk req.StartDate req.EndDate = true) :
    (∃ db1, storage.Update env id
        (some ⟨req.ServiceName, req.Price, req.StartDate, req.EndDate⟩) db =
      (.ok ⟨decide (∃ r ∈ db, r.id = id)⟩, db1)) ∧
    (∀ {σ : Type} (dbUpdate : uuid.UUID → Option storage.UpdateRequest → σ →
        Except GoError storage.UpdateResponse × σ) (s s1 : σ) (resp : storage.UpdateResponse),
      dbUpdate id (some ⟨req.ServiceName, req.Price, req.StartDate, req.EndDate⟩) s =
        (.ok resp, s1) →
      application.Update dbUpdate id (some req) s = (.ok (some ⟨resp.Updated⟩), s1)) ∧
    (rest.Update uuidParse (application.Update (storage.Update env)) idParam (.ok req) db).1 =
      ⟨200, .Json (some ⟨decide (∃ r ∈ db, r.id = id)⟩)⟩ ∧
    ((∀ r ∈ db, r.id ≠ id) →
      rest.Update uuidParse (application.Update (storage.Update env)) idParam (.ok req) db =
        (⟨200, .Json (some ⟨false⟩)⟩, db)) := by
  have hs : ∀ d, req.StartDate = some d → Spec.isMonthYear d = true := by
    intro d hd
    rw [hd] at hdates
    cases hv : Spec.isMonthYear d
    · simp [Spec.datesOk, hv] at hdates
    · rfl
  have he : ∀ d, req.EndDate = some d → Spec.isMonthYear d = true := by
    intro d hd
    rw [hd] at hdates
    cases hv : Spec.isMonthYear d
    · cases req.StartDate <;> simp [Spec.datesOk, hv] at hdates
    · rfl
  have hq : ¬ (req.Price.isSome ∧ req.Price.getD 0 ≤ 0) := by
    rintro ⟨h1, h2⟩
    cases hp : req.Price with
    | none => simp [hp] at h1
    | some p =>
      have := hprice p hp
      simp [hp] at h2
      omega
  have hv := (application.validateDates_none_iff _ _).2 hdates
  have hcount : decide (db.countP (fun r => r.id = id) > 0) = decide (∃ r ∈ db, r.id = id) := by
    congr 1
    apply propext
    rw [gt_iff_lt, List.countP_pos_iff]
    simp
  have hstore := storage.Update_valid env id
    ⟨req.ServiceName, req.Price, req.StartDate, req.EndDate⟩ db ha hx hs he
  rw [hcount] at hstore
  have happ : ∀ {σ : Type} (dbUpdate : uuid.UUID → Option storage.UpdateRequest → σ →
        Except GoError storage.UpdateResponse × σ) (s s1 : σ) (resp : storage.UpdateResponse),
      dbUpdate id (some ⟨req.ServiceName, req.Price, req.StartDate, req.EndDate⟩) s =
        (.ok resp, s1) →
      application.Update dbUpdate id (some req) s = (.ok (some ⟨resp.Updated⟩), s1) := by
    intro σ dbUpdate s s1 resp hres
    simp only [application.Update, hq, if_false, hv, hres]
  have hsb : ∀ d, req.StartDate = some d → time.Parse d = .ok (Spec.firstOfMonth d) :=
    fun d hd => time.Parse_valid d (hs d hd)
  have heb : ∀ d, req.EndDate = some d → time.Parse d = .ok (Spec.firstOfMonth d) :=
    fun d hd => time.Parse_valid d (he d hd)
  have hrest : rest.Update uuidParse (application.Update (storage.Update env)) idParam
      (.ok req) db =
      (⟨200, .Json (some ⟨decide (∃ r ∈ db, r.id = id)⟩)⟩,
        (pg.update id req.ServiceName req.Price (req.StartDate.map Spec.firstOfMonth)
          (req.EndDate.map Spec.firstOfMonth) db).2) := by
    have h1 := happ (storage.Update env) db _ _ hstore
    rcases hsd : req.StartDate with _ | d1 <;> rcases hed : req.EndDate with _ | d2
    all_goals (try have p1 := hsb _ hsd)
    all_goals (try have p2 := heb _ hed)
    all_goals
      simp only [rest.Update, hparam, if_false, hparse, hsd, hed, h1] at *
    all_goals simp [*, rest.StatusOK]
  refine ⟨⟨_, hstore⟩, happ, by rw [hrest], fun hno => ?_⟩
  rw [hrest, pg.update_no_match _ _ _ _ _ _ hno]
  have : ¬ ∃ r ∈ db, r.id = id := by
    rintro ⟨r, hr, hrid⟩
    exact hno r hr hrid
  simp [this]

theorem rest.Update_zero_rows_is_not_an_error_witness :
    rest.Update Example.parse7 (application.Update (storage.Update Example.env))
        "00000000-0000-0000-0000-000000000007" (.ok ⟨none, some 25, none, none⟩)
        [Example.netflixRow] =
      (⟨200, .Json (some ⟨false⟩)⟩, [Example.netflixRow]) :=
  (rest.Update_zero_rows_is_not_an_error Example.parse7
    "00000000-0000-0000-0000-000000000007" ⟨7⟩ Example.env [Example.netflixRow]
    ⟨none, some 25, none, none⟩ (by decide) (by decide) rfl rfl
    (by intro p hp; cases hp; decide) (by decide)).2.2.2 (by decide)

/-! ## Lemmas: what the REST layer answers to a request that fails validation -/

theorem rest.listRequest_negative_offset (uuidParse : String → Option uuid.UUID)
    (atoi : String → Option Int) (q : String → String) (o : Int)
    (hq : q "offset" ≠ "") (ho : atoi (q "offset") = some o) (hneg : o < 0) :
    ∃ reply, rest.listRequest uuidParse atoi q = .error reply ∧ reply.Status = 400 := by
  simp only [rest.listRequest, bind, Except.bind, pure, Except.pure, throw, throwThe,
    MonadExceptOf.throw, hq, ho, hneg, ne_eq, not_false_eq_true, if_true]
  repeat' split
  all_goals exact ⟨_, rfl, rfl⟩

/-- C11 (evaluation at the failing inputs): the REST layer answers 500, not a 4xx
status, to requests that pass its own checks and fail the application layer's
validation, with no store call: a Create whose end_date is earlier than its
start_date, an Update with a supplied price <= 0 or with end_date earlier than
start_date, and a List or TotalPrice with from later than to. -/
theorem rest.validation_failure_answers_500 {σ : Type} (s : σ) :
    (∀ (dbCreate : storage.CreateRequest → σ → Except GoError storage.CreateResponse × σ)
        (r : application.CreateRequest) (e : String),
      r.UserID ≠ uuid.Nil → r.ServiceName ≠ "" → 0 < r.Price →
      Spec.isMonthYear r.StartDate = true → r.EndDate = some e →
      Spec.isMonthYear e = true → Spec.earlier e r.StartDate = true →
      rest.Create (application.Create dbCreate) (.ok r) s =
        (⟨500, .Error "end_date cannot be before start_date"⟩, s)) ∧
    (∀ (uuidParse : String → Option uuid.UUID)
        (dbUpdate : uuid.UUID → Option storage.UpdateRequest → σ →
          Except GoError storage.UpdateResponse × σ)
        (idParam : String) (id : uuid.UUID) (req : application.UpdateRequest) (p : Int),
      idParam ≠ "" → uuidParse idParam = some id →
      (∀ d, req.StartDate = some d → Spec.isMonthYear d = true) →
      (∀ d, req.EndDate = some d → Spec.isMonthYear d = true) →
      req.Price = some p → p ≤ 0 →
      rest.Update uuidParse (application.Update dbUpdate) idParam (.ok req) s =
        (⟨500, .Error "price must be greater than 0"⟩, s)) ∧
    (∀ (uuidParse : String → Option uuid.UUID)
        (dbUpdate : uuid.UUID → Option storage.UpdateRequest → σ →
          Except GoError storage.UpdateResponse × σ)
        (idParam : String) (id : uuid.UUID) (req : application.UpdateRequest)
        (d1 d2 : String),
      idParam ≠ "" → uuidParse idParam = some id → req.Price = none →
      req.StartDate = some d1 → req.EndDate = some d2 →
      Spec.isMonthYear d1 = true → Spec.isMonthYear d2 = true →
      Spec.earlier d2 d1 = true →
      rest.Update uuidParse (application.Update dbUpdate) idParam (.ok req) s =
        (⟨500, .Error "end_date cannot be before start_date"⟩, s)) ∧
    (∀ (uuidParse : String → Option uuid.UUID) (atoi : String → Option Int)
        (dbList : Option storage.ListRequest → σ → Except GoError storage.ListResponse × σ)
        (q : String → String) (req : application.ListRequest) (f t : String),
      rest.listRequest uuidParse atoi q = .ok req → req.From = some f → req.To = some t →
      Spec.isMonthYear f = true → Spec.isMonthYear t = true → Spec.earlier t f = true →
      rest.GetList uuidParse atoi (application.List dbList) q s =
        (⟨500, .Error "end_date cannot be before start_date"⟩, s)) ∧
    (∀ (uuidParse : String → Option uuid.UUID)
        (dbTotal : Option storage.TotalRequest → σ → Except GoError Int × σ)
        (q : String → String) (req : application.TotalRequest),
      rest.totalRequest uuidParse q = .ok req →
      Spec.isMonthYear req.From = true → Spec.isMonthYear req.To = true →
      Spec.earlier req.To req.From = true →
      rest.GetTotalSubscriptionsPrice uuidParse
          (application.GetTotalSubscriptionsPrice dbTotal) q s =
        (⟨500, .Error "end_date cannot be before start_date"⟩, s)) := by
  refine ⟨?_, ?_, ?_, ?_, ?_⟩
  · intro dbCreate r e h1 h2 h3 h4 h5 h6 h7
    have hv := application.validateDates_both r.StartDate e h4 h6
    rw [h7] at hv
    have hp : ¬ r.Price ≤ 0 := by omega
    simp [rest.Create, application.Create, h1, h2, hp, time.Parse_valid _ h4, h5,
      time.Parse_valid _ h6, hv, rest.StatusInternalServerError, GoError.Error]
  · intro uuidParse dbUpdate idParam id req p h1 h2 h3 h4 h5 h6
    rcases hsd : req.StartDate with _ | d1 <;> rcases hed : req.EndDate with _ | d2
    all_goals (try have p1 := time.Parse_valid _ (h3 _ hsd))
    all_goals (try have p2 := time.Parse_valid _ (h4 _ hed))
    all_goals
      simp [rest.Update, application.Update, h1, h2, hsd, hed, h5, h6,
        rest.StatusInternalServerError, GoError.Error, *]
  · intro uuidParse dbUpdate idParam id req d1 d2 h1 h2 h3 h4 h5 h6 h7 h8
    have hv := application.validateDates_both d1 d2 h6 h7
    rw [h8] at hv
    simp [rest.Update, application.Update, h1, h2, h3, h4, h5, time.Parse_valid _ h6,
      time.Parse_valid _ h7, hv, rest.StatusInternalServerError, GoError.Error]
  · intro uuidParse atoi dbList q req f t h1 h2 h3 h4 h5 h6
    have hv := application.validateDates_both f t h4 h5
    rw [h6] at hv
    simp [rest.GetList, application.List, h1, h2, h3, hv, rest.StatusInternalServerError,
      GoError.Error]
  · intro uuidParse dbTotal q req h1 h2 h3 h4
    have hv := application.validateDates_both req.From req.To h2 h3
    rw [h4] at hv
    simp [rest.GetTotalSubscriptionsPrice, application.GetTotalSubscriptionsPrice, h1, hv,
      rest.StatusInternalServerError, GoError.Error]

theorem rest.validation_failure_answers_500_witness :
    rest.Create (application.Create (storage.Create Example.env))
        (.ok ⟨Example.user, "Netflix", 10, "09-2025", some "08-2025"⟩) [] =
      (⟨500, .Error "end_date cannot be before start_date"⟩, []) ∧
    rest.GetList Example.parse7 (fun _ => none) (application.List (storage.List Example.env))
        (fun k => if k = "from" then "12-2025" else if k = "to" then "09-2025" else "") [] =
      (⟨500, .Error "end_date cannot be before start_date"⟩, []) ∧
    rest.Update Example.parse7 (application.Update (storage.Update Example.env))
        "00000000-0000-0000-0000-000000000007" (.ok ⟨none, some 0, none, none⟩) [] =
      (⟨500, .Error "price must be greater than 0"⟩, []) :=
  ⟨(rest.validation_failure_answers_500 []).1 (storage.Create Example.env)
      ⟨Example.user, "Netflix", 10, "09-2025", some "08-2025"⟩ "08-2025"
      (by decide) (by decide) (by decide) (by decide) rfl (by decide) (by decide),
    (rest.validation_failure_answers_500 []).2.2.2.1 Example.parse7 (fun _ => none)
      (storage.List Example.env)
      (fun k => if k = "from" then "12-2025" else if k = "to" then "09-2025" else "")
      ⟨none, none, some "12-2025", some "09-2025", none, none⟩ "12-2025" "09-2025"
      (by rfl) rfl rfl (by decide) (by decide) (by decide),
    (rest.validation_failure_answers_500 []).2.1 Example.parse7 (storage.Update Example.env)
      "00000000-0000-0000-0000-000000000007" ⟨7⟩ ⟨none, some 0, none, none⟩ 0
      (by decide) (by decide) (by intro d hd; cases hd) (by intro d hd; cases hd) rfl
      (by decide)⟩

/-- C17 (counterexample): `application.List` does not reject an explicit offset of -1:
it calls the store with the offset unchanged and returns the store's answer; and
`storage.List` binds 0 for it, building the same statement and arguments as for an
offset of 0. -/
theorem application.List_accepts_negative_offset :
    application.List (recorded StoreCall.List (storage.List Example.env))
        (some ⟨none, none, none, none, none, some (-1)⟩) ([Example.netflixRow], []) =
      (.ok (some ⟨[⟨⟨1⟩, Example.user, "Netflix", 10, "01-2025", some "02-2025"⟩]⟩),
        ([Example.netflixRow],
          [StoreCall.List (some ⟨none, none, none, none, none, some (-1)⟩)])) ∧
    storage.listQuery ⟨none, none, none, none, none, some (-1)⟩ =
      storage.listQuery ⟨none, none, none, none, none, some 0⟩ ∧
    storage.listQuery ⟨none, none, none, none, none, some (-1)⟩ =
      .ok (Spec.selectText ["1=1"] 1 2, [.int 50, .int 0]) := by
  refine ⟨by rfl, by rfl, by rfl⟩

/-- C17 (as amended): a List request with an explicit negative offset is rejected by
the REST handler `GetList`, which answers 400 without calling the service;
`application.List` itself does not look at the offset and, the dates being valid,
calls the store once with the offset unchanged; `storage.List` binds OFFSET 0 for a
negative offset. -/
theorem rest.GetList_rejects_negative_offset (uuidParse : String → Option uuid.UUID)
    (atoi : String → Option Int) (q : String → String) (o : Int)
    (hq : q "offset" ≠ "") (ho : atoi (q "offset") = some o) (hneg : o < 0) :
    (∃ reply : rest.Reply application.ListResponse, reply.Status = 400 ∧
      ∀ (σ : Type) (appList : Option application.ListRequest → σ →
          Except GoError (Option application.ListResponse) × σ) (s : σ),
        rest.GetList uuidParse atoi appList q s = (reply, s)) ∧
    (∀ (σ : Type) (dbList : Option storage.ListRequest → σ →
          Except GoError storage.ListResponse × σ) (s : σ) (r : application.ListRequest),
      r.Offset = some o → Spec.datesOk r.From r.To = true →
      (application.List (recorded StoreCall.List dbList) (some r) (s, [])).2.2 =
        [StoreCall.List (some ⟨r.UserID, r.ServiceName, r.From, r.To, r.Limit, some o⟩)]) ∧
    (∀ r : storage.ListRequest, r.Offset = some o →
      storage.listQuery r = storage.listQuery { r with Offset := some 0 } ∧
      ∀ query args, storage.listQuery r = .ok (query, args) →
        ∃ front limit, args = front ++ [.int limit, .int 0]) := by
  refine ⟨?_, ?_, ?_⟩
  · obtain ⟨reply, h1, h2⟩ := rest.listRequest_negative_offset uuidParse atoi q o hq ho hneg
    exact ⟨reply, h2, fun σ appList s => by simp only [rest.GetList, h1]⟩
  · intro σ dbList s r hr hd
    have hv := (application.validateDates_none_iff _ _).2 hd
    simp only [application.List, hv, recorded, hr, List.nil_append]
    rcases dbList (some ⟨r.UserID, r.ServiceName, r.From, r.To, r.Limit, some o⟩) s
      with ⟨res, s1⟩
    cases res <;> rfl
  · intro r hr
    obtain ⟨uid, sn, fr, tm, lim, off⟩ := r
    simp only at hr
    subst hr
    have hno : ¬ o ≥ 0 := by omega
    have heq : storage.listQuery ⟨uid, sn, fr, tm, lim, some o⟩ =
        storage.listQuery ⟨uid, sn, fr, tm, lim, some 0⟩ := by
      simp [storage.listQuery, hno]
    refine ⟨heq, fun query args hres => ?_⟩
    rw [heq] at hres
    obtain ⟨hf, ht⟩ := Statement.listQuery_ok_dates _ _ hres
    rw [Statement.listQuery_valid _ hf ht] at hres
    simp only [Except.ok.injEq, Prod.mk.injEq] at hres
    exact ⟨_, _, by rw [← hres.2]; rfl⟩

theorem rest.GetList_rejects_negative_offset_witness :
    (∃ reply : rest.Reply application.ListResponse, reply.Status = 400 ∧
      rest.GetList Example.parse7 (fun t => if t = "-1" then some (-1) else none)
        (application.List (storage.List Example.env))
        (fun k => if k = "offset" then "-1" else "") [Example.netflixRow] =
          (reply, [Example.netflixRow])) ∧
    (application.List (recorded StoreCall.List (storage.List Example.env))
        (some ⟨none, none, none, none, none, some (-1)⟩) ([Example.netflixRow], [])).2.2 =
      [StoreCall.List (some ⟨none, none, none, none, none, some (-1)⟩)] ∧
    storage.listQuery ⟨none, none, none, none, none, some (-1)⟩ =
      storage.listQuery ⟨none, none, none, none, none, some 0⟩ := by
  have h := rest.GetList_rejects_negative_offset Example.parse7
    (fun t => if t = "-1" then some (-1) else none)
    (fun k => if k = "offset" then "-1" else "") (-1) (by decide) (by rfl) (by decide)
  obtain ⟨⟨reply, h1, h2⟩, h3, h4⟩ := h
  exact ⟨⟨reply, h1, h2 _ _ _⟩,
    h3 _ (storage.List Example.env) [Example.netflixRow]
      ⟨none, none, none, none, none, some (-1)⟩ rfl (by decide),
    (h4 ⟨none, none, none, none, none, some (-1)⟩ rfl).1⟩

/-! ## Lemmas: the statement text of List and the values of its filters -/

theorem Spec.effectiveFilters_texts (r1 r2 : storage.ListRequest)
    (hu : (Spec.userFilter r1).isSome = (Spec.userFilter r2).isSome)
    (hs : (Spec.serviceFilter r1).isSome = (Spec.serviceFilter r2).isSome)
    (hf : r1.From.isSome = r2.From.isSome) (ht : r1.To.isSome = r2.To.isSome) :
    (Spec.effectiveFilters r1).map Prod.fst = (Spec.effectiveFilters r2).map Prod.fst := by
  unfold Spec.effectiveFilters
  cases h1 : Spec.userFilter r1 <;> cases h2 : Spec.userFilter r2 <;>
    simp [h1, h2] at hu <;>
  cases h3 : Spec.serviceFilter r1 <;> cases h4 : Spec.serviceFilter r2 <;>
    simp [h3, h4] at hs <;>
  cases h5 : r1.From <;> cases h6 : r2.From <;> simp [h5, h6] at hf <;>
  cases h7 : r1.To <;> cases h8 : r2.To <;> simp [h7, h8] at ht <;> rfl

/-- C21: the statement text `storage.List` builds depends only on which filters are
effective, never on their values: two requests with the same set of effective filters
(whatever their user_id, service_name, from, to, limit and offset) get the same query
text; the values go into the argument lists only. -/
theorem Statement.listQuery_text_ignores_values (r1 r2 : storage.ListRequest)
    (q1 q2 : String) (a1 a2 : List pg.Arg)
    (h1 : storage.listQuery r1 = .ok (q1, a1)) (h2 : storage.listQuery r2 = .ok (q2, a2))
    (hu : (Spec.userFilter r1).isSome = (Spec.userFilter r2).isSome)
    (hs : (Spec.serviceFilter r1).isSome = (Spec.serviceFilter r2).isSome)
    (hf : r1.From.isSome = r2.From.isSome) (ht : r1.To.isSome = r2.To.isSome) :
    q1 = q2 ∧
      a1 = (Spec.effectiveFilters r1).map Prod.snd ++
        [.int (Spec.effectiveLimit r1.Limit), .int (Spec.effectiveOffset r1.Offset)] ∧
      a2 = (Spec.effectiveFilters r2).map Prod.snd ++
        [.int (Spec.effectiveLimit r2.Limit), .int (Spec.effectiveOffset r2.Offset)] := by
  obtain ⟨hf1, ht1⟩ := Statement.listQuery_ok_dates r1 _ h1
  obtain ⟨hf2, ht2⟩ := Statement.listQuery_ok_dates r2 _ h2
  rw [Statement.listQuery_valid r1 hf1 ht1] at h1
  rw [Statement.listQuery_valid r2 hf2 ht2] at h2
  simp only [Except.ok.injEq, Prod.mk.injEq] at h1 h2
  have htexts := Spec.effectiveFilters_texts r1 r2 hu hs hf ht
  have hlen : (Spec.effectiveFilters r1).length = (Spec.effectiveFilters r2).length := by
    simpa using congrArg List.length htexts
  refine ⟨?_, h1.2.symm, h2.2.symm⟩
  rw [← h1.1, ← h2.1, Spec.placeholders_texts _ _ htexts, hlen]

theorem Statement.listQuery_text_ignores_values_witness :
    storage.listQuery ⟨some ⟨5⟩, some "Netflix", some "01-2025", none, some 10, some 0⟩ =
      .ok (Spec.selectText
          ["1=1", "user_id = $1", "service_name ILIKE $2", "start_date >= $3"] 4 5,
        [.uuid ⟨5⟩, .text "%Netflix%", .date ⟨2025, 1, 1⟩, .int 10, .int 0]) ∧
    storage.listQuery ⟨some ⟨9⟩, some "%_%", some "12-1999", none, none, some 40⟩ =
      .ok (Spec.selectText
          ["1=1", "user_id = $1", "service_name ILIKE $2", "start_date >= $3"] 4 5,
        [.uuid ⟨9⟩, .text "%%_%%", .date ⟨1999, 12, 1⟩, .int 50, .int 40]) ∧
    [pg.Arg.uuid ⟨9⟩, .text "%%_%%", .date ⟨1999, 12, 1⟩, .int 50, .int 40] =
      (Spec.effectiveFilters
          ⟨some ⟨9⟩, some "%_%", some "12-1999", none, none, some 40⟩).map Prod.snd ++
        [.int 50, .int 40] :=
  ⟨by rfl, by rfl,
    (Statement.listQuery_text_ignores_values
      ⟨some ⟨5⟩, some "Netflix", some "01-2025", none, some 10, some 0⟩
      ⟨some ⟨9⟩, some "%_%", some "12-1999", none, none, some 40⟩
      _ _ _ _ (by rfl) (by rfl) (by decide) (by decide) (by decide) (by decide)).2.2⟩

/-! ## Lemmas: what the application layer makes of a store error -/

theorem application.Create_store_error {σ : Type}
    (dbCreate : storage.CreateRequest → σ → Except GoError storage.CreateResponse × σ)
    (r : application.CreateRequest) (s s1 : σ) (e : GoError) (h : Spec.createOk r = true)
    (hstore : dbCreate ⟨r.UserID, r.ServiceName, r.Price, r.StartDate, r.EndDate⟩ s =
      (.error e, s1)) :
    application.Create dbCreate (some r) s = (.error (.Wrap "create request" e), s1) := by
  rw [application.Create_valid dbCreate r s h, hstore]

theorem application.GetInfo_store_error {σ : Type}
    (dbGetInfo : uuid.UUID → σ → Except GoError (Option storage.GetInfoResponse) × σ)
    (id : uuid.UUID) (s s1 : σ) (e : GoError) (hid : id ≠ uuid.Nil)
    (hstore : dbGetInfo id s = (.error e, s1)) :
    application.GetInfo dbGetInfo (some ⟨id⟩) s =
      (.error (.Wrap "failed to get subscription info" e), s1) := by
  simp only [application.GetInfo, hid, if_false, hstore]

theorem application.List_store_error {σ : Type}
    (dbList : Option storage.ListRequest → σ → Except GoError storage.ListResponse × σ)
    (r : application.ListRequest) (s s1 : σ) (e : GoError)
    (h : Spec.datesOk r.From r.To = true)
    (hstore : dbList (some ⟨r.UserID, r.ServiceName, r.From, r.To, r.Limit, r.Offset⟩) s =
      (.error e, s1)) :
    application.List dbList (some r) s =
      (.error (.Wrap "failed to list subscriptions" e), s1) := by
  have hv := (application.validateDates_none_iff _ _).2 h
  simp only [application.List, hv, hstore]

theorem application.Update_store_error {σ : Type}
    (dbUpdate : uuid.UUID → Option storage.UpdateRequest → σ →
      Except GoError storage.UpdateResponse × σ)
    (id : uuid.UUID) (r : application.UpdateRequest) (s s1 : σ) (e : GoError)
    (hprice : ∀ p, r.Price = some p → 0 < p)
    (h : Spec.datesOk r.StartDate r.EndDate = true)
    (hstore : dbUpdate id (some ⟨r.ServiceName, r.Price, r.StartDate, r.EndDate⟩) s =
      (.error e, s1)) :
    application.Update dbUpdate id (some r) s = (.error (.Wrap "update request" e), s1) := by
  have hv := (application.validateDates_none_iff _ _).2 h
  have hq : ¬ (r.Price.isSome ∧ r.Price.getD 0 ≤ 0) := by
    rintro ⟨h1, h2⟩
    cases hp : r.Price with
    | none => simp [hp] at h1
    | some p =>
      have := hprice p hp
      simp [hp] at h2
      omega
  simp only [application.Update, hq, if_false, hv, hstore]

theorem application.Delete_store_error {σ : Type}
    (dbDelete : Option storage.DeleteRequest → σ → Option GoError × σ)
    (id : uuid.UUID) (s s1 : σ) (e : GoError) (hid : id ≠ uuid.Nil)
    (hstore : dbDelete (some ⟨id⟩) s = (some e, s1)) :
    application.Delete dbDelete (some ⟨id⟩) s = (.error (.Wrap "delete request" e), s1) := by
  simp only [application.Delete, hid, if_false, hstore]

theorem application.Total_store_error {σ : Type}
    (dbTotal : Option storage.TotalRequest → σ → Except GoError Int × σ)
    (r : application.TotalRequest) (s s1 : σ) (e : GoError)
    (h : Spec.datesOk (some r.From) (some r.To) = true)
    (hstore : dbTotal (some ⟨r.UserID, r.ServiceName, r.From, r.To⟩) s = (.error e, s1)) :
    application.GetTotalSubscriptionsPrice dbTotal (some r) s =
      (.error (.Wrap "get total subscriptions price" e), s1) := by
  have hv := (application.validateDates_none_iff _ _).2 h
  simp only [application.GetTotalSubscriptionsPrice, hv, hstore]

theorem recorded_error {σ α ρ : Type} (call : α → StoreCall) (method : α → σ → ρ × σ)
    (a : α) (s s1 : σ) (x : ρ) (h : method a s = (x, s1)) :
    recorded call method a (s, []) = (x, (s1, [call a])) := by
  simp [recorded, h]

theorem recorded2_error {σ α β ρ : Type} (call : α → β → StoreCall)
    (method : α → β → σ → ρ × σ) (a : α) (b : β) (s s1 : σ) (x : ρ)
    (h : method a b s = (x, s1)) :
    recorded2 call method a b (s, []) = (x, (s1, [call a b])) := by
  simp [recorded2, h]

/-- C23: when the store answers a call with the error `e`, each application operation
returns a nil response with an error that wraps `e` (`errors.Unwrap` gives `e` back)
and whose text is the operation's context, `": "`, then the text of `e`; the contexts
are "create request", "failed to get subscription info", "failed to list
subscriptions", "update request", "delete request" and "get total subscriptions
price". The store is called exactly once: the log of calls holds that one call. -/
theorem application.store_error_is_wrapped {σ : Type} (s s1 : σ) (e : GoError) :
    (∀ (dbCreate : storage.CreateRequest → σ → Except GoError storage.CreateResponse × σ)
        (r : application.CreateRequest), Spec.createOk r = true →
      dbCreate ⟨r.UserID, r.ServiceName, r.Price, r.StartDate, r.EndDate⟩ s = (.error e, s1) →
      application.Create (recorded StoreCall.Create dbCreate) (some r) (s, []) =
        (.error (.Wrap "create request" e),
          (s1, [StoreCall.Create ⟨r.UserID, r.ServiceName, r.Price, r.StartDate,
            r.EndDate⟩]))) ∧
    (∀ (dbGetInfo : uuid.UUID → σ → Except GoError (Option storage.GetInfoResponse) × σ)
        (id : uuid.UUID), id ≠ uuid.Nil → dbGetInfo id s = (.error e, s1) →
      application.GetInfo (recorded StoreCall.GetInfo dbGetInfo) (some ⟨id⟩) (s, []) =
        (.error (.Wrap "failed to get subscription info" e), (s1, [StoreCall.GetInfo id]))) ∧
    (∀ (dbList : Option storage.ListRequest → σ → Except GoError storage.ListResponse × σ)
        (r : application.ListRequest), Spec.datesOk r.From r.To = true →
      dbList (some ⟨r.UserID, r.ServiceName, r.From, r.To, r.Limit, r.Offset⟩) s =
        (.error e, s1) →
      application.List (recorded StoreCall.List dbList) (some r) (s, []) =
        (.error (.Wrap "failed to list subscriptions" e),
          (s1, [StoreCall.List
            (some ⟨r.UserID, r.ServiceName, r.From, r.To, r.Limit, r.Offset⟩)]))) ∧
    (∀ (dbUpdate : uuid.UUID → Option storage.UpdateRequest → σ →
          Except GoError storage.UpdateResponse × σ)
        (id : uuid.UUID) (r : application.UpdateRequest),
      (∀ p, r.Price = some p → 0 < p) → Spec.datesOk r.StartDate r.EndDate = true →
      dbUpdate id (some ⟨r.ServiceName, r.Price, r.StartDate, r.EndDate⟩) s = (.error e, s1) →
      application.Update (recorded2 StoreCall.Update dbUpdate) id (some r) (s, []) =
        (.error (.Wrap "update request" e),
          (s1, [StoreCall.Update id
            (some ⟨r.ServiceName, r.Price, r.StartDate, r.EndDate⟩)]))) ∧
    (∀ (dbDelete : Option storage.DeleteRequest → σ → Option GoError × σ) (id : uuid.UUID),
      id ≠ uuid.Nil → dbDelete (some ⟨id⟩) s = (some e, s1) →
      application.Delete (recorded StoreCall.Delete dbDelete) (some ⟨id⟩) (s, []) =
        (.error (.Wrap "delete request" e), (s1, [StoreCall.Delete (some ⟨id⟩)]))) ∧
    (∀ (dbTotal : Option storage.TotalRequest → σ → Except GoError Int × σ)
        (r : application.TotalRequest),
      Spec.datesOk (some r.From) (some r.To) = true →
      dbTotal (some ⟨r.UserID, r.ServiceName, r.From, r.To⟩) s = (.error e, s1) →
      application.GetTotalSubscriptionsPrice (recorded StoreCall.Total dbTotal) (some r)
          (s, []) =
        (.error (.Wrap "get total subscriptions price" e),
          (s1, [StoreCall.Total (some ⟨r.UserID, r.ServiceName, r.From, r.To⟩)]))) ∧
    (∀ context : String, (GoError.Wrap context e).Unwrap = some e ∧
      (GoError.Wrap context e).Error = context ++ ": " ++ e.Error) := by
  refine ⟨?_, ?_, ?_, ?_, ?_, ?_, fun _ => ⟨rfl, rfl⟩⟩
  · intro db r h hs
    exact application.Create_store_error _ r _ _ e h (recorded_error _ db _ s s1 _ hs)
  · intro db id h hs
    exact application.GetInfo_store_error _ id _ _ e h (recorded_error _ db _ s s1 _ hs)
  · intro db r h hs
    exact application.List_store_error _ r _ _ e h (recorded_error _ db _ s s1 _ hs)
  · intro db id r hp h hs
    exact application.Update_store_error _ id r _ _ e hp h
      (recorded2_error _ db _ _ s s1 _ hs)
  · intro db id h hs
    exact application.Delete_store_error _ id _ _ e h (recorded_error _ db _ s s1 _ hs)
  · intro db r h hs
    exact application.Total_store_error _ r _ _ e h (recorded_error _ db _ s s1 _ hs)

theorem application.store_error_is_wrapped_witness :
    application.GetInfo
        (recorded StoreCall.GetInfo (storage.GetInfo ⟨some (.New "db error"), none, ⟨1⟩, none⟩))
        (some ⟨⟨7⟩⟩) ([Example.netflixRow], []) =
      (.error (.Wrap "failed to get subscription info" (.New "db error")),
        ([Example.netflixRow], [StoreCall.GetInfo ⟨7⟩])) ∧
    (GoError.Wrap "failed to get subscription info" (.New "db error")).Error =
      "failed to get subscription info: db error" :=
  ⟨(application.store_error_is_wrapped [Example.netflixRow] [Example.netflixRow]
      (.New "db error")).2.1 (storage.GetInfo ⟨some (.New "db error"), none, ⟨1⟩, none⟩) ⟨7⟩
      (by decide) (by rfl), by decide⟩

/-! ## Lemmas: what the REST layer makes of a store error -/

theorem Spec.datesOk_parts (start end_ : Option String)
    (h : Spec.datesOk start end_ = true) :
    (∀ d, start = some d → Spec.isMonthYear d = true) ∧
      (∀ d, end_ = some d → Spec.isMonthYear d = true) := by
  constructor
  · intro d hd
    subst hd
    cases hv : Spec.isMonthYear d
    · simp [Spec.datesOk, hv] at h
    · rfl
  · intro d hd
    subst hd
    cases hv : Spec.isMonthYear d
    · cases start <;> simp [Spec.datesOk, hv] at h
    · rfl

theorem time.Parse_empty :
    time.Parse "" = .error ⟨"01-2006", "", "01", "", .cannotParse⟩ := by rfl

theorem application.validateDates_empty_end (s : String) (h : Spec.isMonthYear s = true) :
    application.validateDates (some s) (some "") =
      some (.Wrap "invalid end_date format, expected MM-YYYY"
        (.Parse ⟨"01-2006", "", "01", "", .cannotParse⟩)) := by
  simp only [application.validateDates, time.Parse_valid s h, time.Parse_empty]

/-- C24 (evaluation at the failing input): an otherwise valid create request with
`end_date = ""` is not handled like the same request without end_date. The REST
handler skips its own format check for the empty string, but `application.Create`
passes it to `validateDates`, which parses it and fails: no store call is made and
the REST handler answers 500 with the parse error; without end_date the store is
called with the request. -/
theorem rest.Create_empty_end_date_is_parsed {σ : Type}
    (dbCreate : storage.CreateRequest → σ → Except GoError storage.CreateResponse × σ)
    (r : application.CreateRequest) (s : σ)
    (h1 : r.UserID ≠ uuid.Nil) (h2 : r.ServiceName ≠ "") (h3 : 0 < r.Price)
    (h4 : Spec.isMonthYear r.StartDate = true) (h5 : r.EndDate = some "") :
    application.Create (recorded StoreCall.Create dbCreate) (some r) (s, []) =
      (.error (.Wrap "invalid end_date format, expected MM-YYYY"
        (.Parse ⟨"01-2006", "", "01", "", .cannotParse⟩)), (s, [])) ∧
    rest.Create (application.Create dbCreate) (.ok r) s =
      (⟨500, .Error (GoError.Error (.Wrap "invalid end_date format, expected MM-YYYY"
        (.Parse ⟨"01-2006", "", "01", "", .cannotParse⟩)))⟩, s) ∧
    (application.Create (recorded StoreCall.Create dbCreate)
        (some { r with EndDate := none }) (s, [])).2.2 =
      [StoreCall.Create ⟨r.UserID, r.ServiceName, r.Price, r.StartDate, none⟩] ∧
    rest.Create (application.Create dbCreate) (.ok { r with EndDate := none }) s =
      match dbCreate ⟨r.UserID, r.ServiceName, r.Price, r.StartDate, none⟩ s with
      | (.error err, s1) => (⟨500, .Error ("create request: " ++ err.Error)⟩, s1)
      | (.ok resp, s1) => (⟨201, .Json (some ⟨resp.ID⟩)⟩, s1) := by
  have hp : ¬ r.Price ≤ 0 := by omega
  have hv := application.validateDates_empty_end r.StartDate h4
  have hok : Spec.createOk { r with EndDate := none } = true := by
    simp [Spec.createOk, Spec.datesOk, h1, h2, h3, h4]
  have happ : ∀ {τ : Type}
      (db : storage.CreateRequest → τ → Except GoError storage.CreateResponse × τ) (t : τ),
      application.Create db (some r) t =
        (.error (.Wrap "invalid end_date format, expected MM-YYYY"
          (.Parse ⟨"01-2006", "", "01", "", .cannotParse⟩)), t) := by
    intro τ db t
    simp only [application.Create, h1, h2, hp, if_false, h5, hv]
  refine ⟨happ _ _, ?_, ?_, ?_⟩
  · simp [rest.Create, h1, h2, hp, time.Parse_valid _ h4, h5, happ,
      rest.StatusInternalServerError]
  · rw [application.Create_valid _ _ _ hok]
    simp only [recorded, List.nil_append]
    rcases dbCreate ⟨r.UserID, r.ServiceName, r.Price, r.StartDate, none⟩ s with ⟨res, s1⟩
    cases res <;> rfl
  · have := application.Create_valid dbCreate _ s hok
    simp only at this
    simp only [rest.Create, h1, h2, hp, if_false, time.Parse_valid _ h4, Bool.false_eq_true,
      this]
    rcases dbCreate ⟨r.UserID, r.ServiceName, r.Price, r.StartDate, none⟩ s with ⟨res, s1⟩
    cases res <;> rfl

theorem rest.Create_empty_end_date_is_parsed_witness :
    rest.Create (application.Create (storage.Create Example.env))
        (.ok ⟨Example.user, "Netflix", 10, "09-2025", some ""⟩) [] =
      (⟨500, .Error (GoError.Error (.Wrap "invalid end_date format, expected MM-YYYY"
        (.Parse ⟨"01-2006", "", "01", "", .cannotParse⟩)))⟩, []) ∧
    rest.Create (application.Create (storage.Create Example.env))
        (.ok ⟨Example.user, "Netflix", 10, "09-2025", none⟩) [] =
      (⟨201, .Json (some ⟨⟨1⟩⟩)⟩,
        [⟨⟨1⟩, Example.user, "Netflix", 10, ⟨2025, 9, 1⟩, none⟩]) :=
  ⟨(rest.Create_empty_end_date_is_parsed (storage.Create Example.env)
      ⟨Example.user, "Netflix", 10, "09-2025", some ""⟩ []
      (by decide) (by decide) (by decide) (by decide) rfl).2.1,
    by rfl⟩

/-! ## Lemmas: the two bounds of a total-price request -/

theorem time.Parse_invalid (s : String) (h : Spec.isMonthYear s = false) :
    ∃ err, time.Parse s = .error err := by
  rcases time.Parse_cases s with ⟨h1, -⟩ | ⟨-, h2⟩
  · rw [h] at h1; cases h1
  · exact h2

theorem rest.totalRequest_bad_bounds (uuidParse : String → Option uuid.UUID)
    (q : String → String)
    (h : Spec.isMonthYear (q "from") = false ∨ Spec.isMonthYear (q "to") = false) :
    ∃ reply, rest.totalRequest uuidParse q = .error reply ∧ reply.Status = 400 := by
  have hbad : ∀ d1 d2, time.Parse (q "from") = .ok d1 → time.Parse (q "to") = .ok d2 →
      False := by
    intro d1 d2 h1 h2
    have e1 := ((time.Parse_ok_iff _ _).1 h1).1
    have e2 := ((time.Parse_ok_iff _ _).1 h2).1
    rcases h with h | h
    · rw [h] at e1; cases e1
    · rw [h] at e2; cases e2
  simp only [rest.totalRequest, bind, Except.bind, pure, Except.pure, throw, throwThe,
    MonadExceptOf.throw]
  by_cases hq : q "user_id" = "" <;> cases hp : uuidParse (q "user_id") <;>
    by_cases hfe : q "from" = "" <;> rcases hpf : time.Parse (q "from") with err | d1 <;>
    by_cases hte : q "to" = "" <;> rcases hpt : time.Parse (q "to") with err | d2 <;>
    first
    | exact absurd trivial (fun _ => hbad _ _ hpf hpt)
    | (simp only [hq, hp, hfe, hte, hpf, hpt, ne_eq, not_true_eq_false, not_false_eq_true,
        if_true, if_false]
       exact ⟨_, rfl, rfl⟩)

/-- C25: `application.GetTotalSubscriptionsPrice` calls the store exactly when the
request is non-nil, From and To are both valid MM-YYYY strings (the empty string is
not one) and To is not an earlier month than From; in every other case it returns an
error and makes no store call. The REST handler answers 400 without calling the
service whenever `from` or `to` is missing (empty) or does not parse. -/
theorem application.Total_requires_both_bounds {σ : Type}
    (dbTotal : Option storage.TotalRequest → σ → Except GoError Int × σ) (s : σ) :
    (∀ request : Option application.TotalRequest,
      (application.GetTotalSubscriptionsPrice (recorded StoreCall.Total dbTotal) request
          (s, [])).2.2 =
        match request with
        | none => []
        | some r =>
          if Spec.isMonthYear r.From = true ∧ Spec.isMonthYear r.To = true ∧
              Spec.earlier r.To r.From = false then
            [StoreCall.Total (some ⟨r.UserID, r.ServiceName, r.From, r.To⟩)]
          else []) ∧
    (∀ request : Option application.TotalRequest,
      (request = none ∨ ∃ r, request = some r ∧
        ¬ (Spec.isMonthYear r.From = true ∧ Spec.isMonthYear r.To = true ∧
          Spec.earlier r.To r.From = false)) →
      ∃ e, application.GetTotalSubscriptionsPrice (recorded StoreCall.Total dbTotal) request
        (s, []) = (.error e, (s, []))) ∧
    Spec.isMonthYear "" = false ∧
    (∀ (uuidParse : String → Option uuid.UUID) (q : String → String),
      (Spec.isMonthYear (q "from") = false ∨ Spec.isMonthYear (q "to") = false) →
      ∃ reply : rest.Reply application.TotalResponse, reply.Status = 400 ∧
        ∀ (τ : Type) (appTotal : Option application.TotalRequest → τ →
            Except GoError (Option application.TotalResponse) × τ) (t : τ),
          rest.GetTotalSubscriptionsPrice uuidParse appTotal q t = (reply, t)) := by
  have hiff : ∀ r : application.TotalRequest,
      Spec.datesOk (some r.From) (some r.To) = true ↔
        (Spec.isMonthYear r.From = true ∧ Spec.isMonthYear r.To = true ∧
          Spec.earlier r.To r.From = false) := by
    intro r
    simp [Spec.datesOk, and_assoc]
  refine ⟨?_, ?_, by decide, ?_⟩
  · intro request
    cases request with
    | none => rfl
    | some r =>
      by_cases hok : Spec.datesOk (some r.From) (some r.To) = true
      · have hv := (application.validateDates_none_iff _ _).2 hok
        simp only [application.GetTotalSubscriptionsPrice, hv, recorded, List.nil_append,
          if_pos ((hiff r).1 hok)]
        rcases dbTotal (some ⟨r.UserID, r.ServiceName, r.From, r.To⟩) s with ⟨res, s1⟩
        cases res <;> rfl
      · have hno : Spec.datesOk (some r.From) (some r.To) = false := by
          simpa using hok
        obtain ⟨e, he⟩ := application.validateDates_bad _ _ hno
        simp only [application.GetTotalSubscriptionsPrice, he,
          if_neg (fun h => hok ((hiff r).2 h))]
  · rintro request (rfl | ⟨r, rfl, hr⟩)
    · exact ⟨_, rfl⟩
    · have hno : Spec.datesOk (some r.From) (some r.To) = false := by
        cases hd : Spec.datesOk (some r.From) (some r.To)
        · rfl
        · exact absurd ((hiff r).1 hd) hr
      obtain ⟨e, he⟩ := application.validateDates_bad _ _ hno
      exact ⟨e, by simp only [application.GetTotalSubscriptionsPrice, he]⟩
  · intro uuidParse q h
    obtain ⟨reply, h1, h2⟩ := rest.totalRequest_bad_bounds uuidParse q h
    exact ⟨reply, h2, fun τ appTotal t => by simp only [rest.GetTotalSubscriptionsPrice, h1]⟩

theorem application.Total_requires_both_bounds_witness :
    (application.GetTotalSubscriptionsPrice
        (recorded StoreCall.Total (storage.GetTotalSubscriptionsPrice Example.env))
        (some ⟨none, none, "09-2025", ""⟩) ([Example.septRow], [])).2.2 = [] ∧
    (application.GetTotalSubscriptionsPrice
        (recorded StoreCall.Total (storage.GetTotalSubscriptionsPrice Example.env))
        (some ⟨none, none, "09-2025", "09-2025"⟩) ([Example.septRow], [])).2.2 =
      [StoreCall.Total (some ⟨none, none, "09-2025", "09-2025"⟩)] ∧
    ∃ reply : rest.Reply application.TotalResponse, reply.Status = 400 ∧
      rest.GetTotalSubscriptionsPrice Example.parse7
        (application.GetTotalSubscriptionsPrice
          (storage.GetTotalSubscriptionsPrice Example.env))
        (fun k => if k = "from" then "09-2025" else "") [Example.septRow] =
          (reply, [Example.septRow]) := by
  have h := application.Total_requires_both_bounds
    (storage.GetTotalSubscriptionsPrice Example.env) [Example.septRow]
  obtain ⟨reply, h1, h2⟩ := h.2.2.2 Example.parse7
    (fun k => if k = "from" then "09-2025" else "") (Or.inr (by decide))
  exact ⟨h.1 (some ⟨none, none, "09-2025", ""⟩), h.1 (some ⟨none, none, "09-2025", "09-2025"⟩),
    reply, h1, h2 _ _ _⟩

/-! ## Lemmas: the date check of `storage.Create` -/

theorem strings.splitChars_length (sep : Char) (l : List Char) :
    (strings.splitChars sep l).length = l.count sep + 1 := by
  induction l with
  | nil => rfl
  | cons c rest ih =>
    by_cases hc : c = sep
    · subst hc
      simp [strings.splitChars, ih]
    · have hne : ¬ (c == sep) = true := by simpa using hc
      rw [strings.splitChars, if_neg hc, List.count_cons, if_neg hne, ← ih]
      cases hsp : strings.splitChars sep rest with
      | nil => rw [hsp] at ih; simp at ih
      | cons piece pieces => simp

theorem storage.toISO_none_iff (s : String) :
    storage.toISO s = none ↔ s.data.count '-' ≠ 1 := by
  have hlen := strings.splitChars_length '-' s.data
  unfold storage.toISO strings.Split
  rcases hsp : strings.splitChars '-' s.data with _ | ⟨a, _ | ⟨b, _ | ⟨c, rest⟩⟩⟩ <;>
    rw [hsp] at hlen <;> simp at hlen ⊢ <;> omega

theorem storage.Create_error_keeps_table (env : pg.Env) (req : storage.CreateRequest)
    (db db1 : pg.DB) (err : GoError) (h : storage.Create env req db = (.error err, db1)) :
    db1 = db := by
  unfold storage.Create at h
  rcases ha : env.acquireErr with _ | e0
  · rcases hs : storage.toISO req.StartDate with _ | startISO
    · simp [ha, hs] at h; exact h.2.symm
    · rcases he : req.EndDate with _ | e
      · rcases hi : pg.insert env req.UserID req.ServiceName req.Price startISO none db
          with e1 | ⟨id, db2⟩
        · simp [ha, hs, he, hi] at h; exact h.2.symm
        · simp [ha, hs, he, hi] at h
      · rcases ht : storage.toISO e with _ | endISO
        · simp [ha, hs, he, ht] at h; exact h.2.symm
        · rcases hi : pg.insert env req.UserID req.ServiceName req.Price startISO
            (some endISO) db with e1 | ⟨id, db2⟩
          · simp [ha, hs, he, ht, hi] at h; exact h.2.symm
          · simp [ha, hs, he, ht, hi] at h
  · simp [ha] at h; exact h.2.symm

theorem pg.insert_bad_start (env : pg.Env) (u : uuid.UUID) (n : String) (p : Int)
    (sd : String) (ed : Option String) (db : pg.DB) (h : pg.readDate sd = none) :
    ∃ err, pg.insert env u n p sd ed db = .error err := by
  unfold pg.insert
  cases env.execErr with
  | some e => exact ⟨e, rfl⟩
  | none => exact ⟨pg.errInvalidDate, by simp only [h]⟩

theorem pg.insert_bad_end (env : pg.Env) (u : uuid.UUID) (n : String) (p : Int)
    (sd ed : String) (db : pg.DB) (h : pg.readDate ed = none) :
    ∃ err, pg.insert env u n p sd (some ed) db = .error err := by
  unfold pg.insert
  cases env.execErr with
  | some e => exact ⟨e, rfl⟩
  | none =>
    cases hs : pg.readDate sd with
    | none => exact ⟨pg.errInvalidDate, rfl⟩
    | some d => exact ⟨pg.errInvalidDate, by simp only [h]⟩

/-- C26 (counterexample): `start_date = "9-2025"` is not in MM-YYYY form (the month has
one digit), yet `storage.Create` accepts it: the string splits into two parts, the
statement gets the text `2025-9-01`, and the row is inserted with the start date
1 September 2025. The same goes for an end date. -/
theorem storage.Create_accepts_one_digit_month :
    Spec.isMonthYear "9-2025" = false ∧
    storage.toISO "9-2025" = some "2025-9-01" ∧
    storage.Create Example.env ⟨Example.user, "Netflix", 10, "9-2025", none⟩ [] =
      (.ok ⟨⟨1⟩⟩, [⟨⟨1⟩, Example.user, "Netflix", 10, ⟨2025, 9, 1⟩, none⟩]) ∧
    storage.Create Example.env ⟨Example.user, "Netflix", 10, "09-2025", some "9-2026"⟩ [] =
      (.ok ⟨⟨1⟩⟩,
        [⟨⟨1⟩, Example.user, "Netflix", 10, ⟨2025, 9, 1⟩, some ⟨2026, 9, 1⟩⟩]) := by
  refine ⟨by decide, by decide, by rfl, by rfl⟩

/-- C26 (as amended): `storage.Create` returns a nil response and an error, and inserts
no row, whenever start_date or end_date does not consist of exactly two parts
separated by one `-` (its own check), and for the tests' inputs
`start_date = "2025-09"` and `end_date = "2025-12"`, whose rewritten texts
`09-2025-01` and `12-2025-01` the store does not read as dates; whenever it returns an
error the table is unchanged. -/
theorem storage.Create_rejects_unsplit_dates (env : pg.Env) (req : storage.CreateRequest)
    (db : pg.DB)
    (h : req.StartDate.data.count '-' ≠ 1 ∨
      (∃ e, req.EndDate = some e ∧ e.data.count '-' ≠ 1) ∨
      req.StartDate = "2025-09" ∨ req.EndDate = some "2025-12") :
    (∃ err, storage.Create env req db = (.error err, db)) ∧
    (req.StartDate.data.count '-' ≠ 1 → env.acquireErr = none →
      storage.Create env req db =
        (.error (.New "invalid start_date format, expected MM-YYYY"), db)) ∧
    (∀ (err : GoError) (db1 : pg.DB),
      storage.Create env req db = (.error err, db1) → db1 = db) := by
  refine ⟨?_, ?_, fun err db1 => storage.Create_error_keeps_table env req db db1 err⟩
  · rcases ha : env.acquireErr with _ | e0
    · rcases hs : storage.toISO req.StartDate with _ | startISO
      · exact ⟨.New "invalid start_date format, expected MM-YYYY",
          by simp only [storage.Create, ha, hs]⟩
      · rcases he : req.EndDate with _ | e
        · have hstart : req.StartDate = "2025-09" := by
            rcases h with h | ⟨e, h, -⟩ | h | h
            · exact absurd ((storage.toISO_none_iff _).2 h) (by simp [hs])
            · simp [he] at h
            · exact h
            · simp [he] at h
          have hs2 := hs
          rw [hstart] at hs2
          have hiso : startISO = "09-2025-01" := by
            have : storage.toISO "2025-09" = some "09-2025-01" := by decide
            rw [this] at hs2
            exact (Option.some.inj hs2).symm
          obtain ⟨err, hi⟩ := pg.insert_bad_start env req.UserID req.ServiceName req.Price
            startISO none db (by rw [hiso]; decide)
          exact ⟨err, by simp only [storage.Create, ha, hs, he, hi]⟩
        · rcases ht : storage.toISO e with _ | endISO
          · exact ⟨.New "invalid end_date format, expected MM-YYYY",
              by simp only [storage.Create, ha, hs, he, ht]⟩
          · have hcase : req.StartDate = "2025-09" ∨ e = "2025-12" := by
              rcases h with h | ⟨e1, h, h1⟩ | h | h
              · exact absurd ((storage.toISO_none_iff _).2 h) (by simp [hs])
              · rw [he] at h
                cases h
                exact absurd ((storage.toISO_none_iff _).2 h1) (by simp [ht])
              · exact Or.inl h
              · rw [he] at h
                exact Or.inr (Option.some.inj h)
            rcases hcase with hstart | hend
            · have hs2 := hs
              rw [hstart] at hs2
              have hiso : startISO = "09-2025-01" := by
                have : storage.toISO "2025-09" = some "09-2025-01" := by decide
                rw [this] at hs2
                exact (Option.some.inj hs2).symm
              obtain ⟨err, hi⟩ := pg.insert_bad_start env req.UserID req.ServiceName
                req.Price startISO (some endISO) db (by rw [hiso]; decide)
              exact ⟨err, by simp only [storage.Create, ha, hs, he, ht, hi]⟩
            · have ht2 := ht
              rw [hend] at ht2
              have hiso : endISO = "12-2025-01" := by
                have : storage.toISO "2025-12" = some "12-2025-01" := by decide
                rw [this] at ht2
                exact (Option.some.inj ht2).symm
              obtain ⟨err, hi⟩ := pg.insert_bad_end env req.UserID req.ServiceName
                req.Price startISO endISO db (by rw [hiso]; decide)
              exact ⟨err, by simp only [storage.Create, ha, hs, he, ht, hi]⟩
    · exact ⟨e0, by simp only [storage.Create, ha]⟩
  · intro hc ha
    simp only [storage.Create, ha, (storage.toISO_none_iff _).2 hc]

theorem storage.Create_rejects_unsplit_dates_witness :
    (∃ err, storage.Create Example.env ⟨Example.user, "Netflix", 10, "2025-09",
        some "12-2025"⟩ [Example.netflixRow] = (.error err, [Example.netflixRow])) ∧
    (∃ err, storage.Create Example.env ⟨Example.user, "Netflix", 10, "09-2025",
        some "2025-12"⟩ [Example.netflixRow] = (.error err, [Example.netflixRow])) ∧
    storage.Create Example.env ⟨Example.user, "Netflix", 10, "092025", none⟩
        [Example.netflixRow] =
      (.error (.New "invalid start_date format, expected MM-YYYY"), [Example.netflixRow]) :=
  ⟨(storage.Create_rejects_unsplit_dates Example.env
      ⟨Example.user, "Netflix", 10, "2025-09", some "12-2025"⟩ [Example.netflixRow]
      (Or.inr (Or.inr (Or.inl rfl)))).1,
    (storage.Create_rejects_unsplit_dates Example.env
      ⟨Example.user, "Netflix", 10, "09-2025", some "2025-12"⟩ [Example.netflixRow]
      (Or.inr (Or.inr (Or.inr rfl)))).1,
    (storage.Create_rejects_unsplit_dates Example.env
      ⟨Example.user, "Netflix", 10, "092025", none⟩ [Example.netflixRow]
      (Or.inl (by decide))).2.1 (by decide) rfl⟩

/-! ## The order of the checks in `validateDates` -/

/-- C27: `validateDates` checks the start bound before the end bound and both formats
before the ordering. A malformed start gives the start error whatever the end is (also
when the end is malformed too); a valid or absent start with a malformed end gives the
end error; the ordering error only comes with two well-formed bounds. So
`application.List` with from = "2025-09" and to = "2025-12" fails without a store call
with a text that starts with "invalid start_date format, expected MM-YYYY", and with
from = "09-2025" and to = "2025-12" with one that starts with "invalid end_date format,
expected MM-YYYY". -/
theorem application.validateDates_checks_start_first {σ : Type}
    (dbList : Option storage.ListRequest → σ → Except GoError storage.ListResponse × σ)
    (s : σ) (u : Option uuid.UUID) (n : Option String) (l o : Option Int) :
    (∀ (b : String) (e : Option String), Spec.isMonthYear b = false →
      ∃ err, application.validateDates (some b) e =
        some (.Wrap "invalid start_date format, expected MM-YYYY" (.Parse err))) ∧
    (∀ (start : Option String) (e : String),
      (∀ b, start = some b → Spec.isMonthYear b = true) → Spec.isMonthYear e = false →
      ∃ err, application.validateDates start (some e) =
        some (.Wrap "invalid end_date format, expected MM-YYYY" (.Parse err))) ∧
    (∀ (start end_ : Option String),
      application.validateDates start end_ =
        some (.New "end_date cannot be before start_date") →
      ∃ b e, start = some b ∧ end_ = some e ∧ Spec.isMonthYear b = true ∧
        Spec.isMonthYear e = true ∧ Spec.earlier e b = true) ∧
    (∃ err, application.List (recorded StoreCall.List dbList)
        (some ⟨u, n, some "2025-09", some "2025-12", l, o⟩) (s, []) =
        (.error err, (s, [])) ∧
      "invalid start_date format, expected MM-YYYY".data <+: err.Error.data) ∧
    (∃ err, application.List (recorded StoreCall.List dbList)
        (some ⟨u, n, some "09-2025", some "2025-12", l, o⟩) (s, []) =
        (.error err, (s, [])) ∧
      "invalid end_date format, expected MM-YYYY".data <+: err.Error.data) := by
  refine ⟨fun b e h => application.validateDates_start_bad b e h,
    fun start e hs h => application.validateDates_end_bad start e hs h, ?_, ?_, ?_⟩
  · intro start end_ h
    have hne : application.validateDates start end_ ≠ none := by rw [h]; simp
    rcases start with _ | b
    · rcases end_ with _ | e
      · exact absurd (by rfl) hne
      · cases he : Spec.isMonthYear e
        · obtain ⟨err, h2⟩ := application.validateDates_end_bad none e (by simp) he
          rw [h2] at h; cases h
        · exact absurd ((application.validateDates_none_iff _ _).2
            (by simp [Spec.datesOk, he])) hne
    · cases hb : Spec.isMonthYear b
      · obtain ⟨err, h2⟩ := application.validateDates_start_bad b end_ hb
        rw [h2] at h; cases h
      · rcases end_ with _ | e
        · exact absurd ((application.validateDates_none_iff _ _).2
            (by simp [Spec.datesOk, hb])) hne
        · cases he : Spec.isMonthYear e
          · obtain ⟨err, h2⟩ := application.validateDates_end_bad (some b) e
              (by intro b1 hb1; cases hb1; exact hb) he
            rw [h2] at h; cases h
          · refine ⟨b, e, rfl, rfl, hb, he, ?_⟩
            cases hlt : Spec.earlier e b
            · exact absurd ((application.validateDates_none_iff _ _).2
                (by simp [Spec.datesOk, hb, he, hlt])) hne
            · rfl
  · obtain ⟨err, h⟩ := application.validateDates_start_bad "2025-09" (some "2025-12")
      (by decide)
    exact ⟨.Wrap "invalid start_date format, expected MM-YYYY" (.Parse err),
      by simp only [application.List, h], GoError.Wrap_Error_data _ _⟩
  · obtain ⟨err, h⟩ := application.validateDates_end_bad (some "09-2025") "2025-12"
      (by intro b hb; cases hb; decide) (by decide)
    exact ⟨.Wrap "invalid end_date format, expected MM-YYYY" (.Parse err),
      by simp only [application.List, h], GoError.Wrap_Error_data _ _⟩

theorem application.validateDates_checks_start_first_witness :
    (∃ err, application.validateDates (some "2025-09") (some "2025-12") =
      some (.Wrap "invalid start_date format, expected MM-YYYY" (.Parse err))) ∧
    ∃ err, application.List (recorded StoreCall.List (storage.List Example.env))
        (some ⟨none, none, some "2025-09", some "2025-12", none, none⟩)
        ([Example.septRow], []) = (.error err, ([Example.septRow], [])) ∧
      "invalid start_date format, expected MM-YYYY".data <+: err.Error.data :=
  ⟨(application.validateDates_checks_start_first (storage.List Example.env)
      [Example.septRow] none none none none).1 "2025-09" (some "2025-12") (by decide),
    (application.validateDates_checks_start_first (storage.List Example.env)
      [Example.septRow] none none none none).2.2.2.1⟩

/-! ## Lemmas: the paging parameters of `GetList` -/

theorem rest.listRequest_ok (uuidParse : String → Option uuid.UUID)
    (atoi : String → Option Int) (q : String → String) (req : application.ListRequest)
    (h : rest.listRequest uuidParse atoi q = .ok req) :
    req.Limit = (if q "limit" = "" then none else atoi (q "limit")) ∧
      (∀ l, req.Limit = some l → 0 < l) ∧
      req.Offset = (if q "offset" = "" then none else atoi (q "offset")) ∧
      (∀ o, req.Offset = some o → 0 ≤ o) := by
  simp only [rest.listRequest, bind, Except.bind, pure, Except.pure, throw, throwThe,
    MonadExceptOf.throw] at h
  by_cases hu : q "user_id" = "" <;> cases hp : uuidParse (q "user_id") <;>
    simp only [hu, hp, ne_eq, not_true_eq_false, not_false_eq_true, if_true, if_false] at h
  all_goals try exact Except.noConfusion h
  all_goals
    by_cases hf : q "from" = "" <;> rcases hpf : time.Parse (q "from") with e | d <;>
    simp only [hf, hpf, ne_eq, not_true_eq_false, not_false_eq_true, if_true, if_false] at h
  all_goals try exact Except.noConfusion h
  all_goals
    by_cases ht : q "to" = "" <;> rcases hpt : time.Parse (q "to") with e | d <;>
    simp only [ht, hpt, ne_eq, not_true_eq_false, not_false_eq_true, if_true, if_false] at h
  all_goals try exact Except.noConfusion h
  all_goals
    by_cases hl : q "limit" = "" <;> rcases hal : atoi (q "limit") with _ | l <;>
    simp only [hl, hal, ne_eq, not_true_eq_false, not_false_eq_true, if_true, if_false] at h
  all_goals try exact Except.noConfusion h
  all_goals try
    (by_cases hle : l ≤ 0 <;>
      simp only [hle, ne_eq, not_true_eq_false, not_false_eq_true, if_true, if_false] at h)
  all_goals try exact Except.noConfusion h
  all_goals
    by_cases ho : q "offset" = "" <;> rcases hao : atoi (q "offset") with _ | o <;>
    simp only [ho, hao, ne_eq, not_true_eq_false, not_false_eq_true, if_true, if_false] at h
  all_goals try exact Except.noConfusion h
  all_goals try
    (by_cases hlo : o < 0 <;>
      simp only [hlo, ne_eq, not_true_eq_false, not_false_eq_true, if_true, if_false] at h)
  all_goals try exact Except.noConfusion h
  all_goals
    cases h
    refine ⟨by simp [hl, hal], ?_, by simp [ho, hao], ?_⟩
    · intro l1 h1
      simp only [Option.some.injEq] at h1
      first | (cases h1; done) | (cases h1; omega)
    · intro o1 h1
      simp only [Option.some.injEq] at h1
      first | (cases h1; done) | (cases h1; omega)

theorem rest.listRequest_accepts (uuidParse : String → Option uuid.UUID)
    (atoi : String → Option Int) (q : String → String)
    (hu : q "user_id" = "" ∨ ∃ uid, uuidParse (q "user_id") = some uid)
    (hf : q "from" = "" ∨ Spec.isMonthYear (q "from") = true)
    (ht : q "to" = "" ∨ Spec.isMonthYear (q "to") = true)
    (hl : q "limit" = "" ∨ ∃ l, atoi (q "limit") = some l ∧ 0 < l)
    (ho : q "offset" = "" ∨ ∃ o, atoi (q "offset") = some o ∧ 0 ≤ o) :
    ∃ req, rest.listRequest uuidParse atoi q = .ok req := by
  have hf1 : q "from" = "" ∨ ∃ d, time.Parse (q "from") = .ok d :=
    hf.imp id (fun h => ⟨_, time.Parse_valid _ h⟩)
  have ht1 : q "to" = "" ∨ ∃ d, time.Parse (q "to") = .ok d :=
    ht.imp id (fun h => ⟨_, time.Parse_valid _ h⟩)
  simp only [rest.listRequest, bind, Except.bind, pure, Except.pure, throw, throwThe,
    MonadExceptOf.throw]
  by_cases hu0 : q "user_id" = "" <;>
    [simp only [hu0, ne_eq, not_true_eq_false, if_false];
     (obtain ⟨uid, hp⟩ := hu.resolve_left hu0
      simp only [hu0, hp, ne_eq, not_false_eq_true, if_true])]
  all_goals
    by_cases hf0 : q "from" = "" <;>
    [simp only [hf0, ne_eq, not_true_eq_false, if_false];
     (obtain ⟨d, hp⟩ := hf1.resolve_left hf0
      simp only [hf0, hp, ne_eq, not_false_eq_true, if_true])]
  all_goals
    by_cases ht0 : q "to" = "" <;>
    [simp only [ht0, ne_eq, not_true_eq_false, if_false];
     (obtain ⟨d, hp⟩ := ht1.resolve_left ht0
      simp only [ht0, hp, ne_eq, not_false_eq_true, if_true])]
  all_goals
    by_cases hl0 : q "limit" = "" <;>
    [simp only [hl0, ne_eq, not_true_eq_false, if_false];
     (obtain ⟨l, hp, hpos⟩ := hl.resolve_left hl0
      simp only [hl0, hp, not_le.2 hpos, ne_eq, not_false_eq_true, if_true, if_false])]
  all_goals
    by_cases ho0 : q "offset" = "" <;>
    [simp only [ho0, ne_eq, not_true_eq_false, if_false];
     (obtain ⟨o, hp, hpos⟩ := ho.resolve_left ho0
      simp only [ho0, hp, not_lt.2 hpos, ne_eq, not_false_eq_true, if_true, if_false])]
  all_goals exact ⟨_, rfl⟩

theorem rest.listRequest_bad_limit (uuidParse : String → Option uuid.UUID)
    (atoi : String → Option Int) (q : String → String) (hq : q "limit" ≠ "")
    (h : atoi (q "limit") = none ∨ ∃ l, atoi (q "limit") = some l ∧ l ≤ 0) :
    ∃ reply, rest.listRequest uuidParse atoi q = .error reply ∧ reply.Status = 400 := by
  rcases h with h | ⟨l, h, hle⟩
  · simp only [rest.listRequest, bind, Except.bind, pure, Except.pure, throw, throwThe,
      MonadExceptOf.throw, hq, h, ne_eq, not_false_eq_true, if_true]
    repeat' split
    all_goals exact ⟨_, rfl, rfl⟩
  · simp only [rest.listRequest, bind, Except.bind, pure, Except.pure, throw, throwThe,
      MonadExceptOf.throw, hq, h, hle, ne_eq, not_false_eq_true, if_true]
    repeat' split
    all_goals exact ⟨_, rfl, rfl⟩

theorem rest.listRequest_bad_offset (uuidParse : String → Option uuid.UUID)
    (atoi : String → Option Int) (q : String → String) (hq : q "offset" ≠ "")
    (h : atoi (q "offset") = none ∨ ∃ o, atoi (q "offset") = some o ∧ o < 0) :
    ∃ reply, rest.listRequest uuidParse atoi q = .error reply ∧ reply.Status = 400 := by
  rcases h with h | ⟨o, h, hlt⟩
  · simp only [rest.listRequest, bind, Except.bind, pure, Except.pure, throw, throwThe,
      MonadExceptOf.throw, hq, h, ne_eq, not_false_eq_true, if_true]
    repeat' split
    all_goals exact ⟨_, rfl, rfl⟩
  · exact rest.listRequest_negative_offset uuidParse atoi q o hq h hlt

/-- C28: the REST handler `GetList` answers 400 without calling the service when
`limit` is present and is not an integer or is <= 0, and when `offset` is present and
is not an integer or is < 0. When the request is accepted, the limit and offset it
passes to the service are the parsed values unchanged (a limit > 0, an offset >= 0),
and a parameter given as the empty string is passed as absent. -/
theorem rest.GetList_limit_and_offset (uuidParse : String → Option uuid.UUID)
    (atoi : String → Option Int) (q : String → String) :
    (q "limit" ≠ "" →
      (atoi (q "limit") = none ∨ ∃ l, atoi (q "limit") = some l ∧ l ≤ 0) →
      ∃ reply : rest.Reply application.ListResponse, reply.Status = 400 ∧
        ∀ (σ : Type) (appList : Option application.ListRequest → σ →
            Except GoError (Option application.ListResponse) × σ) (s : σ),
          rest.GetList uuidParse atoi appList q s = (reply, s)) ∧
    (q "offset" ≠ "" →
      (atoi (q "offset") = none ∨ ∃ o, atoi (q "offset") = some o ∧ o < 0) →
      ∃ reply : rest.Reply application.ListResponse, reply.Status = 400 ∧
        ∀ (σ : Type) (appList : Option application.ListRequest → σ →
            Except GoError (Option application.ListResponse) × σ) (s : σ),
          rest.GetList uuidParse atoi appList q s = (reply, s)) ∧
    ((q "user_id" = "" ∨ ∃ uid, uuidParse (q "user_id") = some uid) →
      (q "from" = "" ∨ Spec.isMonthYear (q "from") = true) →
      (q "to" = "" ∨ Spec.isMonthYear (q "to") = true) →
      (q "limit" = "" ∨ ∃ l, atoi (q "limit") = some l ∧ 0 < l) →
      (q "offset" = "" ∨ ∃ o, atoi (q "offset") = some o ∧ 0 ≤ o) →
      ∃ req, rest.listRequest uuidParse atoi q = .ok req) ∧
    (∀ req, rest.listRequest uuidParse atoi q = .ok req →
      req.Limit = (if q "limit" = "" then none else atoi (q "limit")) ∧
      (∀ l, req.Limit = some l → 0 < l) ∧
      req.Offset = (if q "offset" = "" then none else atoi (q "offset")) ∧
      (∀ o, req.Offset = some o → 0 ≤ o) ∧
      ∀ (σ : Type) (appList : Option application.ListRequest → σ →
          Except GoError (Option application.ListResponse) × σ) (s : σ),
        rest.GetList uuidParse atoi appList q s =
          match appList (some req) s with
          | (.error err, s1) => (⟨500, .Error err.Error⟩, s1)
          | (.ok resp, s1) => (⟨200, .Json resp⟩, s1)) := by
  refine ⟨?_, ?_, rest.listRequest_accepts uuidParse atoi q, ?_⟩
  · intro hq h
    obtain ⟨reply, h1, h2⟩ := rest.listRequest_bad_limit uuidParse atoi q hq h
    exact ⟨reply, h2, fun σ appList s => by simp only [rest.GetList, h1]⟩
  · intro hq h
    obtain ⟨reply, h1, h2⟩ := rest.listRequest_bad_offset uuidParse atoi q hq h
    exact ⟨reply, h2, fun σ appList s => by simp only [rest.GetList, h1]⟩
  · intro req h
    obtain ⟨h1, h2, h3, h4⟩ := rest.listRequest_ok uuidParse atoi q req h
    refine ⟨h1, h2, h3, h4, fun σ appList s => ?_⟩
    simp only [rest.GetList, h]
    rfl

theorem rest.GetList_limit_and_offset_witness :
    (∃ reply : rest.Reply application.ListResponse, reply.Status = 400 ∧
      rest.GetList Example.parse7 Example.atoi (application.List (storage.List Example.env))
        (Example.onlyLimit "0") [Example.septRow] = (reply, [Example.septRow])) ∧
    (∃ reply : rest.Reply application.ListResponse, reply.Status = 400 ∧
      rest.GetList Example.parse7 Example.atoi (application.List (storage.List Example.env))
        (Example.onlyLimit "ten") [Example.septRow] = (reply, [Example.septRow])) ∧
    rest.GetList Example.parse7 Example.atoi (application.List (storage.List Example.env))
        (Example.onlyLimit "10") [Example.septRow] =
      (⟨200, .Json (some ⟨[⟨⟨2⟩, Example.user, "Netflix", 10, "09-2025",
        some "12-2025"⟩]⟩)⟩, [Example.septRow]) := by
  have h := rest.GetList_limit_and_offset Example.parse7 Example.atoi
  obtain ⟨r1, h1, h2⟩ := (h (Example.onlyLimit "0")).1 (by decide)
    (Or.inr ⟨0, by decide, by decide⟩)
  obtain ⟨r2, h3, h4⟩ := (h (Example.onlyLimit "ten")).1 (by decide) (Or.inl (by decide))
  exact ⟨⟨r1, h1, h2 _ _ _⟩, ⟨r2, h3, h4 _ _ _⟩,
    ((h (Example.onlyLimit "10")).2.2.2 ⟨none, none, none, none, some 10, none⟩
      (by rfl)).2.2.2.2 _ (application.List (storage.List Example.env)) [Example.septRow]⟩

/-! ## Lemmas: validated dates in the storage layer -/

theorem storage.toISO_valid (s : String) (h : Spec.isMonthYear s = true) :
    ∃ iso, storage.toISO s = some iso ∧ pg.readDate iso = some (Spec.firstOfMonth s) := by
  obtain ⟨m1, m2, y1, y2, y3, y4, rfl, hm1, hm2, hy1, hy2, hy3, hy4, hlo, hhi⟩ :=
    Spec.isMonthYear_shape s h
  refine ⟨_, storage.toISO_digits m1 m2 y1 y2 y3 y4 hm1 hm2 hy1 hy2 hy3 hy4, ?_⟩
  rw [pg.readDate_digits m1 m2 y1 y2 y3 y4 hm1 hm2 hy1 hy2 hy3 hy4 hlo hhi]
  simp [Spec.yearOf, Spec.monthOf, time.digitVal, Spec.firstOfMonth]

theorem strings.Split_length_of_toISO (s iso : String) (h : storage.toISO s = some iso) :
    (strings.Split s '-').length = 2 := by
  have hc : s.data.count '-' = 1 := by
    by_contra hne
    rw [(storage.toISO_none_iff s).2 hne] at h
    cases h
  simp [strings.Split, strings.splitChars_length, hc]

theorem pg.insert_error (env : pg.Env) (u : uuid.UUID) (n : String) (p : Int)
    (sd : String) (ed : Option String) (db : pg.DB) (err : GoError)
    (hs : ∃ d, pg.readDate sd = some d) (he : ∀ e, ed = some e → ∃ d, pg.readDate e = some d)
    (h : pg.insert env u n p sd ed db = .error err) :
    env.execErr = some err ∨ err = pg.errDuplicateKey := by
  obtain ⟨d, hd⟩ := hs
  unfold pg.insert at h
  rcases hx : env.execErr with _ | e0
  · right
    rcases ed with _ | e
    · simp only [hx, hd] at h
      split at h
      · cases h; rfl
      · cases h
    · obtain ⟨d2, hd2⟩ := he e rfl
      simp only [hx, hd, hd2] at h
      split at h
      · cases h; rfl
      · cases h
  · left
    simp only [hx] at h
    cases h
    rfl

/-- C29: for every request that passes the application layer's date validation, the
storage layer's date-format error branches are not taken. A string accepted by
`validateDates` splits at `-` into exactly two parts, parses under the layout
`01-2006`, and the text `Create` builds from it (`YYYY-MM-01`) is read by the store as
the first day of that month. So an error of `storage.Create`, `storage.Update` or
`storage.GetTotalSubscriptionsPrice` on such a request is the connection's or the
engine's (for `Create` possibly a duplicate key), and `storage.List` gets as far as
building its statement. -/
theorem storage.date_errors_unreachable (env : pg.Env) (db : pg.DB) :
    (∀ (start end_ : Option String) (s : String),
      application.validateDates start end_ = none → (start = some s ∨ end_ = some s) →
      (strings.Split s '-').length = 2 ∧ time.Parse s = .ok (Spec.firstOfMonth s) ∧
        ∃ iso, storage.toISO s = some iso ∧
          pg.readDate iso = some (Spec.firstOfMonth s) ∧ (Spec.firstOfMonth s).day = 1) ∧
    (∀ (r : storage.CreateRequest) (err : GoError) (db1 : pg.DB),
      application.validateDates (some r.StartDate) r.EndDate = none →
      storage.Create env r db = (.error err, db1) →
      env.acquireErr = some err ∨ env.execErr = some err ∨ err = pg.errDuplicateKey) ∧
    (∀ r : storage.ListRequest, application.validateDates r.From r.To = none →
      ∃ query args, storage.listQuery r = .ok (query, args)) ∧
    (∀ (id : uuid.UUID) (r : storage.UpdateRequest) (err : GoError) (db1 : pg.DB),
      application.validateDates r.StartDate r.EndDate = none →
      storage.Update env id (some r) db = (.error err, db1) →
      env.acquireErr = some err ∨ env.execErr = some err) ∧
    (∀ (r : storage.TotalRequest) (err : GoError) (db1 : pg.DB),
      application.validateDates (some r.From) (some r.To) = none →
      storage.GetTotalSubscriptionsPrice env (some r) db = (.error err, db1) →
      env.acquireErr = some err ∨ env.execErr = some err) := by
  have hparts : ∀ start end_ : Option String, application.validateDates start end_ = none →
      (∀ d, start = some d → Spec.isMonthYear d = true) ∧
        (∀ d, end_ = some d → Spec.isMonthYear d = true) :=
    fun start end_ h => Spec.datesOk_parts _ _ ((application.validateDates_none_iff _ _).1 h)
  refine ⟨?_, ?_, ?_, ?_, ?_⟩
  · intro start end_ s hv hs
    have hm : Spec.isMonthYear s = true := by
      rcases hs with hs | hs
      · exact (hparts _ _ hv).1 s hs
      · exact (hparts _ _ hv).2 s hs
    obtain ⟨iso, h1, h2⟩ := storage.toISO_valid s hm
    exact ⟨strings.Split_length_of_toISO s iso h1, time.Parse_valid s hm, iso, h1, h2, rfl⟩
  · intro r err db1 hv h
    obtain ⟨hs, he⟩ := hparts _ _ hv
    obtain ⟨iso, h1, h2⟩ := storage.toISO_valid r.StartDate (hs _ rfl)
    rcases ha : env.acquireErr with _ | e0
    · right
      rcases hed : r.EndDate with _ | e
      · simp only [storage.Create, ha, h1, hed] at h
        rcases hi : pg.insert env r.UserID r.ServiceName r.Price iso none db with e1 | ⟨id, db2⟩
        · simp only [hi, Prod.mk.injEq, Except.error.injEq] at h
          rw [← h.1]
          exact pg.insert_error env _ _ _ iso none db e1 ⟨_, h2⟩ (by intro e he; cases he) hi
        · simp only [hi, Prod.mk.injEq] at h
          cases h.1
      · obtain ⟨iso2, h3, h4⟩ := storage.toISO_valid e (he e hed)
        simp only [storage.Create, ha, h1, hed, h3] at h
        rcases hi : pg.insert env r.UserID r.ServiceName r.Price iso (some iso2) db
          with e1 | ⟨id, db2⟩
        · simp only [hi, Prod.mk.injEq, Except.error.injEq] at h
          rw [← h.1]
          exact pg.insert_error env _ _ _ iso (some iso2) db e1 ⟨_, h2⟩
            (by intro e he; cases he; exact ⟨_, h4⟩) hi
        · simp only [hi, Prod.mk.injEq] at h
          cases h.1
    · left
      simp only [storage.Create, ha, Prod.mk.injEq, Except.error.injEq] at h
      rw [h.1]
  · intro r hv
    obtain ⟨hs, he⟩ := hparts _ _ hv
    exact ⟨_, _, Statement.listQuery_valid r hs he⟩
  · intro id r err db1 hv h
    obtain ⟨hs, he⟩ := hparts _ _ hv
    rcases ha : env.acquireErr with _ | e0
    · rcases hx : env.execErr with _ | e1
      · rw [storage.Update_valid env id r db ha hx hs he] at h
        simp only [Prod.mk.injEq] at h
        cases h.1
      · right
        rcases hsd : r.StartDate with _ | d1 <;> rcases hed : r.EndDate with _ | d2
        all_goals (try have p1 := time.Parse_valid _ (hs _ hsd))
        all_goals (try have p2 := time.Parse_valid _ (he _ hed))
        all_goals
          simp only [storage.Update, ha, hx, hsd, hed, Prod.mk.injEq, Except.error.injEq, *]
            at h
          rw [h.1]
    · left
      simp only [storage.Update, ha, Prod.mk.injEq, Except.error.injEq] at h
      rw [h.1]
  · intro r err db1 hv h
    obtain ⟨hs, he⟩ := hparts _ _ hv
    have p1 := time.Parse_valid _ (hs _ rfl)
    have p2 := time.Parse_valid _ (he _ rfl)
    rcases ha : env.acquireErr with _ | e0
    · rcases hx : env.execErr with _ | e1
      · simp only [storage.GetTotalSubscriptionsPrice, ha, hx, p1, p2, Prod.mk.injEq] at h
        cases h.1
      · right
        simp only [storage.GetTotalSubscriptionsPrice, ha, hx, p1, p2, Prod.mk.injEq,
          Except.error.injEq] at h
        rw [h.1]
    · left
      simp only [storage.GetTotalSubscriptionsPrice, ha, Prod.mk.injEq,
        Except.error.injEq] at h
      rw [h.1]

theorem storage.date_errors_unreachable_witness :
    application.validateDates (some "09-2025") (some "12-2025") = none ∧
    (strings.Split "12-2025" '-').length = 2 ∧
    time.Parse "12-2025" = .ok ⟨2025, 12, 1⟩ ∧
    ∃ iso, storage.toISO "12-2025" = some iso ∧ pg.readDate iso = some ⟨2025, 12, 1⟩ := by
  obtain ⟨h1, h2, iso, h3, h4, -⟩ :=
    (storage.date_errors_unreachable Example.env []).1 (some "09-2025") (some "12-2025")
      "12-2025" (by rfl) (Or.inr rfl)
  exact ⟨by rfl, h1, h2, iso, h3, h4⟩

/-! ## Lemmas: the rows List returns, stated on dates -/

theorem Spec.tests_listQuery_dates (r : storage.ListRequest)
    (hf : ∀ f, r.From = some f → Spec.isMonthYear f = true)
    (ht : ∀ t, r.To = some t → Spec.isMonthYear t = true) (tail : List pg.Arg) :
    ∃ tests, (pg.Cond.always :: Spec.numberedConds 1 (Spec.effectiveFilters r)).mapM
        (pg.Cond.test ((Spec.effectiveFilters r).map Prod.snd ++ tail)) = some tests ∧
      ∀ row : pg.Row, tests.all (fun t => t row) = Spec.listSelectsByDate r row := by
  obtain ⟨uid, sn, fr, tm, lim, off⟩ := r
  rcases uid with _ | u <;> rcases sn with _ | n <;> rcases fr with _ | f <;>
    rcases tm with _ | t
  all_goals (try by_cases hu : u = uuid.Nil)
  all_goals (try by_cases hn : n = "")
  all_goals
    refine ⟨_, by
      simp [Spec.effectiveFilters, Spec.userFilter, Spec.serviceFilter, Spec.numberedConds,
        Spec.filterCond, pg.Cond.test, pg.param, *]
      rfl, ?_⟩
  all_goals
    intro row
    simp [Spec.listSelectsByDate, Spec.userFilter, Spec.serviceFilter, Bool.and_assoc,
      Spec.dateLe_eq, *]

theorem Statement.List_valid (env : pg.Env) (r : storage.ListRequest) (db : pg.DB)
    (ha : env.acquireErr = none) (hx : env.execErr = none)
    (hf : ∀ f, r.From = some f → Spec.isMonthYear f = true)
    (ht : ∀ t, r.To = some t → Spec.isMonthYear t = true) :
    storage.List env (some r) db =
      (.ok ⟨(((pg.orderByStartDate (db.filter (Spec.listSelectsByDate r))).drop
        (Spec.effectiveOffset r.Offset).toNat).take
        (Spec.effectiveLimit r.Limit).toNat).map storage.scanRow⟩, db) := by
  obtain ⟨tests, htests, hsel⟩ := Spec.tests_listQuery_dates r hf ht
    [.int (Spec.effectiveLimit r.Limit), .int (Spec.effectiveOffset r.Offset)]
  have hl := pg.param_limit ((Spec.effectiveFilters r).map Prod.snd)
    (.int (Spec.effectiveLimit r.Limit)) (.int (Spec.effectiveOffset r.Offset))
  have ho := pg.param_offset ((Spec.effectiveFilters r).map Prod.snd)
    (.int (Spec.effectiveLimit r.Limit)) (.int (Spec.effectiveOffset r.Offset))
  simp only [List.length_map] at hl ho
  have hneg : ¬ (Spec.effectiveLimit r.Limit < 0 ∨ Spec.effectiveOffset r.Offset < 0) := by
    have := Spec.effectiveLimit_pos r.Limit
    have := Spec.effectiveOffset_nonneg r.Offset
    omega
  have hfilter : db.filter (fun row => tests.all (fun t => t row)) =
      db.filter (Spec.listSelectsByDate r) := by
    apply List.filter_congr
    intro row _
    exact hsel row
  simp only [storage.List, ha, hx, Statement.listQuery_valid r hf ht, pg.Query,
    pg.readSelect_listQuery, htests, hl, ho, hneg, if_false, hfilter]

theorem Spec.listSelectsByDate_eq_totalSelects (u : Option uuid.UUID) (n : Option String)
    (f t : String) (lim off : Option Int) (hu : u ≠ some uuid.Nil) (hn : n ≠ some "") :
    Spec.listSelectsByDate ⟨u, n, some f, some t, lim, off⟩ = Spec.totalSelects ⟨u, n, f, t⟩ := by
  funext row
  rcases u with _ | u <;> rcases n with _ | n
  all_goals (try have hu1 : u ≠ uuid.Nil := fun h => hu (by rw [h]))
  all_goals (try have hn1 : n ≠ "" := fun h => hn (by rw [h]))
  all_goals
    simp [Spec.listSelectsByDate, Spec.totalSelects, Spec.userFilter, Spec.serviceFilter,
      Bool.and_assoc, *]

/-- C30: List and TotalPrice select the same rows. For the same valid from and to, the
same service_name filter (absent or non-empty) and the same user_id filter (absent, or
present and not the nil UUID), with a store that answers, and with an offset of 0 and
a limit that covers every matching row, `storage.GetTotalSubscriptionsPrice` equals
the sum of `Price` over the records `storage.List` returns, and List returns as many
records as there are matching rows. -/
theorem Statement.Total_equals_sum_over_List (env : pg.Env) (u : Option uuid.UUID)
    (n : Option String) (f t : String) (lim off : Option Int) (db : pg.DB)
    (ha : env.acquireErr = none) (hx : env.execErr = none)
    (hf : Spec.isMonthYear f = true) (ht : Spec.isMonthYear t = true)
    (hu : u ≠ some uuid.Nil) (hn : n ≠ some "")
    (hoff : Spec.effectiveOffset off = 0)
    (hlim : ((db.filter (Spec.totalSelects ⟨u, n, f, t⟩)).length : Int) ≤
      Spec.effectiveLimit lim) :
    ∃ resp : storage.ListResponse,
      storage.List env (some ⟨u, n, some f, some t, lim, off⟩) db = (.ok resp, db) ∧
      storage.GetTotalSubscriptionsPrice env (some ⟨u, n, f, t⟩) db =
        (.ok ((resp.Subscriptions.map (fun sub => sub.Price)).sum), db) ∧
      resp.Subscriptions.length = (db.filter (Spec.totalSelects ⟨u, n, f, t⟩)).length ∧
      ∀ sub, sub ∈ resp.Subscriptions ↔
        ∃ row ∈ db, Spec.totalSelects ⟨u, n, f, t⟩ row = true ∧ sub = storage.scanRow row := by
  have hlist := Statement.List_valid env ⟨u, n, some f, some t, lim, off⟩ db ha hx
    (by intro f1 h1; cases h1; exact hf) (by intro t1 h1; cases h1; exact ht)
  rw [Spec.listSelectsByDate_eq_totalSelects u n f t lim off hu hn] at hlist
  simp only [hoff, Int.toNat_zero, List.drop_zero] at hlist
  have hperm : (pg.orderByStartDate (db.filter (Spec.totalSelects ⟨u, n, f, t⟩))).Perm
      (db.filter (Spec.totalSelects ⟨u, n, f, t⟩)) := List.perm_insertionSort _ _
  have hlen2 : (pg.orderByStartDate (db.filter (Spec.totalSelects ⟨u, n, f, t⟩))).length ≤
      (Spec.effectiveLimit lim).toNat := by
    rw [hperm.length_eq]
    omega
  rw [List.take_of_length_le hlen2] at hlist
  refine ⟨_, hlist, ?_, ?_, ?_⟩
  · rw [Statement.Total_valid env ⟨u, n, f, t⟩ db ha hx hf ht]
    have hmap : ((pg.orderByStartDate (db.filter (Spec.totalSelects ⟨u, n, f, t⟩))).map
        storage.scanRow).map (fun sub => sub.Price) =
        (pg.orderByStartDate (db.filter (Spec.totalSelects ⟨u, n, f, t⟩))).map
          (fun row => row.price) := by
      rw [List.map_map]
      rfl
    simp only [hmap]
    rw [(hperm.map (fun row => row.price)).sum_eq]
  · simp only [List.length_map]
    exact hperm.length_eq
  · intro sub
    simp only [List.mem_map, hperm.mem_iff, List.mem_filter]
    constructor
    · rintro ⟨row, ⟨h1, h2⟩, h3⟩
      exact ⟨row, h1, h2, h3.symm⟩
    · rintro ⟨row, h1, h2, h3⟩
      exact ⟨row, ⟨h1, h2⟩, h3.symm⟩

theorem Statement.Total_equals_sum_over_List_witness :
    ∃ resp : storage.ListResponse,
      storage.List Example.env (some ⟨none, some "i", some "09-2025", some "10-2025",
          none, none⟩) [Example.octRow, Example.netflixRow, Example.septRow] =
        (.ok resp, [Example.octRow, Example.netflixRow, Example.septRow]) ∧
      storage.GetTotalSubscriptionsPrice Example.env
          (some ⟨none, some "i", "09-2025", "10-2025"⟩)
          [Example.octRow, Example.netflixRow, Example.septRow] =
        (.ok ((resp.Subscriptions.map (fun sub => sub.Price)).sum),
          [Example.octRow, Example.netflixRow, Example.septRow]) ∧
      resp.Subscriptions.length = 2 := by
  obtain ⟨resp, h1, h2, h3, -⟩ := Statement.Total_equals_sum_over_List Example.env none
    (some "i") "09-2025" "10-2025" none none
    [Example.octRow, Example.netflixRow, Example.septRow] rfl rfl (by decide) (by decide)
    (by decide) (by decide) (by decide) (by decide)
  exact ⟨resp, h1, h2, h3⟩

/-! ## The service-name filter and the pattern characters -/

theorem pg.ilike_underscore (name : String) :
    pg.ilike name ("%" ++ "_" ++ "%") = decide (name ≠ "") := by
  have hp : ("%" ++ "_" ++ "%" : String).data.map Char.toLower = ['%', '_', '%'] := by decide
  have hne : (name ≠ "") ↔ name.data ≠ [] := by
    constructor
    · intro h hd
      exact h (String.ext hd)
    · intro h hn
      exact h (by rw [hn])
  rw [pg.ilike, hp, pg.like, pg.likeFrom_percent]
  rcases hd : name.data with _ | ⟨c, rest⟩
  · have : ¬ name ≠ "" := fun h => hne.1 h hd
    simp [pg.likeFrom, this]
  · have : name ≠ "" := hne.2 (by rw [hd]; simp)
    simp [pg.likeFrom, pg.like_percent_end, this]

/-- C20 (evaluation at the failing input): the service_name filter is not a contains
match when the filter string holds a pattern character. For the filter `_`,
`storage.List` binds the unescaped pattern `%_%`, and with a store that answers it
returns every row whose service_name is not empty, whether or not the name contains
`_`; `storage.GetTotalSubscriptionsPrice` sums the prices of these rows. So a table
holding the row named `Netflix`, which does not contain `_`, gives that record for
`GET /api/list?service_name=_` and counts its price in the total. -/
theorem Statement.underscore_filter_selects_every_name (env : pg.Env) (db : pg.DB)
    (lim off : Option Int) (ha : env.acquireErr = none) (hx : env.execErr = none) :
    storage.listQuery ⟨none, some "_", none, none, lim, off⟩ =
      .ok (Spec.selectText ["1=1", "service_name ILIKE $1"] 2 3,
        [.text "%_%", .int (Spec.effectiveLimit lim), .int (Spec.effectiveOffset off)]) ∧
    storage.List env (some ⟨none, some "_", none, none, lim, off⟩) db =
      (.ok ⟨(((pg.orderByStartDate (db.filter (fun row => decide (row.service_name ≠ "")))).drop
        (Spec.effectiveOffset off).toNat).take
        (Spec.effectiveLimit lim).toNat).map storage.scanRow⟩, db) ∧
    (∀ f t : String, Spec.isMonthYear f = true → Spec.isMonthYear t = true →
      storage.GetTotalSubscriptionsPrice env (some ⟨none, some "_", f, t⟩) db =
        (.ok (((db.filter (fun row => decide (row.service_name ≠ "") &&
          Spec.dateLe (Spec.firstOfMonth f) row.start_date &&
          Spec.dateLe row.start_date (Spec.lastOfMonth t))).map
            (fun row => row.price)).sum), db)) ∧
    Spec.containsIgnoreCase "Netflix" "_" = false ∧
    storage.List Example.env (some ⟨none, some "_", none, none, none, none⟩)
        [Example.netflixRow] =
      (.ok ⟨[⟨⟨1⟩, Example.user, "Netflix", 10, "01-2025", some "02-2025"⟩]⟩,
        [Example.netflixRow]) ∧
    storage.GetTotalSubscriptionsPrice Example.env
        (some ⟨none, some "_", "01-2025", "01-2025"⟩) [Example.netflixRow] =
      (.ok 10, [Example.netflixRow]) ∧
    rest.GetList Example.parse7 Example.atoi (application.List (storage.List Example.env))
        (fun key => if key = "service_name" then "_" else "") [Example.netflixRow] =
      (⟨200, .Json (some ⟨[⟨⟨1⟩, Example.user, "Netflix", 10, "01-2025",
        some "02-2025"⟩]⟩)⟩, [Example.netflixRow]) := by
  refine ⟨?_, ?_, ?_, by decide, by rfl, by rfl, by rfl⟩
  · rw [Statement.listQuery_valid ⟨none, some "_", none, none, lim, off⟩
      (by intro f h; cases h) (by intro t h; cases h)]
    rfl
  · rw [Statement.List_valid env ⟨none, some "_", none, none, lim, off⟩ db ha hx
      (by intro f h; cases h) (by intro t h; cases h)]
    have hfun : Spec.listSelectsByDate ⟨none, some "_", none, none, lim, off⟩ =
        fun row => decide (row.service_name ≠ "") := by
      funext row
      have h1 : Spec.serviceFilter ⟨none, some "_", none, none, lim, off⟩ = some "_" := by
        rfl
      simp only [Spec.listSelectsByDate, Spec.userFilter, h1, Bool.true_and, Bool.and_true,
        pg.ilike_underscore]
    rw [hfun]
  · intro f t hf ht
    rw [Statement.Total_valid env ⟨none, some "_", f, t⟩ db ha hx hf ht]
    have hfun : Spec.totalSelects ⟨none, some "_", f, t⟩ =
        fun row => decide (row.service_name ≠ "") &&
          Spec.dateLe (Spec.firstOfMonth f) row.start_date &&
          Spec.dateLe row.start_date (Spec.lastOfMonth t) := by
      funext row
      simp only [Spec.totalSelects, Bool.true_and, pg.ilike_underscore]
    rw [hfun]

theorem Statement.underscore_filter_selects_every_name_witness :
    storage.List Example.env (some ⟨none, some "_", none, none, none, none⟩)
        [Example.octRow, Example.septRow] =
      (.ok ⟨[⟨⟨2⟩, Example.user, "Netflix", 10, "09-2025", some "12-2025"⟩,
        ⟨⟨3⟩, Example.user, "Spotify", 15, "10-2025", none⟩]⟩,
        [Example.octRow, Example.septRow]) ∧
    Spec.containsIgnoreCase "Spotify" "_" = false :=
  ⟨(Statement.underscore_filter_selects_every_name Example.env
      [Example.octRow, Example.septRow] none none rfl rfl).2.1.trans (by rfl), by decide⟩

/-! ## Lemmas: an engine failure while the rows of List are read -/

theorem storage.List_failure_while_reading :
    storage.List ⟨none, some (.New "unexpected EOF"), ⟨1⟩, none⟩
        (some ⟨none, none, none, none, none, none⟩) [Example.septRow, Example.octRow] =
      (.error (.New "unexpected EOF"), [Example.septRow, Example.octRow]) ∧
    storage.List ⟨none, some (.New "unexpected EOF"), ⟨1⟩, some 1⟩
        (some ⟨none, none, none, none, none, none⟩) [Example.septRow, Example.octRow] =
      (.ok ⟨[storage.scanRow Example.septRow]⟩, [Example.septRow, Example.octRow]) := by
  refine ⟨by rfl, by rfl⟩
